import Mathlib

/-!
rpgtools: the `Bitmap` image codec and compositor.

A shallow embedding of `src/rpgtools/common/old/bitmap.cpp`.

Modelling conventions

* `unsigned int` is 32 bits wide: every unsigned result is reduced modulo `2^32`
  (`wrapU`).  `int` is 32 bits wide: a signed result outside the `int` range is
  undefined behaviour in C++ and is reported as `Fault.undefined` (`checkInt`).
* `std::vector` is a `List`; an access outside the vector is undefined behaviour
  and is reported as `Fault.undefined`.
* A `throw std::runtime_error(msg)` is `Fault.thrown msg`.  The file name that
  the handlers put in front of the message is left out.
* A file is the list of its bytes.  A read that runs past the end of the file
  is `Fault.stream`: what the program does then depends on the stream class
  declared in `os.h`, which is not among the sources.
* zlib and libpng are external libraries: the inflate function and the image
  that libpng hands back are inputs of the model.
-/

namespace Rpgtools

/-! ## Outcomes -/

/-- The ways a call can end without a result. -/
inductive Fault where
  | thrown (msg : String)
  | stream
  | undefined
deriving DecidableEq, Repr

/-- The outcome of a call: a result or a fault. -/
abbrev Run (α : Type) := Except Fault α

deriving instance DecidableEq for Except

/-! ## Machine integers -/

/-- The value of an `unsigned int` expression whose mathematical value is `v`. -/
def wrapU (v : Int) : Nat := (v % 4294967296).toNat

/-- The value of a signed `int` expression whose mathematical value is `v`:
overflow is undefined behaviour. -/
def checkInt (v : Int) : Run Int :=
  if -2147483648 ≤ v ∧ v ≤ 2147483647 then .ok v else .error .undefined

/-- Conversion of an `unsigned int` value to `int` (two's complement). -/
def toInt (n : Nat) : Int :=
  if n < 2147483648 then (n : Int) else (n : Int) - 4294967296

/-! ## Vector accesses -/

/-- The element `v[i]` for an unsigned index. -/
def vecGet {α : Type} (v : List α) (i : Nat) : Run α :=
  match v[i]? with
  | some a => .ok a
  | none => .error .undefined

/-- The element `v[i]` for an `int` index: a negative index converts to a
`size_t` beyond every vector. -/
def vecGetI {α : Type} (v : List α) (i : Int) : Run α :=
  if 0 ≤ i then vecGet v i.toNat else .error .undefined

/-- The assignment `v[i] = a` for an unsigned index. -/
def vecSet {α : Type} (v : List α) (i : Nat) (a : α) : Run (List α) :=
  if i < v.length then .ok (v.set i a) else .error .undefined

/-- The assignment `v[i] = a` for an `int` index. -/
def vecSetI {α : Type} (v : List α) (i : Int) (a : α) : Run (List α) :=
  if 0 ≤ i then vecSet v i.toNat a else .error .undefined

/-- The `n` elements of the range `[v.begin() + off, v.begin() + off + n)`. -/
def vecRange {α : Type} (v : List α) (off : Nat) (n : Nat) : Run (List α) :=
  if off + n ≤ v.length then .ok ((v.drop off).take n) else .error .undefined

/-- The range `[v.begin() + off, v.begin() + off + n)` for an `int` offset. -/
def vecRangeI {α : Type} (v : List α) (off : Int) (n : Nat) : Run (List α) :=
  if 0 ≤ off then vecRange v off.toNat n else .error .undefined

/-- The call `std::copy(first, last, dst.begin() + off)` where `src` holds the
elements of `[first, last)`. -/
def copyTo {α : Type} (dst : List α) (off : Nat) (src : List α) : Run (List α) :=
  if off + src.length ≤ dst.length then
    .ok (dst.take off ++ src ++ dst.drop (off + src.length))
  else .error .undefined

/-- The call `std::copy` with an `int` destination offset. -/
def copyToI {α : Type} (dst : List α) (off : Int) (src : List α) : Run (List α) :=
  if 0 ≤ off then copyTo dst off.toNat src else .error .undefined

/-- The loop `for (i = 0; i < n; ++i) body`, threading the state through. -/
def forUpTo {σ : Type} (n : Nat) (body : Nat → σ → Run σ) (s : σ) : Run σ :=
  match n with
  | 0 => .ok s
  | k + 1 =>
    match forUpTo k body s with
    | .ok t => body k t
    | .error e => .error e

/-! ## The canvas -/

/-- The type `uint8_t`. -/
abbrev Byte := Fin 256

/-- The class `Bitmap`: `width`, `height`, the RGB bytes and the opacity flags. -/
structure Bitmap where
  width : Nat
  height : Nat
  pixels : List Byte
  alpha : List Bool
deriving DecidableEq, Repr

/-- The constructor `Bitmap::Bitmap()`. -/
def Bitmap.empty : Bitmap :=
  { width := 0, height := 0, pixels := [], alpha := [] }

/-- The constructor `Bitmap::Bitmap(unsigned int width, unsigned int height)`:
`pixels(width * height * 3)`, `alpha(width * height, false)`. -/
def Bitmap.blank (width height : Nat) : Bitmap :=
  { width := width
    height := height
    pixels := List.replicate (wrapU (width * height * 3)) 0
    alpha := List.replicate (wrapU (width * height)) false }

/-- The buffer-length invariant of the specification. -/
def Bitmap.lengthsOk (b : Bitmap) : Prop :=
  b.pixels.length = b.width * b.height * 3 ∧ b.alpha.length = b.width * b.height

/-- What the types of the fields guarantee: `width` and `height` are
`unsigned int`, and both vectors are only ever built with an `unsigned int` size. -/
def Bitmap.fits (b : Bitmap) : Prop :=
  b.width < 4294967296 ∧ b.height < 4294967296 ∧
  b.pixels.length < 4294967296 ∧ b.alpha.length < 4294967296

/-- The opacity flag of pixel `(x, y)`. -/
def Bitmap.opacityAt (b : Bitmap) (x y : Nat) : Option Bool :=
  b.alpha[y * b.width + x]?

/-- The R, G, B bytes of pixel `(x, y)`. -/
def Bitmap.rgbAt (b : Bitmap) (x y : Nat) : Option (Byte × Byte × Byte) :=
  match b.pixels[(y * b.width + x) * 3]?, b.pixels[(y * b.width + x) * 3 + 1]?,
    b.pixels[(y * b.width + x) * 3 + 2]? with
  | some r, some g, some bl => some (r, g, bl)
  | _, _, _ => none

/-! ## `Bitmap::blit` -/

/-- The body of the inner loop of `blit` at offset `(x, y)`. -/
def blitPixel (other : Bitmap) (mX mY oX oY : Int) (y x : Nat) (self : Bitmap) :
    Run Bitmap := do
  let oRow ← checkInt (oY + y)
  let oOffset := toInt (wrapU (oRow * other.width + oX + x))
  let mRow ← checkInt (mY + y)
  let mIndex := wrapU (mRow * self.width + mX + x)
  let mOffset := toInt mIndex
  let srcOpaque ← vecGetI other.alpha oOffset
  if srcOpaque then
    let alpha ← vecSetI self.alpha mOffset true
    let first ← checkInt (oOffset * 3)
    let colour ← vecRangeI other.pixels first 3
    let pixels ← copyTo self.pixels (wrapU ((mIndex : Int) * 3)) colour
    pure { self with alpha := alpha, pixels := pixels }
  else
    pure self

/-- The method `Bitmap::blit(mX, mY, other, oX, oY, oW, oH)` called on `self`. -/
def blit (self : Bitmap) (mX mY : Int) (other : Bitmap) (oX oY oW oH : Int) : Run Bitmap :=
  forUpTo oH.toNat (fun y s => forUpTo oW.toNat (fun x t => blitPixel other mX mY oX oY y x t) s)
    self

/-- The rectangle of a `blit` call is in range of both canvases. -/
def blitInRange (self : Bitmap) (mX mY : Int) (other : Bitmap) (oX oY oW oH : Int) : Prop :=
  0 ≤ oX ∧ 0 ≤ oY ∧ oX + oW ≤ other.width ∧ oY + oH ≤ other.height ∧
  0 ≤ mX ∧ 0 ≤ mY ∧ mX + oW ≤ self.width ∧ mY + oH ≤ self.height

instance (b : Bitmap) : Decidable b.lengthsOk := by
  unfold Bitmap.lengthsOk; infer_instance

instance (b : Bitmap) : Decidable b.fits := by
  unfold Bitmap.fits; infer_instance

instance (self : Bitmap) (mX mY : Int) (other : Bitmap) (oX oY oW oH : Int) :
    Decidable (blitInRange self mX mY other oX oY oW oH) := by
  unfold blitInRange; infer_instance

/-! ## `Bitmap::blit` on objects

The parameter `other` of `blit` is a reference: it may name a canvas other
than `*this`, or `*this` itself. -/

/-- The body of the inner loop of `blit` at offset `(x, y)` when `other` is
`*this`: flags and bytes are read from and written to the same canvas.
`std::copy` requires that the destination does not lie in the source range. -/
def blitSelfPixel (mX mY oX oY : Int) (y x : Nat) (self : Bitmap) : Run Bitmap := do
  let oRow ← checkInt (oY + y)
  let oOffset := toInt (wrapU (oRow * self.width + oX + x))
  let mRow ← checkInt (mY + y)
  let mIndex := wrapU (mRow * self.width + mX + x)
  let mOffset := toInt mIndex
  let srcOpaque ← vecGetI self.alpha oOffset
  if srcOpaque then
    let alpha ← vecSetI self.alpha mOffset true
    let first ← checkInt (oOffset * 3)
    let colour ← vecRangeI self.pixels first 3
    let target := wrapU ((mIndex : Int) * 3)
    if first ≤ (target : Int) ∧ (target : Int) < first + 3 then
      .error .undefined
    else
      let pixels ← copyTo self.pixels target colour
      pure { self with alpha := alpha, pixels := pixels }
  else
    pure self

/-- One iteration of the call `objs[self].blit(mX, mY, objs[other], ...)` on the
canvases `objs` of a program. -/
def blitRefPixel (self other : Nat) (mX mY oX oY : Int) (y x : Nat) (objs : List Bitmap) :
    Run (List Bitmap) := do
  let dst ← vecGet objs self
  if self = other then
    let dst ← blitSelfPixel mX mY oX oY y x dst
    pure (objs.set self dst)
  else
    let src ← vecGet objs other
    let dst ← blitPixel src mX mY oX oY y x dst
    pure (objs.set self dst)

/-- The call `objs[self].blit(mX, mY, objs[other], oX, oY, oW, oH)` on the
canvases `objs` of a program. -/
def blitRef (self other : Nat) (mX mY oX oY oW oH : Int) (objs : List Bitmap) :
    Run (List Bitmap) :=
  forUpTo oH.toNat (fun y s => forUpTo oW.toNat
    (fun x t => blitRefPixel self other mX mY oX oY y x t) s) objs

/-! ## Files -/

/-- The value of a little-endian sequence of bytes. -/
def leValue : List Byte → Nat
  | [] => 0
  | b :: bs => b.val + 256 * leValue bs

/-- The call `file.read(buffer, n)` with the stream positioned at `pos`. -/
def readAt (file : List Byte) (pos n : Nat) : Run (List Byte) :=
  if pos + n ≤ file.length then .ok ((file.drop pos).take n) else .error .stream

/-- The message `ERROR_GENERIC`. -/
def ERROR_GENERIC : String := "unknown read error"

/-- The array `xyzMagicNumber`, the characters `XYZ1`. -/
def xyzMagicNumber : List Byte := [88, 89, 90, 49]

/-- The array `bmpMagicNumber`, the characters `BM`. -/
def bmpMagicNumber : List Byte := [66, 77]

/-! ## `Bitmap::readFromXyz` -/

/-- The zlib call `uncompress(dest, &destLen, source, sourceLen)` for a
destination of `dest.length` bytes: it returns `Z_OK` when the stream inflates
and its output fits the destination, and then leaves the output at the front of
the destination and its length in `destLen`.  `inflate` is zlib's inflation of a
complete stream. -/
def uncompress (inflate : List Byte → Option (List Byte)) (dest source : List Byte) :
    Option (List Byte × Nat) :=
  match inflate source with
  | some out =>
    if out.length ≤ dest.length then some (out ++ dest.drop out.length, out.length) else none
  | none => none

/-- The body of the inner loop of `readFromXyz` at pixel `(x, y)`. -/
def xyzPixel (data : List Byte) (y x : Nat) (self : Bitmap) : Run Bitmap := do
  let offset := toInt (wrapU (256 * 3 + y * self.width + x))
  let index ← vecGetI data offset
  let alpha ← vecSet self.alpha (wrapU (y * self.width + x)) (index != 0)
  let colour ← vecRange data (index.val * 3) 3
  let pixels ← copyTo self.pixels (wrapU ((y * self.width + x) * 3)) colour
  pure { self with alpha := alpha, pixels := pixels }

/-- The method `Bitmap::readFromXyz` on the bytes of the file. -/
def readFromXyz (inflate : List Byte → Option (List Byte)) (file : List Byte) : Run Bitmap := do
  let magicNumber ← readAt file 0 4
  if magicNumber ≠ xyzMagicNumber then
    throw (.thrown "not a valid XYZ file")
  else
    let width := leValue (← readAt file 4 2)
    let height := leValue (← readAt file 6 2)
    let size := file.length - 8
    if size = 0 then
      throw (.thrown "not a valid XYZ file")
    else
      let dataCompressed ← readAt file 8 size
      let size := wrapU (256 * 3 + width * height)
      match uncompress inflate (List.replicate size 0) dataCompressed with
      | none => throw (.thrown "zlib error")
      | some (data, size) =>
        if size ≠ data.length then
          throw (.thrown "uncompressed image data too small")
        else
          let self : Bitmap :=
            { width := width
              height := height
              pixels := List.replicate (wrapU (width * height * 3)) 0
              alpha := List.replicate (wrapU (width * height)) false }
          forUpTo height (fun y s => forUpTo width (fun x t => xyzPixel data y x t) s) self

/-! ## `Bitmap::readFromBmp` -/

/-- The body of the inner loop of `readFromBmp` at pixel `(x, y)`. -/
def bmpPixel (palette bmpPixels : List Byte) (topDown : Bool) (y x : Nat) (self : Bitmap) :
    Run Bitmap := do
  let srcOffset :=
    toInt (wrapU ((if topDown then (y : Int) else self.height - 1 - y) * self.width + x))
  let dstOffset := toInt (wrapU ((y * self.width + x) * 3))
  let index ← vecGetI bmpPixels srcOffset
  let alpha ← vecSet self.alpha (wrapU (y * self.width + x)) (index != 0)
  let colour : Int := index.val * 4
  let red ← vecGetI palette (colour + 2)
  let pixels ← vecSetI self.pixels (← checkInt (dstOffset + 0)) red
  let green ← vecGetI palette (colour + 1)
  let pixels ← vecSetI pixels (← checkInt (dstOffset + 1)) green
  let blue ← vecGetI palette (colour + 0)
  let pixels ← vecSetI pixels (← checkInt (dstOffset + 2)) blue
  pure { self with alpha := alpha, pixels := pixels }

/-- The method `Bitmap::readFromBmp` on the bytes of the file. -/
def readFromBmp (file : List Byte) : Run Bitmap := do
  let magicNumber ← readAt file 0 2
  if magicNumber ≠ bmpMagicNumber then
    throw (.thrown "not a valid BMP file")
  else
    let pixelOffset := leValue (← readAt file 10 4)
    let paletteOffset := leValue (← readAt file 14 4)
    let paletteOffset := wrapU (paletteOffset + 14)
    let width := leValue (← readAt file 18 4)
    let temp := toInt (leValue (← readAt file 22 4))
    if width = 0 ∨ temp = 0 then
      throw (.thrown "invalid image dimensions")
    else
      let topDown : Bool := decide (temp < 0)
      let height := (← checkInt |temp|).toNat
      let temp := leValue (← readAt file 26 2)
      if temp ≠ 1 then
        throw (.thrown "number of BMP planes is not 1")
      else
        let temp := leValue (← readAt file 28 2)
        if temp ≠ 8 then
          throw (.thrown "BMP is not 8-bit")
        else
          let temp := leValue (← readAt file 30 4)
          if temp ≠ 0 then
            throw (.thrown "BMP is compressed")
          else
            let paletteSize := leValue (← readAt file 34 4)
            if paletteSize > 256 then
              throw (.thrown "BMP header specifies more than 256 colors")
            else
              let paletteSize := if paletteSize = 0 then 256 else paletteSize
              let palette ← readAt file paletteOffset (wrapU (paletteSize * 4))
              let bmpPixels ← readAt file pixelOffset (wrapU (width * height))
              let self : Bitmap :=
                { width := width
                  height := height
                  pixels := List.replicate (wrapU (width * height * 3)) 0
                  alpha := List.replicate (wrapU (width * height)) false }
              forUpTo height (fun y s => forUpTo width
                (fun x t => bmpPixel palette bmpPixels topDown y x t) s) self

/-! ## `Bitmap::readFromPng` -/

/-- The value `PNG_COLOR_TYPE_GRAY` of `png.h`. -/
def PNG_COLOR_TYPE_GRAY : Nat := 0
/-- The value `PNG_COLOR_TYPE_RGB` of `png.h`. -/
def PNG_COLOR_TYPE_RGB : Nat := 2
/-- The value `PNG_COLOR_TYPE_PALETTE` of `png.h`. -/
def PNG_COLOR_TYPE_PALETTE : Nat := 3
/-- The value `PNG_COLOR_TYPE_GRAY_ALPHA` of `png.h`. -/
def PNG_COLOR_TYPE_GRAY_ALPHA : Nat := 4
/-- The value `PNG_COLOR_TYPE_RGBA` of `png.h`. -/
def PNG_COLOR_TYPE_RGBA : Nat := 6

/-- The eight bytes of the PNG signature, which `png_sig_cmp` compares with. -/
def pngSignature : List Byte := [137, 80, 78, 71, 13, 10, 26, 10]

/-- What libpng holds after `png_read_png`: the results of
`png_get_image_width`, `png_get_image_height`, `png_get_color_type`,
`png_get_rows` and `png_get_PLTE` (entries `red, green, blue`).  The field
`trans` is the alpha table of the file's `tRNS` chunk, empty when the file has
none; `readFromPng` never asks libpng for it. -/
structure PngInfo where
  width : Nat
  height : Nat
  colorType : Nat
  rows : List (List Byte)
  palette : List (Byte × Byte × Byte)
  trans : List Byte := []
deriving DecidableEq, Repr

/-- The number of bytes of a pixel in a row of the given colour type, after
the transforms `PNG_TRANSFORM_STRIP_16 | PNG_TRANSFORM_PACKING`. -/
def channels (colorType : Nat) : Nat :=
  if colorType = PNG_COLOR_TYPE_RGBA then 4
  else if colorType = PNG_COLOR_TYPE_RGB then 3
  else if colorType = PNG_COLOR_TYPE_GRAY_ALPHA then 2
  else 1

/-- The rows libpng returns: one row per line of the image, each of
`width * channels` bytes. -/
def PngInfo.rowsOk (info : PngInfo) : Prop :=
  info.rows.length = info.height ∧
  ∀ row ∈ info.rows, row.length = info.width * channels info.colorType

/-- The value `PNG_USER_WIDTH_MAX` of libpng's `pnglibconf.h`: the widest image
the library reads when the program does not call `png_set_user_limits`. -/
def PNG_USER_WIDTH_MAX : Nat := 1000000

/-- The value `PNG_USER_HEIGHT_MAX` of libpng's `pnglibconf.h`. -/
def PNG_USER_HEIGHT_MAX : Nat := 1000000

/-- The image is one that libpng hands back: its rows are as `rowsOk` says and
its dimensions are within the library's default limits, which the program does
not change. -/
def PngInfo.fromLibpng (info : PngInfo) : Prop :=
  info.rowsOk ∧ info.width ≤ PNG_USER_WIDTH_MAX ∧ info.height ≤ PNG_USER_HEIGHT_MAX

instance (info : PngInfo) : Decidable info.rowsOk := by
  unfold PngInfo.rowsOk; infer_instance

instance (info : PngInfo) : Decidable info.fromLibpng := by
  unfold PngInfo.fromLibpng; infer_instance

/-- The body of the loop of the case `PNG_COLOR_TYPE_PALETTE`. -/
def pngPalettePixel (rows : List (List Byte)) (palette : List (Byte × Byte × Byte))
    (y x : Nat) (self : Bitmap) : Run Bitmap := do
  let row ← vecGet rows y
  let index ← vecGet row x
  let alpha ← vecSet self.alpha (wrapU (y * self.width + x)) (index != 0)
  let colour ← vecGet palette index.val
  let pixels ← copyTo self.pixels (wrapU ((y * self.width + x) * 3))
    [colour.1, colour.2.1, colour.2.2]
  pure { self with alpha := alpha, pixels := pixels }

/-- The body of the loop of the case `PNG_COLOR_TYPE_RGB`. -/
def pngRgbRow (rows : List (List Byte)) (y : Nat) (self : Bitmap) : Run Bitmap := do
  let row ← vecGet rows y
  let bytes ← vecRange row 0 (wrapU (self.width * 3))
  let pixels ← copyTo self.pixels (wrapU ((y * self.width) * 3)) bytes
  pure { self with pixels := pixels }

/-- The body of the loop of the case `PNG_COLOR_TYPE_RGBA`. -/
def pngRgbaPixel (rows : List (List Byte)) (y x : Nat) (self : Bitmap) : Run Bitmap := do
  let row ← vecGet rows y
  let colour := wrapU (x * 4)
  let a ← vecGet row (colour + 3)
  let alpha ← vecSet self.alpha (wrapU (y * self.width + x)) (a != 0)
  let bytes ← vecRange row colour 3
  let pixels ← copyTo self.pixels (wrapU ((y * self.width + x) * 3)) bytes
  pure { self with alpha := alpha, pixels := pixels }

/-- The body of the loop of the case `PNG_COLOR_TYPE_GRAY`. -/
def pngGrayPixel (rows : List (List Byte)) (y x : Nat) (self : Bitmap) : Run Bitmap := do
  let offset := toInt (wrapU ((y * self.width + x) * 3))
  let row ← vecGet rows y
  let gray ← vecGet row x
  let pixels ← copyToI self.pixels offset [gray, gray, gray]
  pure { self with pixels := pixels }

/-- The body of the loop of the case `PNG_COLOR_TYPE_GRAY_ALPHA`. -/
def pngGrayAlphaPixel (rows : List (List Byte)) (y x : Nat) (self : Bitmap) : Run Bitmap := do
  let offset := toInt (wrapU (y * self.width + x))
  let row ← vecGet rows y
  let a ← vecGet row (wrapU (x * 2 + 1))
  let alpha ← vecSetI self.alpha offset (a != 0)
  let first ← checkInt (offset * 3)
  let gray ← vecGet row (wrapU (x * 2))
  let pixels ← copyToI self.pixels first [gray, gray, gray]
  pure { self with alpha := alpha, pixels := pixels }

/-- The `switch` of `readFromPng` on the colour type, run on the freshly
allocated canvas: the text left in `error` and the canvas. -/
def pngSwitch (info : PngInfo) (error : String) (self : Bitmap) : Run (String × Bitmap) :=
  if info.colorType = PNG_COLOR_TYPE_PALETTE then do
    let r ← forUpTo self.height (fun y s => forUpTo self.width
      (fun x t => pngPalettePixel info.rows info.palette y x t) s) self
    pure (error, r)
  else if info.colorType = PNG_COLOR_TYPE_RGB then do
    let filled := { self with alpha := List.replicate self.alpha.length true }
    let r ← forUpTo self.height (fun y s => pngRgbRow info.rows y s) filled
    pure (error, r)
  else if info.colorType = PNG_COLOR_TYPE_RGBA then do
    let r ← forUpTo self.height (fun y s => forUpTo self.width
      (fun x t => pngRgbaPixel info.rows y x t) s) self
    pure (error, r)
  else if info.colorType = PNG_COLOR_TYPE_GRAY then do
    let filled := { self with alpha := List.replicate self.alpha.length true }
    let r ← forUpTo self.height (fun y s => forUpTo self.width
      (fun x t => pngGrayPixel info.rows y x t) s) filled
    pure (error, r)
  else if info.colorType = PNG_COLOR_TYPE_GRAY_ALPHA then do
    let r ← forUpTo self.height (fun y s => forUpTo self.width
      (fun x t => pngGrayAlphaPixel info.rows y x t) s) self
    pure ("unknown image type", r)
  else
    pure ("unknown image type", self)

/-- The method `Bitmap::readFromPng`.  `file` is the content of the file, or
`none` when it cannot be opened; `libpng` is what `png_read_png` makes of the
content, or `none` when the library reports an error through `longjmp`.  The
failure of `png_create_read_struct` or `png_create_info_struct` is left out. -/
def readFromPng (libpng : List Byte → Option PngInfo) (file : Option (List Byte)) :
    Run Bitmap :=
  match file with
  | none => throw (.thrown "could not open file")
  | some content =>
    if content.length < 8 then
      throw (.thrown "could not validate as PNG")
    else if content.take 8 ≠ pngSignature then
      throw (.thrown "not a valid PNG file")
    else
      match libpng content with
      | none => throw (.thrown ERROR_GENERIC)
      | some info => do
        let width := info.width
        let height := info.height
        let error := if width = 0 ∨ height = 0 then "invalid image dimensions" else ""
        let self : Bitmap :=
          { width := width
            height := height
            pixels := List.replicate (wrapU (width * height * 3)) 0
            alpha := List.replicate (wrapU (width * height)) false }
        let (error, self) ← pngSwitch info error self
        if error ≠ "" then
          throw (.thrown error)
        else
          pure self

/-! ## `Bitmap::writeToPng` -/

/-- The body of the inner loop of `writeToPng` at pixel `(x, y)`, on the row
buffer. -/
def writeRowPixel (self : Bitmap) (y x : Nat) (row : List Byte) : Run (List Byte) := do
  let offset := toInt (wrapU ((y * self.width + x) * 3))
  let colour ← vecRangeI self.pixels offset 3
  let row ← copyTo row (wrapU (x * 4)) colour
  let a ← vecGet self.alpha (wrapU (y * self.width + x))
  vecSet row (wrapU (x * 4 + 3)) (if a then 255 else 0)

/-- The environment of a `writeToPng` call: whether `Util::fopen` returns a file,
whether `png_create_write_struct` and `png_create_info_struct` return their
structures, and whether libpng's `k`-th write to the file succeeds (write 0 is
`png_write_info`, write `y + 1` is `png_write_row` of row `y`, write
`height + 1` is `png_write_end`).  A write that does not succeed makes libpng
call `png_error`, which returns through `longjmp`. -/
structure PngWriter where
  fileOpens : Bool
  created : Bool
  writes : Nat → Bool

/-- Nothing fails in the environment. -/
def PngWriter.succeeds (env : PngWriter) : Prop :=
  env.fileOpens = true ∧ env.created = true ∧ ∀ k, env.writes k = true

/-- The check `png_check_IHDR` of libpng that `png_set_IHDR` makes of the
dimensions (the other arguments of the call are constants that pass): a zero
width or height and a width or height above the library's limit end in
`png_error`. -/
def pngCheckIHDR (width height : Nat) : Bool :=
  decide (width ≠ 0 ∧ height ≠ 0 ∧ width ≤ PNG_USER_WIDTH_MAX ∧ height ≤ PNG_USER_HEIGHT_MAX)

/-- The call `png_write_row(png, row.data())` for row `y`: the row joins the rows
handed to the library, or the library reports an error. -/
def pngWriteRow (env : PngWriter) (y : Nat) (row : List Byte) (rows : List (List Byte)) :
    Run (List (List Byte)) :=
  if env.writes (y + 1) then pure (rows ++ [row]) else throw (.thrown "unknown error while writing PNG")

/-- The loop of `writeToPng` that fills the row buffer and hands it to
`png_write_row`: the state is the row buffer and the rows written so far. -/
def writeRows (self : Bitmap) (env : PngWriter) : Run (List Byte × List (List Byte)) :=
  forUpTo self.height (fun y st => do
    let row := List.replicate st.1.length (0 : Byte)
    let row ← forUpTo self.width (fun x r => writeRowPixel self y x r) row
    let rows ← pngWriteRow env y row st.2
    pure (row, rows))
    (List.replicate (wrapU (self.width * 4)) 0, [])

/-- The method `Bitmap::writeToPng`: the rows handed to `png_write_row`, in
order.  Every failure of the environment and every error that libpng reports
ends in the exception "unknown error while writing PNG". -/
def writeToPng (self : Bitmap) (env : PngWriter) : Run (List (List Byte)) :=
  if !env.fileOpens then
    throw (.thrown "unknown error while writing PNG")
  else if !env.created then
    throw (.thrown "unknown error while writing PNG")
  else if !pngCheckIHDR self.width self.height then
    throw (.thrown "unknown error while writing PNG")
  else if !env.writes 0 then
    throw (.thrown "unknown error while writing PNG")
  else do
    let st ← writeRows self env
    if !env.writes (self.height + 1) then
      throw (.thrown "unknown error while writing PNG")
    else
      pure st.2

/-! ## Loop invariants -/

/-- The state of the destination after `p` iterations of `blit`, in scan order
over a `w`-wide rectangle. -/
def BlitInv (d o : Bitmap) (mx my ox oy w h p : Nat) (s : Bitmap) : Prop :=
  s.width = d.width ∧ s.height = d.height ∧
  s.pixels.length = d.pixels.length ∧ s.alpha.length = d.alpha.length ∧
  (∀ x y, x < w → y < h → y * w + x < p →
    o.alpha[(oy + y) * o.width + (ox + x)]? = some true →
    s.alpha[(my + y) * d.width + (mx + x)]? = some true ∧
    ∀ k, k < 3 → s.pixels[((my + y) * d.width + (mx + x)) * 3 + k]? =
      o.pixels[((oy + y) * o.width + (ox + x)) * 3 + k]?) ∧
  (∀ j, (∀ x y, x < w → y < h → y * w + x < p →
      o.alpha[(oy + y) * o.width + (ox + x)]? = some true →
      j ≠ (my + y) * d.width + (mx + x)) →
    s.alpha[j]? = d.alpha[j]? ∧ ∀ k, k < 3 → s.pixels[j * 3 + k]? = d.pixels[j * 3 + k]?)

/-- The canvas `s'` is `s` after pixel `i` (row-major) received the bytes `rgb`
and, when `a` is given, the flag `a`, at the offsets that 32-bit unsigned
arithmetic yields for `i * 3` and `i`. -/
def StoreAt (s : Bitmap) (i : Nat) (a : Option Bool) (rgb : List Byte) (s' : Bitmap) : Prop :=
  rgb.length = 3 ∧
  (i * 3) % 4294967296 + 3 ≤ s.pixels.length ∧
  (a.isSome = true → i % 4294967296 < s.alpha.length) ∧
  s'.width = s.width ∧ s'.height = s.height ∧
  s'.pixels = s.pixels.take ((i * 3) % 4294967296) ++ rgb ++
    s.pixels.drop ((i * 3) % 4294967296 + 3) ∧
  s'.alpha = match a with
    | some b => s.alpha.set (i % 4294967296) b
    | none => s.alpha

/-- The state of a canvas after a decoder stored the first `p` pixels. -/
def FillInv (V : Nat → Nat → Option Bool → List Byte → Prop) (s0 : Bitmap) (w h p : Nat)
    (s : Bitmap) : Prop :=
  s.width = w ∧ s.height = s0.height ∧
  s.pixels.length = s0.pixels.length ∧ s.alpha.length = s0.alpha.length ∧
  (∀ i, i < p → (i * 3) % 4294967296 + 3 ≤ s0.pixels.length) ∧
  (w * h * 3 < 4294967296 → ∀ x y, x < w → y < h → y * w + x < p →
    ∃ a rgb, V y x a rgb ∧
      (∀ k, k < 3 → s.pixels[(y * w + x) * 3 + k]? = rgb[k]?) ∧
      (∀ b, a = some b → s.alpha[y * w + x]? = some b) ∧
      (a = none → s.alpha[y * w + x]? = s0.alpha[y * w + x]?)) ∧
  (w * h * 3 < 4294967296 → ∀ j, p ≤ j → s.alpha[j]? = s0.alpha[j]?)

/-- The row buffer `row` holds line `y` of the canvas as `writeToPng` lays it
out: four bytes per pixel, the RGB bytes of the pixel and then 255 or 0. -/
def RowHolds (self : Bitmap) (y : Nat) (row : List Byte) : Prop :=
  row.length = self.width * 4 ∧ self.width * 4 < 4294967296 ∧
  ∀ x, x < self.width → ∃ a : Bool,
    self.alpha[(y * self.width + x) % 4294967296]? = some a ∧
    ((y * self.width + x) * 3) % 4294967296 < 2147483648 ∧
    ((y * self.width + x) * 3) % 4294967296 + 3 ≤ self.pixels.length ∧
    row[x * 4 + 3]? = some (if a then 255 else 0) ∧
    ∀ k, k < 3 →
      row[x * 4 + k]? = self.pixels[((y * self.width + x) * 3) % 4294967296 + k]?

/-! ## Sample inputs -/

/-- A 1 × 1 canvas holding one opaque red pixel. -/
def redPixel : Bitmap :=
  { width := 1, height := 1, pixels := [255, 0, 0], alpha := [true] }

/-- The decompressed content of a 2 × 1 XYZ image: palette entry 1 is red, the
index bytes are `1, 0`. -/
def xyzSampleData : List Byte :=
  [0, 0, 0, 255, 0, 0] ++ List.replicate 762 0 ++ [1, 0]

/-- An XYZ file of width 2 and height 1 with a one-byte compressed stream. -/
def xyzSampleFile : List Byte := [88, 89, 90, 49, 2, 0, 1, 0, 0]

/-- An inflate function that maps every stream to `xyzSampleData`. -/
def xyzSampleInflate : List Byte → Option (List Byte) := fun _ => some xyzSampleData

/-- A bottom-up 1 × 2 BMP file: header of 54 bytes, a palette of two entries
(blue-green-red-reserved) at offset 54, two index bytes at offset 62. -/
def bmpSampleFile : List Byte :=
  [66, 77, 0, 0, 0, 0, 0, 0, 0, 0, 62, 0, 0, 0] ++
  [40, 0, 0, 0, 1, 0, 0, 0, 2, 0, 0, 0, 1, 0, 8, 0, 0, 0, 0, 0] ++
  [2, 0, 0, 0, 0, 0, 0, 0, 0, 0, 0, 0, 0, 0, 0, 0, 0, 0, 0, 0] ++
  [10, 20, 30, 0, 40, 50, 60, 0] ++ [1, 0]

/-- A 2 × 1 RGBA image as libpng hands it back: the first pixel has alpha 1, the
second alpha 0. -/
def rgbaSampleInfo : PngInfo :=
  { width := 2, height := 1, colorType := PNG_COLOR_TYPE_RGBA,
    rows := [[10, 20, 30, 1, 40, 50, 60, 0]], palette := [] }

/-- A 1 × 1 grayscale+alpha image as libpng hands it back. -/
def grayAlphaSampleInfo : PngInfo :=
  { width := 1, height := 1, colorType := PNG_COLOR_TYPE_GRAY_ALPHA,
    rows := [[10, 20]], palette := [] }

/-- The 2 × 2 blank canvas after `redPixel` was blitted to `(1, 1)`. -/
def blitSampleResult : Bitmap :=
  { width := 2, height := 2, pixels := [0, 0, 0, 0, 0, 0, 0, 0, 0, 255, 0, 0],
    alpha := [false, false, false, true] }

/-- The canvas decoded from `xyzSampleFile`: an opaque red pixel and a
transparent one. -/
def xyzSampleResult : Bitmap :=
  { width := 2, height := 1, pixels := [255, 0, 0, 0, 0, 0], alpha := [true, false] }

/-- The canvas decoded from `bmpSampleFile`. -/
def bmpSampleResult : Bitmap :=
  { width := 1, height := 2, pixels := [30, 20, 10, 60, 50, 40], alpha := [false, true] }

/-- The canvas decoded from `rgbaSampleInfo`. -/
def rgbaSampleResult : Bitmap :=
  { width := 2, height := 1, pixels := [10, 20, 30, 40, 50, 60], alpha := [true, false] }

/-- A BMP file whose height field at offset 22 is `-2^31` and whose plane count
at offset 26 is 0. -/
def bmpMinHeightFile : List Byte :=
  [66, 77, 0, 0, 0, 0, 0, 0, 0, 0, 62, 0, 0, 0] ++
  [40, 0, 0, 0, 1, 0, 0, 0, 0, 0, 0, 128, 0, 0, 8, 0, 0, 0, 0, 0] ++
  [2, 0, 0, 0, 0, 0, 0, 0, 0, 0, 0, 0, 0, 0, 0, 0, 0, 0, 0, 0] ++
  [10, 20, 30, 0, 40, 50, 60, 0] ++ [1, 0]

/-- The file `bmpSampleFile` with the plane count at offset 26 changed to 2. -/
def bmpTwoPlanesFile : List Byte :=
  [66, 77, 0, 0, 0, 0, 0, 0, 0, 0, 62, 0, 0, 0] ++
  [40, 0, 0, 0, 1, 0, 0, 0, 2, 0, 0, 0, 2, 0, 8, 0, 0, 0, 0, 0] ++
  [2, 0, 0, 0, 0, 0, 0, 0, 0, 0, 0, 0, 0, 0, 0, 0, 0, 0, 0, 0] ++
  [10, 20, 30, 0, 40, 50, 60, 0] ++ [1, 0]

/-- A bottom-up 1 × 2 BMP file with a two-entry palette: the field at offset 34
(the image size in bytes of the BMP format) is 1000, the field at offset 46 (the
number of palette entries of the BMP format) is 2. -/
def bmpCountAt46File : List Byte :=
  [66, 77, 0, 0, 0, 0, 0, 0, 0, 0, 62, 0, 0, 0] ++
  [40, 0, 0, 0, 1, 0, 0, 0, 2, 0, 0, 0, 1, 0, 8, 0, 0, 0, 0, 0] ++
  [232, 3, 0, 0, 0, 0, 0, 0, 0, 0, 0, 0, 2, 0, 0, 0, 0, 0, 0, 0] ++
  [10, 20, 30, 0, 40, 50, 60, 0] ++ [1, 0]

/-- The same file with the two fields exchanged: 2 at offset 34, 1000 at
offset 46. -/
def bmpCountAt34File : List Byte :=
  [66, 77, 0, 0, 0, 0, 0, 0, 0, 0, 62, 0, 0, 0] ++
  [40, 0, 0, 0, 1, 0, 0, 0, 2, 0, 0, 0, 1, 0, 8, 0, 0, 0, 0, 0] ++
  [2, 0, 0, 0, 0, 0, 0, 0, 0, 0, 0, 0, 232, 3, 0, 0, 0, 0, 0, 0] ++
  [10, 20, 30, 0, 40, 50, 60, 0] ++ [1, 0]

/-- A bottom-up 1 × 2 BMP file that passes every header check, with 2 palette
entries (the count 2 stands at offset 34 and at offset 46) and the index bytes
`5, 0`. -/
def bmpBadIndexFile : List Byte :=
  [66, 77, 0, 0, 0, 0, 0, 0, 0, 0, 62, 0, 0, 0] ++
  [40, 0, 0, 0, 1, 0, 0, 0, 2, 0, 0, 0, 1, 0, 8, 0, 0, 0, 0, 0] ++
  [2, 0, 0, 0, 0, 0, 0, 0, 0, 0, 0, 0, 2, 0, 0, 0, 0, 0, 0, 0] ++
  [10, 20, 30, 0, 40, 50, 60, 0] ++ [5, 0]

/-- A 2 × 1 palette image as libpng hands it back: the index bytes are `1, 0`,
palette entry 0 is `(9, 9, 9)`, entry 1 is red, and the file's `tRNS` chunk
gives both entries the alpha value 255. -/
def paletteSampleInfo : PngInfo :=
  { width := 2, height := 1, colorType := PNG_COLOR_TYPE_PALETTE,
    rows := [[1, 0]], palette := [(9, 9, 9), (255, 0, 0)], trans := [255, 255] }

/-- The canvas decoded from `paletteSampleInfo`. -/
def paletteSampleResult : Bitmap :=
  { width := 2, height := 1, pixels := [255, 0, 0, 9, 9, 9], alpha := [true, false] }

/-- A 2 × 1 RGB image as libpng hands it back. -/
def rgbSampleInfo : PngInfo :=
  { width := 2, height := 1, colorType := PNG_COLOR_TYPE_RGB,
    rows := [[10, 20, 30, 40, 50, 60]], palette := [] }

/-- The canvas decoded from `rgbSampleInfo`. -/
def rgbSampleResult : Bitmap :=
  { width := 2, height := 1, pixels := [10, 20, 30, 40, 50, 60], alpha := [true, true] }

/-- A 2 × 1 grayscale image as libpng hands it back. -/
def graySampleInfo : PngInfo :=
  { width := 2, height := 1, colorType := PNG_COLOR_TYPE_GRAY,
    rows := [[7, 0]], palette := [] }

/-- The canvas decoded from `graySampleInfo`. -/
def graySampleResult : Bitmap :=
  { width := 2, height := 1, pixels := [7, 7, 7, 0, 0, 0], alpha := [true, true] }

/-! ## `Util::getExtension` and the constructor `Bitmap(filename)` -/

/-- The function `tolower` of the C library in the "C" locale, on the bytes of a
`std::string`: the letters `A` to `Z` go to `a` to `z`, every other byte stays. -/
def tolower (ch : Byte) : Byte :=
  if 65 ≤ ch.val ∧ ch.val ≤ 90 then ch + 32 else ch

/-- The function `Util::toLower`: `std::transform` with `tolower`. -/
def Util.toLower (str : List Byte) : List Byte := str.map tolower

/-- The call `str.rfind(ch)`: the position of the last `ch`, or `none` for
`std::string::npos`. -/
def rfind (str : List Byte) (ch : Byte) : Option Nat :=
  match str with
  | [] => none
  | b :: bs =>
    match rfind bs ch with
    | some i => some (i + 1)
    | none => if b = ch then some 0 else none

/-- The function `Util::getExtension`. -/
def Util.getExtension (filename : List Byte) : List Byte :=
  match rfind filename 46 with
  | none => []
  | some dot => Util.toLower (filename.drop (dot + 1))

/-- The bytes of an ASCII text. -/
def ascii (text : String) : List Byte := text.toList.map (fun ch => Fin.ofNat ch.toNat)

/-- The stream that `readFromXyz` and `readFromBmp` open on a file name: the
content of the file, with `fs` the files that exist. -/
def openStream (fs : List Byte → Option (List Byte)) (filename : List Byte) :
    Run (List Byte) :=
  match fs filename with
  | some content => .ok content
  | none => .error .stream

/-- The constructor `Bitmap::Bitmap(const std::string &filename)`; `fs` gives the
content of the files that exist. -/
def Bitmap.ofFile (fs : List Byte → Option (List Byte))
    (inflate : List Byte → Option (List Byte)) (libpng : List Byte → Option PngInfo)
    (filename : List Byte) : Run Bitmap :=
  let ext := Util.getExtension filename
  if ext = ascii "xyz" then do
    readFromXyz inflate (← openStream fs filename)
  else if ext = ascii "png" then
    readFromPng libpng (fs filename)
  else if ext = ascii "bmp" then do
    readFromBmp (← openStream fs filename)
  else
    throw (.thrown "could not determine file type")

/-- A 26755 × 26755 canvas of opaque black pixels: its pixel buffer has
`26755 * 26755 * 3 = 2147490075` bytes, which is more than `2^31`. -/
def bigSource : Bitmap :=
  { width := 26755, height := 26755,
    pixels := List.replicate 2147490075 0, alpha := List.replicate 715830025 true }

/-- The states `a` and `b` of two runs of the same `blit` call after the same
number of iterations, the second run having started from the result `final` of
the first: the canvases have the same sizes, and every flag and byte of `b` is
that of `a` or still that of `final`. -/
def BlitRel (final a b : Bitmap) : Prop :=
  a.width = b.width ∧ a.height = b.height ∧
  a.pixels.length = b.pixels.length ∧ a.alpha.length = b.alpha.length ∧
  (∀ j : Nat, b.alpha[j]? = a.alpha[j]? ∨ b.alpha[j]? = final.alpha[j]?) ∧
  (∀ j : Nat, b.pixels[j]? = a.pixels[j]? ∨ b.pixels[j]? = final.pixels[j]?)


/-- An environment in which the file opens and libpng reports no error. -/
def quietWriter : PngWriter := { fileOpens := true, created := true, writes := fun _ => true }

/-- A 1000000 × 716 canvas of opaque black pixels, within libpng's limits: its
pixel buffer has `1000000 * 716 * 3 = 2148000000` bytes, more than `2^31`. -/
def tallCanvas : Bitmap :=
  { width := 1000000, height := 716,
    pixels := List.replicate 2148000000 0, alpha := List.replicate 716000000 true }

/-- A 716 × 1000000 canvas of opaque black pixels, within libpng's limits. -/
def wideCanvas : Bitmap :=
  { width := 716, height := 1000000,
    pixels := List.replicate 2148000000 0, alpha := List.replicate 716000000 true }

/-- A 2 × 1 canvas: an opaque red pixel and a transparent black one. -/
def redAndClear : Bitmap :=
  { width := 2, height := 1, pixels := [255, 0, 0, 0, 0, 0], alpha := [true, false] }

/-- The canvas `redAndClear` after its left pixel was blitted onto its right
pixel. -/
def redAndRed : Bitmap :=
  { width := 2, height := 1, pixels := [255, 0, 0, 255, 0, 0], alpha := [true, true] }
/-! ## Outcomes and loops -/

theorem bind_ok_iff {α β : Type} (m : Run α) (f : α → Run β) (b : β) :
    (m >>= f) = .ok b ↔ ∃ a, m = .ok a ∧ f a = .ok b := by
  cases m with
  | error e => simp [bind, Except.bind]
  | ok a => simp [bind, Except.bind]

theorem pure_ok_iff {α : Type} (a b : α) : (pure a : Run α) = .ok b ↔ a = b := by
  simp [pure, Except.pure]

theorem checkInt_ok_iff (v r : Int) :
    checkInt v = .ok r ↔ r = v ∧ -2147483648 ≤ v ∧ v ≤ 2147483647 := by
  unfold checkInt
  split
  · rename_i h
    simp only [Except.ok.injEq]
    constructor
    · intro e; exact ⟨e.symm, h⟩
    · intro e; exact e.1.symm
  · rename_i h
    simp only [reduceCtorEq, false_iff]
    intro e; exact h e.2

theorem vecGet_ok_iff {α : Type} (v : List α) (i : Nat) (a : α) :
    vecGet v i = .ok a ↔ v[i]? = some a := by
  unfold vecGet
  cases h : v[i]? <;> simp

theorem vecGetI_ok_iff {α : Type} (v : List α) (i : Int) (a : α) :
    vecGetI v i = .ok a ↔ 0 ≤ i ∧ v[i.toNat]? = some a := by
  unfold vecGetI
  split <;> simp [vecGet_ok_iff, *]

theorem vecSet_ok_iff {α : Type} (v : List α) (i : Nat) (a : α) (r : List α) :
    vecSet v i a = .ok r ↔ i < v.length ∧ r = v.set i a := by
  unfold vecSet
  split
  · rename_i h
    simp only [Except.ok.injEq, h, true_and]
    exact eq_comm
  · rename_i h
    simp [h]

theorem vecSetI_ok_iff {α : Type} (v : List α) (i : Int) (a : α) (r : List α) :
    vecSetI v i a = .ok r ↔ 0 ≤ i ∧ i.toNat < v.length ∧ r = v.set i.toNat a := by
  unfold vecSetI
  split <;> simp [vecSet_ok_iff, *]

theorem vecRange_ok_iff {α : Type} (v : List α) (off n : Nat) (r : List α) :
    vecRange v off n = .ok r ↔ off + n ≤ v.length ∧ r = (v.drop off).take n := by
  unfold vecRange
  split
  · rename_i h
    simp only [Except.ok.injEq, h, true_and]
    exact eq_comm
  · rename_i h
    simp [h]

theorem vecRangeI_ok_iff {α : Type} (v : List α) (off : Int) (n : Nat) (r : List α) :
    vecRangeI v off n = .ok r ↔
      0 ≤ off ∧ off.toNat + n ≤ v.length ∧ r = (v.drop off.toNat).take n := by
  unfold vecRangeI
  split <;> simp [vecRange_ok_iff, *]

theorem copyTo_ok_iff {α : Type} (dst : List α) (off : Nat) (src r : List α) :
    copyTo dst off src = .ok r ↔
      off + src.length ≤ dst.length ∧
        r = dst.take off ++ src ++ dst.drop (off + src.length) := by
  unfold copyTo
  split
  · rename_i h
    simp only [Except.ok.injEq, h, true_and]
    exact eq_comm
  · rename_i h
    simp [h]

theorem copyToI_ok_iff {α : Type} (dst : List α) (off : Int) (src r : List α) :
    copyToI dst off src = .ok r ↔
      0 ≤ off ∧ off.toNat + src.length ≤ dst.length ∧
        r = dst.take off.toNat ++ src ++ dst.drop (off.toNat + src.length) := by
  unfold copyToI
  split <;> simp [copyTo_ok_iff, *]

/-- Length of a buffer after a range was overwritten. -/
theorem overwrite_length {α : Type} (dst src : List α) (off : Nat)
    (h : off + src.length ≤ dst.length) :
    (dst.take off ++ src ++ dst.drop (off + src.length)).length = dst.length := by
  simp only [List.length_append, List.length_take, List.length_drop]
  omega

/-- Elements of a buffer after a range was overwritten. -/
theorem overwrite_getElem? {α : Type} (dst src : List α) (off i : Nat)
    (h : off + src.length ≤ dst.length) :
    (dst.take off ++ src ++ dst.drop (off + src.length))[i]? =
      if off ≤ i ∧ i < off + src.length then src[i - off]? else dst[i]? := by
  have hlen : (dst.take off).length = off := by
    simp only [List.length_take]; omega
  by_cases h1 : i < off
  · have : ¬ (off ≤ i ∧ i < off + src.length) := by omega
    rw [if_neg this, List.append_assoc, List.getElem?_append_left (by omega)]
    exact List.getElem?_take_of_lt h1
  · by_cases h2 : i < off + src.length
    · have : off ≤ i ∧ i < off + src.length := by omega
      rw [if_pos this, List.append_assoc, List.getElem?_append_right (by omega), hlen,
        List.getElem?_append_left (by omega)]
    · have : ¬ (off ≤ i ∧ i < off + src.length) := by omega
      rw [if_neg this, List.getElem?_append_right
        (by simp only [List.length_append, hlen]; omega)]
      simp only [List.length_append, hlen, List.getElem?_drop]
      congr 1
      omega

theorem range_getElem? {α : Type} (v : List α) (off n k : Nat) (hk : k < n) :
    ((v.drop off).take n)[k]? = v[off + k]? := by
  rw [List.getElem?_take_of_lt hk, List.getElem?_drop]

theorem range_length {α : Type} (v : List α) (off n : Nat) (h : off + n ≤ v.length) :
    ((v.drop off).take n).length = n := by
  simp only [List.length_take, List.length_drop]
  omega

/-- Invariant rule for a loop that ends with a result. -/
theorem forUpTo_ok_inv {σ : Type} (I : Nat → σ → Prop) (body : Nat → σ → Run σ) :
    ∀ (n : Nat) (s t : σ), forUpTo n body s = .ok t → I 0 s →
      (∀ k u v, k < n → I k u → body k u = .ok v → I (k + 1) v) → I n t := by
  intro n
  induction n with
  | zero =>
    intro s t h h0 _
    simp only [forUpTo, Except.ok.injEq] at h
    exact h ▸ h0
  | succ k ih =>
    intro s t h h0 hstep
    simp only [forUpTo] at h
    cases hk : forUpTo k body s with
    | error e => rw [hk] at h; cases h
    | ok u =>
      rw [hk] at h
      exact hstep k u t (Nat.lt_succ_self k)
        (ih s u hk h0 (fun j a b hj => hstep j a b (Nat.lt_succ_of_lt hj))) h

/-- Invariant rule for a loop each of whose iterations succeeds. -/
theorem forUpTo_total {σ : Type} (I : Nat → σ → Prop) (body : Nat → σ → Run σ) :
    ∀ (n : Nat) (s : σ), I 0 s →
      (∀ k u, k < n → I k u → ∃ v, body k u = .ok v ∧ I (k + 1) v) →
      ∃ t, forUpTo n body s = .ok t ∧ I n t := by
  intro n
  induction n with
  | zero =>
    intro s h0 _
    exact ⟨s, rfl, h0⟩
  | succ k ih =>
    intro s h0 hstep
    obtain ⟨u, hu, hI⟩ := ih s h0 (fun j a hj => hstep j a (Nat.lt_succ_of_lt hj))
    obtain ⟨v, hv, hI'⟩ := hstep k u (Nat.lt_succ_self k) hI
    refine ⟨v, ?_, hI'⟩
    simp only [forUpTo, hu, hv]

/-- Invariant rule for the loop nest `for y < h, for x < w`, in scan order. -/
theorem nested_ok_inv {σ : Type} (J : Nat → σ → Prop) (body : Nat → Nat → σ → Run σ)
    (h w : Nat) (s t : σ)
    (hrun : forUpTo h (fun y u => forUpTo w (fun x v => body y x v) u) s = .ok t)
    (h0 : J 0 s)
    (hstep : ∀ y x u v, y < h → x < w → J (y * w + x) u → body y x u = .ok v →
      J (y * w + x + 1) v) :
    J (h * w) t := by
  refine forUpTo_ok_inv (fun y u => J (y * w) u) _ h s t hrun (by simpa using h0) ?_
  intro y u v hy hu hv
  have := forUpTo_ok_inv (fun x a => J (y * w + x) a) _ w u v hv (by simpa using hu)
    (fun x a b hx ha hb => hstep y x a b hy hx ha hb)
  simpa [Nat.succ_mul] using this

/-- Invariant rule for a loop nest each of whose iterations succeeds. -/
theorem nested_total {σ : Type} (J : Nat → σ → Prop) (body : Nat → Nat → σ → Run σ)
    (h w : Nat) (s : σ) (h0 : J 0 s)
    (hstep : ∀ y x u, y < h → x < w → J (y * w + x) u →
      ∃ v, body y x u = .ok v ∧ J (y * w + x + 1) v) :
    ∃ t, forUpTo h (fun y u => forUpTo w (fun x v => body y x v) u) s = .ok t ∧
      J (h * w) t := by
  refine forUpTo_total (fun y u => J (y * w) u) _ h s (by simpa using h0) ?_
  intro y u hy hu
  have := forUpTo_total (fun x a => J (y * w + x) a) (fun x v => body y x v) w u
    (by simpa using hu) (fun x a hx ha => hstep y x a hy hx ha)
  simpa [Nat.succ_mul] using this

/-! ## Machine arithmetic -/

theorem wrapU_natCast (n : Nat) : wrapU (n : Int) = n % 4294967296 := by
  unfold wrapU
  omega

theorem wrapU_of_lt (n : Nat) (h : n < 4294967296) : wrapU (n : Int) = n := by
  rw [wrapU_natCast]; omega

theorem wrapU_lt (v : Int) : wrapU v < 4294967296 := by
  unfold wrapU
  omega

theorem toInt_nonneg_iff (n : Nat) (h : n < 4294967296) : 0 ≤ toInt n ↔ n < 2147483648 := by
  unfold toInt
  split <;> omega

theorem toInt_of_lt (n : Nat) (h : n < 2147483648) : toInt n = n := by
  unfold toInt
  rw [if_pos h]

/-- A buffer of `(3 * n) mod 2^32` bytes that takes a 3-byte write at
`(3 * i) mod 2^32` for every `i < n` has `3 * n` bytes. -/
theorem no_wrap_of_writes (n : Nat)
    (h : ∀ i, i < n → (3 * i) % 4294967296 + 3 ≤ (3 * n) % 4294967296) :
    3 * n < 4294967296 := by
  by_contra hc
  have hlt : (3 * n) % 4294967296 < 4294967296 := Nat.mod_lt _ (by norm_num)
  have hle : 3 * ((3 * n) % 4294967296 / 3) ≤ (3 * n) % 4294967296 := Nat.mul_div_le _ 3
  have hmod : (3 * ((3 * n) % 4294967296 / 3)) % 4294967296
      = 3 * ((3 * n) % 4294967296 / 3) := Nat.mod_eq_of_lt (by omega)
  have := h ((3 * n) % 4294967296 / 3) (by omega)
  rw [hmod] at this
  omega

/-! ## Indexing -/

/-- A pixel inside a `w × h` canvas has a row-major index below `w * h`. -/
theorem index_lt (x y w h : Nat) (hx : x < w) (hy : y < h) : y * w + x < w * h := by
  have h1 : (y + 1) * w ≤ h * w := Nat.mul_le_mul_right w hy
  have h2 : (y + 1) * w = y * w + w := Nat.succ_mul y w
  have h3 : h * w = w * h := Nat.mul_comm h w
  omega

/-- Row-major indexing is injective on in-range coordinates. -/
theorem index_inj (x y x' y' w : Nat) (hx : x < w) (hx' : x' < w)
    (h : y * w + x = y' * w + x') : x = x' ∧ y = y' := by
  have h1 : (y * w + x) % w = x := by
    rw [Nat.add_comm, Nat.add_mul_mod_self_right, Nat.mod_eq_of_lt hx]
  have h2 : (y' * w + x') % w = x' := by
    rw [Nat.add_comm, Nat.add_mul_mod_self_right, Nat.mod_eq_of_lt hx']
  have hxx : x = x' := by rw [← h1, ← h2, h]
  subst hxx
  have h3 : y * w = y' * w := by omega
  have hw : 0 < w := by omega
  exact ⟨rfl, Nat.eq_of_mul_eq_mul_right hw h3⟩

/-! ## `blit`: one pixel -/

/-- What one iteration of `blit` does when it ends with a result. -/
theorem blitPixel_ok (o s s' : Bitmap) (mx my ox oy x y : Nat)
    (ho : o.lengthsOk) (hof : o.fits) (hs : s.lengthsOk) (hsf : s.fits)
    (hox : ox + x < o.width) (hoy : oy + y < o.height)
    (hmx : mx + x < s.width) (hmy : my + y < s.height)
    (h : blitPixel o mx my ox oy y x s = .ok s') :
    (o.alpha[(oy + y) * o.width + (ox + x)]? = some false ∧ s' = s) ∨
    (o.alpha[(oy + y) * o.width + (ox + x)]? = some true ∧
      ((oy + y) * o.width + (ox + x)) * 3 + 3 ≤ o.pixels.length ∧
      ((my + y) * s.width + (mx + x)) * 3 + 3 ≤ s.pixels.length ∧
      s' = { s with
        alpha := s.alpha.set ((my + y) * s.width + (mx + x)) true
        pixels := s.pixels.take (((my + y) * s.width + (mx + x)) * 3) ++
          (o.pixels.drop (((oy + y) * o.width + (ox + x)) * 3)).take 3 ++
          s.pixels.drop (((my + y) * s.width + (mx + x)) * 3 + 3) }) := by
  obtain ⟨hop, hoa⟩ := ho
  obtain ⟨hsp, hsa⟩ := hs
  obtain ⟨_, _, hopl, _⟩ := hof
  obtain ⟨_, _, hspl, _⟩ := hsf
  have hio := index_lt (ox + x) (oy + y) o.width o.height hox hoy
  have him := index_lt (mx + x) (my + y) s.width s.height hmx hmy
  have hoh : o.height ≤ o.width * o.height := Nat.le_mul_of_pos_left _ (by omega)
  have hsh : s.height ≤ s.width * s.height := Nat.le_mul_of_pos_left _ (by omega)
  generalize hio' : (oy + y) * o.width + (ox + x) = io at *
  generalize him' : (my + y) * s.width + (mx + x) = im at *
  have e1 : ((oy : Int) + y) * o.width + ox + x = (io : Int) := by
    rw [← hio']; push_cast; ring
  have e2 : ((my : Int) + y) * s.width + mx + x = (im : Int) := by
    rw [← him']; push_cast; ring
  simp only [blitPixel, bind_ok_iff, checkInt_ok_iff, vecGetI_ok_iff] at h
  obtain ⟨oRow, ⟨rfl, -, -⟩, mRow, ⟨rfl, -, -⟩, a, ⟨hnn, ha⟩, hrest⟩ := h
  rw [e1] at hnn ha hrest
  rw [e2] at hrest
  rw [wrapU_of_lt io (by omega)] at hnn ha hrest
  rw [wrapU_of_lt im (by omega), toInt_of_lt im (by omega)] at hrest
  rw [toInt_of_lt io (by omega)] at hnn ha hrest
  simp only [Int.toNat_ofNat] at ha
  cases a with
  | false =>
    left
    simp only [Bool.false_eq_true, if_false, pure_ok_iff] at hrest
    exact ⟨ha, hrest.symm⟩
  | true =>
    right
    simp only [if_true, bind_ok_iff, vecSetI_ok_iff, checkInt_ok_iff, vecRangeI_ok_iff,
      copyTo_ok_iff, pure_ok_iff] at hrest
    obtain ⟨al, ⟨-, -, rfl⟩, first, ⟨rfl, -, -⟩, col, ⟨-, hcl, rfl⟩, px, ⟨hpl, rfl⟩, rfl⟩ := hrest
    have e3 : ((io : Int) * 3).toNat = io * 3 := by omega
    have e4 : wrapU ((im : Int) * 3) = im * 3 := by
      have := wrapU_of_lt (im * 3) (by omega)
      rw [← this]; push_cast; rfl
    rw [e3] at hcl
    rw [e4] at hpl
    have hl3 : ((o.pixels.drop (io * 3)).take 3).length = 3 := range_length _ _ _ hcl
    refine ⟨ha, hcl, by omega, ?_⟩
    simp only [Int.toNat_ofNat, e3, e4, hl3]

/-- Bytes of pixel `i` after its three bytes were overwritten. -/
theorem write_same {α : Type} (px col : List α) (i k : Nat) (hc : col.length = 3)
    (hi : i * 3 + 3 ≤ px.length) (hk : k < 3) :
    (px.take (i * 3) ++ col ++ px.drop (i * 3 + 3))[i * 3 + k]? = col[k]? := by
  have := overwrite_getElem? px col (i * 3) (i * 3 + k) (by omega)
  rw [hc] at this
  rw [this, if_pos (by omega)]
  congr 1
  omega

/-- Bytes of another pixel after the three bytes of pixel `i` were overwritten. -/
theorem write_other {α : Type} (px col : List α) (i j k : Nat) (hc : col.length = 3)
    (hi : i * 3 + 3 ≤ px.length) (hk : k < 3) (hj : j ≠ i) :
    (px.take (i * 3) ++ col ++ px.drop (i * 3 + 3))[j * 3 + k]? = px[j * 3 + k]? := by
  have := overwrite_getElem? px col (i * 3) (j * 3 + k) (by omega)
  rw [hc] at this
  rw [this, if_neg (by omega)]

theorem ok_bind {α β : Type} (a : α) (f : α → Run β) : ((Except.ok a : Run α) >>= f) = f a :=
  rfl

/-- One iteration of `blit` ends with a result when the source buffer is
shorter than `2^31` bytes. -/
theorem blitPixel_total (o s : Bitmap) (mx my ox oy x y : Nat)
    (ho : o.lengthsOk) (hof : o.fits) (hs : s.lengthsOk) (hsf : s.fits)
    (hox : ox + x < o.width) (hoy : oy + y < o.height)
    (hmx : mx + x < s.width) (hmy : my + y < s.height)
    (hsmall : o.pixels.length < 2147483648) :
    ∃ s', blitPixel o mx my ox oy y x s = .ok s' := by
  obtain ⟨hop, hoa⟩ := ho
  obtain ⟨hsp, hsa⟩ := hs
  obtain ⟨_, _, hopl, _⟩ := hof
  obtain ⟨_, _, hspl, _⟩ := hsf
  have hio := index_lt (ox + x) (oy + y) o.width o.height hox hoy
  have him := index_lt (mx + x) (my + y) s.width s.height hmx hmy
  have hoh : o.height ≤ o.width * o.height := Nat.le_mul_of_pos_left _ (by omega)
  have hsh : s.height ≤ s.width * s.height := Nat.le_mul_of_pos_left _ (by omega)
  generalize hio' : (oy + y) * o.width + (ox + x) = io at *
  generalize him' : (my + y) * s.width + (mx + x) = im at *
  have e1 : ((oy : Int) + y) * o.width + ox + x = (io : Int) := by
    rw [← hio']; push_cast; ring
  have e2 : ((my : Int) + y) * s.width + mx + x = (im : Int) := by
    rw [← him']; push_cast; ring
  have c1 : checkInt ((oy : Int) + y) = .ok ((oy : Int) + y) := by
    rw [checkInt_ok_iff]; omega
  have c2 : checkInt ((my : Int) + y) = .ok ((my : Int) + y) := by
    rw [checkInt_ok_iff]; omega
  have c3 : checkInt ((io : Int) * 3) = .ok ((io : Int) * 3) := by
    rw [checkInt_ok_iff]; omega
  have e3 : ((io : Int) * 3).toNat = io * 3 := by omega
  have e4 : wrapU ((im : Int) * 3) = im * 3 := by
    have := wrapU_of_lt (im * 3) (by omega)
    rw [← this]; push_cast; rfl
  obtain ⟨a, ha⟩ : ∃ a, o.alpha[io]? = some a :=
    ⟨_, List.getElem?_eq_getElem (by omega)⟩
  have g1 : vecGetI o.alpha (io : Int) = .ok a := by
    rw [vecGetI_ok_iff]; exact ⟨by omega, by simpa using ha⟩
  simp only [blitPixel, c1, c2, ok_bind, e1, e2, wrapU_of_lt io (by omega),
    wrapU_of_lt im (by omega), toInt_of_lt io (by omega), toInt_of_lt im (by omega), g1, c3]
  cases a with
  | false => exact ⟨s, rfl⟩
  | true =>
    have g2 : vecSetI s.alpha (im : Int) true = .ok (s.alpha.set im true) := by
      rw [vecSetI_ok_iff]; exact ⟨by omega, by simp; omega, by simp⟩
    have g3 : vecRangeI o.pixels ((io : Int) * 3) 3 = .ok ((o.pixels.drop (io * 3)).take 3) := by
      rw [vecRangeI_ok_iff, e3]; exact ⟨by omega, by omega, rfl⟩
    have hl3 : ((o.pixels.drop (io * 3)).take 3).length = 3 := range_length _ _ _ (by omega)
    have g4 : copyTo s.pixels (im * 3) ((o.pixels.drop (io * 3)).take 3) =
        .ok (s.pixels.take (im * 3) ++ (o.pixels.drop (io * 3)).take 3 ++
          s.pixels.drop (im * 3 + ((o.pixels.drop (io * 3)).take 3).length)) := by
      rw [copyTo_ok_iff]; exact ⟨by omega, rfl⟩
    simp only [if_true, g2, ok_bind, g3, e4, g4]
    exact ⟨_, rfl⟩

/-! ## `blit`: the loop nest -/

theorem blitInv_zero (d o : Bitmap) (mx my ox oy w h : Nat) :
    BlitInv d o mx my ox oy w h 0 d :=
  ⟨rfl, rfl, rfl, rfl, fun _ _ _ _ hp => absurd hp (Nat.not_lt_zero _),
    fun _ _ => ⟨rfl, fun _ _ => rfl⟩⟩

/-- One iteration of `blit` takes the invariant one step further. -/
theorem blitInv_step (d o : Bitmap) (mx my ox oy w h : Nat)
    (ho : o.lengthsOk) (hof : o.fits) (hd : d.lengthsOk) (hdf : d.fits)
    (hox : ox + w ≤ o.width) (hoy : oy + h ≤ o.height)
    (hmx : mx + w ≤ d.width) (hmy : my + h ≤ d.height)
    (y x : Nat) (u v : Bitmap) (hy : y < h) (hx : x < w)
    (hu : BlitInv d o mx my ox oy w h (y * w + x) u)
    (hv : blitPixel o mx my ox oy y x u = .ok v) :
    BlitInv d o mx my ox oy w h (y * w + x + 1) v := by
  obtain ⟨hw, hh, hpl, hal, hA, hB⟩ := hu
  have hul : u.lengthsOk := by
    unfold Bitmap.lengthsOk at hd ⊢
    rw [hw, hh, hpl, hal]; exact hd
  have huf : u.fits := by
    unfold Bitmap.fits at hdf ⊢
    rw [hw, hh, hpl, hal]; exact hdf
  have key := blitPixel_ok o u v mx my ox oy x y ho hof hul huf (by omega) (by omega)
    (by omega) (by omega) hv
  rw [hw] at key
  have same : ∀ x' y', x' < w → y' * w + x' = y * w + x → x' = x ∧ y' = y :=
    fun x' y' hx' e => index_inj x' y' x y w hx' hx e
  have inj : ∀ x' y', x' < w →
      (my + y') * d.width + (mx + x') = (my + y) * d.width + (mx + x) → x' = x ∧ y' = y := by
    intro x' y' hx' e
    have := index_inj (mx + x') (my + y') (mx + x) (my + y) d.width (by omega) (by omega) e
    omega
  rcases key with ⟨hfalse, rfl⟩ | ⟨htrue, hsrc, hdst, rfl⟩
  · refine ⟨hw, hh, hpl, hal, ?_, ?_⟩
    · intro x' y' hx' hy' hp hop
      rcases Nat.lt_succ_iff_lt_or_eq.mp hp with hlt | heq
      · exact hA x' y' hx' hy' hlt hop
      · obtain ⟨rfl, rfl⟩ := same x' y' hx' heq
        rw [hfalse] at hop
        cases hop
    · intro j hj
      exact hB j (fun x' y' hx' hy' hp hop => hj x' y' hx' hy' (Nat.lt_succ_of_lt hp) hop)
  · have hl3 : ((o.pixels.drop (((oy + y) * o.width + (ox + x)) * 3)).take 3).length = 3 :=
      range_length _ _ _ hsrc
    have hidx : (my + y) * d.width + (mx + x) < u.alpha.length := by
      have := hul.1
      have := hul.2
      rw [hw, hh] at *
      omega
    refine ⟨rfl, hh, ?_, ?_, ?_, ?_⟩
    · show (_ ++ _ ++ _ : List Byte).length = _
      have := overwrite_length u.pixels
        ((o.pixels.drop (((oy + y) * o.width + (ox + x)) * 3)).take 3)
        (((my + y) * d.width + (mx + x)) * 3) (by omega)
      rw [hl3] at this
      rw [this, hpl]
    · show (u.alpha.set _ true).length = _
      rw [List.length_set, hal]
    · intro x' y' hx' hy' hp hop
      show (u.alpha.set _ true)[_]? = some true ∧
        ∀ k, k < 3 → (_ ++ _ ++ _ : List Byte)[_]? = _
      rcases Nat.lt_succ_iff_lt_or_eq.mp hp with hlt | heq
      · have hne : (my + y') * d.width + (mx + x') ≠ (my + y) * d.width + (mx + x) := by
          intro e
          obtain ⟨rfl, rfl⟩ := inj x' y' hx' e
          exact Nat.lt_irrefl _ hlt
        obtain ⟨h1, h2⟩ := hA x' y' hx' hy' hlt hop
        refine ⟨?_, fun k hk => ?_⟩
        · rw [List.getElem?_set_ne (Ne.symm hne)]; exact h1
        · rw [write_other _ _ _ _ k hl3 hdst hk hne]; exact h2 k hk
      · obtain ⟨rfl, rfl⟩ := same x' y' hx' heq
        refine ⟨?_, fun k hk => ?_⟩
        · exact List.getElem?_set_self hidx
        · rw [write_same _ _ _ k hl3 hdst hk, range_getElem? _ _ _ _ hk]
    · intro j hj
      show (u.alpha.set _ true)[_]? = _ ∧ ∀ k, k < 3 → (_ ++ _ ++ _ : List Byte)[_]? = _
      have hne : j ≠ (my + y) * d.width + (mx + x) :=
        hj x y hx hy (Nat.lt_succ_self _) htrue
      obtain ⟨h1, h2⟩ := hB j
        (fun x' y' hx' hy' hp hop => hj x' y' hx' hy' (Nat.lt_succ_of_lt hp) hop)
      refine ⟨?_, fun k hk => ?_⟩
      · rw [List.getElem?_set_ne (Ne.symm hne)]; exact h1
      · rw [write_other _ _ _ _ k hl3 hdst hk hne]; exact h2 k hk

/-- The loop nest of `blit`, when it ends with a result, establishes the invariant
for the whole rectangle. -/
theorem blit_loops_ok (d o d' : Bitmap) (mx my ox oy w h : Nat)
    (ho : o.lengthsOk) (hof : o.fits) (hd : d.lengthsOk) (hdf : d.fits)
    (hox : ox + w ≤ o.width) (hoy : oy + h ≤ o.height)
    (hmx : mx + w ≤ d.width) (hmy : my + h ≤ d.height)
    (hrun : forUpTo h (fun y s => forUpTo w (fun x t => blitPixel o mx my ox oy y x t) s) d
      = .ok d') :
    BlitInv d o mx my ox oy w h (h * w) d' :=
  nested_ok_inv (BlitInv d o mx my ox oy w h) (fun y x t => blitPixel o mx my ox oy y x t)
    h w d d' hrun (blitInv_zero d o mx my ox oy w h)
    (fun y x u v hy hx hu hv =>
      blitInv_step d o mx my ox oy w h ho hof hd hdf hox hoy hmx hmy y x u v hy hx hu hv)

/-- The loop nest of `blit` ends with a result when the source buffer is shorter
than `2^31` bytes. -/
theorem blit_loops_total (d o : Bitmap) (mx my ox oy w h : Nat)
    (ho : o.lengthsOk) (hof : o.fits) (hd : d.lengthsOk) (hdf : d.fits)
    (hox : ox + w ≤ o.width) (hoy : oy + h ≤ o.height)
    (hmx : mx + w ≤ d.width) (hmy : my + h ≤ d.height)
    (hsmall : o.pixels.length < 2147483648) :
    ∃ d', forUpTo h (fun y s => forUpTo w (fun x t => blitPixel o mx my ox oy y x t) s) d
      = .ok d' := by
  obtain ⟨d', hd', -⟩ := nested_total (BlitInv d o mx my ox oy w h)
    (fun y x t => blitPixel o mx my ox oy y x t) h w d (blitInv_zero d o mx my ox oy w h)
    (by
      intro y x u hy hx hu
      have hul : u.lengthsOk := by
        obtain ⟨hw, hh, hpl, hal, -, -⟩ := hu
        unfold Bitmap.lengthsOk at hd ⊢
        rw [hw, hh, hpl, hal]; exact hd
      have huf : u.fits := by
        obtain ⟨hw, hh, hpl, hal, -, -⟩ := hu
        unfold Bitmap.fits at hdf ⊢
        rw [hw, hh, hpl, hal]; exact hdf
      have hw := hu.1
      have hh := hu.2.1
      obtain ⟨v, hv⟩ := blitPixel_total o u mx my ox oy x y ho hof hul huf (by omega)
        (by omega) (by omega) (by omega) hsmall
      exact ⟨v, hv, blitInv_step d o mx my ox oy w h ho hof hd hdf hox hoy hmx hmy
        y x u v hy hx hu hv⟩)
  exact ⟨d', hd'⟩

/-- A loop whose body returns its state unchanged returns the state. -/
theorem forUpTo_id {σ : Type} (body : Nat → σ → Run σ) (hbody : ∀ k s, body k s = .ok s) :
    ∀ (n : Nat) (s : σ), forUpTo n body s = .ok s := by
  intro n
  induction n with
  | zero => intro s; rfl
  | succ k ih => intro s; simp only [forUpTo, ih, hbody]

/-- A `blit` call with a rectangle of no columns or no rows returns the
destination as it was. -/
theorem blit_empty_rect (d o : Bitmap) (mX mY oX oY oW oH : Int) (h : oW ≤ 0 ∨ oH ≤ 0) :
    blit d mX mY o oX oY oW oH = .ok d := by
  unfold blit
  rcases h with h | h
  · have : oW.toNat = 0 := by omega
    rw [this]
    exact forUpTo_id _ (fun _ _ => rfl) _ _
  · have : oH.toNat = 0 := by omega
    rw [this]
    rfl

/-- With an in-range rectangle the `int` arguments of `blit` are the casts of
natural numbers. -/
theorem blit_eq_loops (d o : Bitmap) (mX mY oX oY oW oH : Int)
    (hmX : 0 ≤ mX) (hmY : 0 ≤ mY) (hoX : 0 ≤ oX) (hoY : 0 ≤ oY) :
    blit d mX mY o oX oY oW oH =
      forUpTo oH.toNat (fun y s => forUpTo oW.toNat
        (fun x t => blitPixel o mX.toNat mY.toNat oX.toNat oY.toNat y x t) s) d := by
  unfold blit
  rw [Int.toNat_of_nonneg hmX, Int.toNat_of_nonneg hmY, Int.toNat_of_nonneg hoX,
    Int.toNat_of_nonneg hoY]

theorem rgbAt_congr (a b : Bitmap) (x y x' y' : Nat)
    (h : ∀ k, k < 3 → a.pixels[(y * a.width + x) * 3 + k]? =
      b.pixels[(y' * b.width + x') * 3 + k]?) :
    a.rgbAt x y = b.rgbAt x' y' := by
  unfold Bitmap.rgbAt
  have h0 := h 0 (by omega)
  have h1 := h 1 (by omega)
  have h2 := h 2 (by omega)
  simp only [Nat.add_zero] at h0
  rw [h0, h1, h2]

theorem rgbAt_isSome (b : Bitmap) (x y : Nat) (h : (y * b.width + x) * 3 + 3 ≤ b.pixels.length) :
    (b.rgbAt x y).isSome = true := by
  unfold Bitmap.rgbAt
  rw [List.getElem?_eq_getElem (by omega : (y * b.width + x) * 3 < b.pixels.length),
    List.getElem?_eq_getElem (by omega : (y * b.width + x) * 3 + 1 < b.pixels.length),
    List.getElem?_eq_getElem (by omega : (y * b.width + x) * 3 + 2 < b.pixels.length)]
  rfl

/-! ## Decoders: the loop nest that fills a canvas -/

theorem fillInv_step (V : Nat → Nat → Option Bool → List Byte → Prop) (s0 : Bitmap)
    (w h : Nat) (y x : Nat) (u v : Bitmap) (a : Option Bool) (rgb : List Byte)
    (hy : y < h) (hx : x < w)
    (hu : FillInv V s0 w h (y * w + x) u)
    (hV : V y x a rgb) (hst : StoreAt u (y * w + x) a rgb v) :
    FillInv V s0 w h (y * w + x + 1) v := by
  obtain ⟨hw, hh, hpl, hal, hB, hC, hD⟩ := hu
  obtain ⟨h3, hpb, hab, hvw, hvh, hvp, hva⟩ := hst
  have hvpl : v.pixels.length = u.pixels.length := by
    rw [hvp]
    have := overwrite_length u.pixels rgb ((y * w + x) * 3 % 4294967296) (by omega)
    rw [h3] at this
    exact this
  have hval : v.alpha.length = u.alpha.length := by
    rw [hva]
    cases a <;> simp
  refine ⟨hvw.trans hw, hvh.trans hh, hvpl.trans hpl, hval.trans hal, ?_, ?_, ?_⟩
  · intro i hi
    rcases Nat.lt_succ_iff_lt_or_eq.mp hi with hlt | rfl
    · exact hB i hlt
    · rw [← hpl]; exact hpb
  rotate_left
  · intro hfit j hj
    have hlt := index_lt x y w h hx hy
    have hm1 : (y * w + x) % 4294967296 = y * w + x := Nat.mod_eq_of_lt (by omega)
    rw [hm1] at hva
    rw [hva]
    cases a with
    | none => exact hD hfit j (by omega)
    | some c =>
      show (u.alpha.set _ c)[j]? = _
      rw [List.getElem?_set_ne (by omega)]
      exact hD hfit j (by omega)
  · intro hfit x' y' hx' hy' hp
    have hlt := index_lt x y w h hx hy
    have hm3 : (y * w + x) * 3 % 4294967296 = (y * w + x) * 3 :=
      Nat.mod_eq_of_lt (by omega)
    have hm1 : (y * w + x) % 4294967296 = y * w + x := Nat.mod_eq_of_lt (by omega)
    rw [hm3] at hvp hpb
    rw [hm1] at hva
    rcases Nat.lt_succ_iff_lt_or_eq.mp hp with hlt' | heq
    · obtain ⟨a', rgb', hV', hp', ha', hn'⟩ := hC hfit x' y' hx' hy' hlt'
      have hne : y' * w + x' ≠ y * w + x := Nat.ne_of_lt hlt'
      refine ⟨a', rgb', hV', ?_, ?_, ?_⟩
      · intro k hk
        rw [hvp, write_other _ _ _ _ k h3 hpb hk hne]
        exact hp' k hk
      · intro b hb
        rw [hva]
        cases a with
        | none => exact ha' b hb
        | some c => rw [List.getElem?_set_ne (Ne.symm hne)]; exact ha' b hb
      · intro hb
        rw [hva]
        cases a with
        | none => exact hn' hb
        | some c => rw [List.getElem?_set_ne (Ne.symm hne)]; exact hn' hb
    · obtain ⟨rfl, rfl⟩ := index_inj x' y' x y w hx' hx heq
      refine ⟨a, rgb, hV, ?_, ?_, ?_⟩
      · intro k hk
        rw [hvp, write_same _ _ _ k h3 hpb hk]
      · intro b hb
        subst hb
        rw [hva]
        exact List.getElem?_set_self (by simpa [hm1] using hab rfl)
      · intro hb
        subst hb
        rw [hva]
        exact hD hfit _ (Nat.le_refl _)

/-- A loop nest whose iterations each store one pixel, when it ends with a
result, has stored every pixel at its place; in particular no 32-bit offset
wrapped around. -/
theorem fill_loops_ok (V : Nat → Nat → Option Bool → List Byte → Prop)
    (body : Nat → Nat → Bitmap → Run Bitmap) (s0 c : Bitmap) (w h : Nat)
    (hw : s0.width = w)
    (hpl : s0.pixels.length = (w * h * 3) % 4294967296)
    (hbody : ∀ y x s s', y < h → x < w → s.width = w → s.height = s0.height →
      body y x s = .ok s' → ∃ a rgb, V y x a rgb ∧ StoreAt s (y * w + x) a rgb s')
    (hrun : forUpTo h (fun y s => forUpTo w (fun x t => body y x t) s) s0 = .ok c) :
    w * h * 3 < 4294967296 ∧ c.width = w ∧ c.height = s0.height ∧
    c.pixels.length = w * h * 3 ∧ c.alpha.length = s0.alpha.length ∧
    ∀ x y, x < w → y < h →
      ∃ a rgb, V y x a rgb ∧
        (∀ k, k < 3 → c.pixels[(y * w + x) * 3 + k]? = rgb[k]?) ∧
        (∀ b, a = some b → c.alpha[y * w + x]? = some b) ∧
        (a = none → c.alpha[y * w + x]? = s0.alpha[y * w + x]?) := by
  have hinv : FillInv V s0 w h (h * w) c := by
    refine nested_ok_inv (FillInv V s0 w h) body h w s0 c hrun ?_ ?_
    · exact ⟨hw, rfl, rfl, rfl, fun _ hi => absurd hi (Nat.not_lt_zero _),
        fun _ _ _ _ _ hp => absurd hp (Nat.not_lt_zero _), fun _ _ _ => rfl⟩
    · intro y x u v hy hx hu hv
      obtain ⟨a, rgb, hV, hst⟩ := hbody y x u v hy hx hu.1 hu.2.1 hv
      exact fillInv_step V s0 w h y x u v a rgb hy hx hu hV hst
  obtain ⟨hcw, hch, hcpl, hcal, hB, hC, -⟩ := hinv
  have hfit : w * h * 3 < 4294967296 := by
    have := no_wrap_of_writes (w * h) (by
      intro i hi
      have := hB i (by rw [Nat.mul_comm h w]; exact hi)
      rw [hpl] at this
      rw [Nat.mul_comm 3 i, Nat.mul_comm 3 (w * h)]
      exact this)
    omega
  refine ⟨hfit, hcw, hch, ?_, hcal, ?_⟩
  · rw [hcpl, hpl]; exact Nat.mod_eq_of_lt hfit
  · intro x y hx hy
    have := index_lt x y w h hx hy
    exact hC hfit x y hx hy (by rw [Nat.mul_comm h w]; exact this)

/-! ## `readFromXyz` -/

theorem leValue_two_lt (l : List Byte) (h : l.length = 2) : leValue l < 65536 := by
  match l, h with
  | [a, b], _ =>
    simp only [leValue]
    have := a.isLt
    have := b.isLt
    omega

theorem wrapU_natCast_mul (n k : Nat) : wrapU ((n : Int) * (k : Int)) = (n * k) % 4294967296 := by
  rw [← wrapU_natCast]; push_cast; rfl

theorem xyzPixel_store (data : List Byte) (y x : Nat) (s s' : Bitmap)
    (h : xyzPixel data y x s = .ok s') :
    ∃ a rgb, (∃ idx : Byte, 0 ≤ toInt (wrapU ((768 + (y * s.width + x) : Nat) : Int)) ∧
        data[(toInt (wrapU ((768 + (y * s.width + x) : Nat) : Int))).toNat]? = some idx ∧
        a = some (idx != 0) ∧ idx.val * 3 + 3 ≤ data.length ∧
        rgb = (data.drop (idx.val * 3)).take 3) ∧
      StoreAt s (y * s.width + x) a rgb s' := by
  have e1 : (256 * 3 + (y : Int) * s.width + x) = ((768 + (y * s.width + x) : Nat) : Int) := by
    push_cast; ring
  have e2 : ((y : Int) * s.width + x) = ((y * s.width + x : Nat) : Int) := by
    push_cast; ring
  have e3 := wrapU_natCast_mul (y * s.width + x) 3
  simp only [Nat.cast_ofNat] at e3
  simp only [xyzPixel, bind_ok_iff, vecGetI_ok_iff, vecSet_ok_iff, vecRange_ok_iff,
    copyTo_ok_iff, pure_ok_iff, e1, e2, wrapU_natCast, e3] at h
  obtain ⟨idx, ⟨hnn, hidx⟩, al, ⟨hal, rfl⟩, col, ⟨hcl, rfl⟩, px, ⟨hpl, rfl⟩, rfl⟩ := h
  have hl3 : ((data.drop (idx.val * 3)).take 3).length = 3 := range_length _ _ _ hcl
  rw [hl3] at hpl
  refine ⟨_, _, ⟨idx, ?_, ?_, rfl, hcl, rfl⟩, hl3, hpl, fun _ => hal, rfl, rfl, ?_, rfl⟩
  · rw [wrapU_natCast]; exact hnn
  · rw [wrapU_natCast]; exact hidx
  · simp only [hl3]

theorem readAt_ok_iff (file : List Byte) (pos n : Nat) (r : List Byte) :
    readAt file pos n = .ok r ↔ pos + n ≤ file.length ∧ r = (file.drop pos).take n := by
  unfold readAt
  split
  · rename_i h
    simp only [Except.ok.injEq, h, true_and]
    exact eq_comm
  · rename_i h
    simp [h]

theorem throw_ne_ok {α : Type} (e : Fault) (a : α) : (throw e : Run α) = .ok a ↔ False := by
  simp [throw, throwThe, MonadExceptOf.throw]

theorem ite_throw_ok_iff {α : Type} (c : Prop) [Decidable c] (e : Fault) (m : Run α) (a : α) :
    (if c then throw e else m) = .ok a ↔ ¬ c ∧ m = .ok a := by
  split
  · rename_i h
    simp [throw_ne_ok, h]
  · rename_i h
    simp [h]

theorem uncompress_some_iff (inflate : List Byte → Option (List Byte)) (dest source : List Byte)
    (data : List Byte) (size : Nat) :
    uncompress inflate dest source = some (data, size) ↔
      ∃ out, inflate source = some out ∧ out.length ≤ dest.length ∧
        data = out ++ dest.drop out.length ∧ size = out.length := by
  unfold uncompress
  cases h : inflate source with
  | none => simp
  | some out =>
    by_cases hl : out.length ≤ dest.length
    · simp only [hl, if_true, Option.some.injEq, Prod.mk.injEq, exists_eq_left', true_and]
      constructor
      · rintro ⟨rfl, rfl⟩; exact ⟨rfl, rfl⟩
      · rintro ⟨rfl, rfl⟩; exact ⟨rfl, rfl⟩
    · simp only [hl, if_false, reduceCtorEq, false_iff, not_exists, not_and]
      intro out' ho hl'
      cases ho
      exact absurd hl' hl

/-- What a successful run of `readFromXyz` has read and stored. -/
theorem readFromXyz_ok (inflate : List Byte → Option (List Byte)) (file : List Byte)
    (c : Bitmap) (h : readFromXyz inflate file = .ok c) :
    ∃ data, 8 < file.length ∧ file.take 4 = xyzMagicNumber ∧
      inflate (file.drop 8) = some data ∧
      c.width = leValue ((file.drop 4).take 2) ∧
      c.height = leValue ((file.drop 6).take 2) ∧
      data.length = 256 * 3 + c.width * c.height ∧
      c.lengthsOk ∧ c.fits ∧
      ∀ x y, x < c.width → y < c.height →
        ∃ idx : Byte, data[256 * 3 + y * c.width + x]? = some idx ∧
          idx.val * 3 + 3 ≤ data.length ∧
          c.alpha[y * c.width + x]? = some (idx != 0) ∧
          ∀ k, k < 3 → c.pixels[(y * c.width + x) * 3 + k]? = data[idx.val * 3 + k]? := by
  simp only [readFromXyz, bind_ok_iff, readAt_ok_iff, ite_throw_ok_iff] at h
  obtain ⟨magic, ⟨hm1, rfl⟩, hmagic, wb, ⟨hw1, rfl⟩, hb, ⟨hh1, rfl⟩, hsize, comp,
    ⟨hc1, rfl⟩, hrest⟩ := h
  have hwlt := leValue_two_lt ((file.drop 4).take 2) (range_length _ _ _ hw1)
  have hhlt := leValue_two_lt ((file.drop 6).take 2) (range_length _ _ _ hh1)
  generalize leValue ((file.drop 4).take 2) = w at *
  generalize leValue ((file.drop 6).take 2) = ht at *
  have hwh : w * ht ≤ 65535 * 65535 := Nat.mul_le_mul (by omega) (by omega)
  cases hu : uncompress inflate
      (List.replicate (wrapU (256 * 3 + (w : Int) * (ht : Int))) 0)
      ((file.drop 8).take (file.length - 8)) with
  | none => rw [hu] at hrest; simp [throw_ne_ok] at hrest
  | some r =>
    obtain ⟨data, size⟩ := r
    rw [hu] at hrest
    simp only [ite_throw_ok_iff] at hrest
    obtain ⟨hsz, hrun⟩ := hrest
    rw [uncompress_some_iff] at hu
    obtain ⟨out, hinf, hol, rfl, rfl⟩ := hu
    have e0 : (256 * 3 + (w : Int) * (ht : Int)) = ((768 + w * ht : Nat) : Int) := by
      push_cast; ring
    rw [e0, wrapU_of_lt _ (by omega)] at hol hsz
    simp only [List.length_replicate, List.length_append, List.length_drop, ne_eq,
      not_not] at hol hsz
    have hlen : out.length = 768 + w * ht := by omega
    have hdata : out ++ List.drop out.length (List.replicate (768 + w * ht) (0 : Byte)) = out := by
      rw [List.drop_of_length_le (by simp; omega), List.append_nil]
    rw [e0, wrapU_of_lt _ (by omega), hdata] at hrun
    have htake : (file.drop 8).take (file.length - 8) = file.drop 8 :=
      List.take_of_length_le (by simp)
    rw [htake] at hinf
    have key := fill_loops_ok
      (fun y x a rgb => ∃ idx : Byte,
        0 ≤ toInt (wrapU ((768 + (y * w + x) : Nat) : Int)) ∧
        out[(toInt (wrapU ((768 + (y * w + x) : Nat) : Int))).toNat]? = some idx ∧
        a = some (idx != 0) ∧ idx.val * 3 + 3 ≤ out.length ∧
        rgb = (out.drop (idx.val * 3)).take 3)
      (fun y x t => xyzPixel out y x t) _ c w ht rfl
      (by simp only [List.length_replicate]; rw [← wrapU_natCast]; push_cast; rfl)
      (by
        intro y x s s' _ _ hsw _ hs
        have := xyzPixel_store out y x s s' hs
        rw [hsw] at this
        exact this)
      hrun
    obtain ⟨hfit, hcw, hch, hcpl, hcal, hpix⟩ := key
    replace hch : c.height = ht := hch
    simp only [List.length_replicate] at hcal
    have e1 : ((w : Int) * (ht : Int)) = ((w * ht : Nat) : Int) := by push_cast; rfl
    rw [e1, wrapU_of_lt _ (by omega)] at hcal
    refine ⟨out, by omega, by simpa using hmagic, hinf, hcw, hch, ?_, ?_, ?_, ?_⟩
    · rw [hcw, hch]; exact hlen
    · exact ⟨by rw [hcw, hch]; exact hcpl, by rw [hcw, hch]; exact hcal⟩
    · exact ⟨by omega, by rw [hch]; omega, by omega, by omega⟩
    · intro x y hx hy
      rw [hcw] at hx ⊢
      rw [hch] at hy
      obtain ⟨a, rgb, ⟨idx, hnn, hidx, rfl, hi3, rfl⟩, hp, ha, -⟩ := hpix x y hx hy
      have hlt := index_lt x y w ht hx hy
      rw [wrapU_of_lt _ (by omega), toInt_of_lt _ (by omega)] at hidx
      refine ⟨idx, ?_, hi3, ha _ rfl, ?_⟩
      · simpa [Nat.add_assoc] using hidx
      · intro k hk
        rw [hp k hk, range_getElem? _ _ _ _ hk]

/-! ## `readFromBmp` -/

/-- Three assignments to consecutive elements overwrite a range of three. -/
theorem set3_eq_overwrite {α : Type} (l : List α) (p : Nat) (r g b : α)
    (h : p + 3 ≤ l.length) :
    ((l.set p r).set (p + 1) g).set (p + 2) b = l.take p ++ [r, g, b] ++ l.drop (p + 3) := by
  apply List.ext_getElem?
  intro n
  have := overwrite_getElem? l [r, g, b] p n (by simpa using h)
  simp only [List.length_cons, List.length_nil] at this
  rw [this]
  simp only [List.getElem?_set, List.length_set]
  by_cases h0 : n = p
  · subst h0
    simp
    omega
  · by_cases h1 : n = p + 1
    · subst h1
      simp
      omega
    · by_cases h2 : n = p + 2
      · subst h2
        simp
        omega
      · have hn : ¬ (p ≤ n ∧ n < p + (0 + 1 + 1 + 1)) := by omega
        rw [if_neg hn, if_neg (by omega), if_neg (by omega), if_neg (by omega)]

theorem toInt_nonneg_eq (n : Nat) (h : 0 ≤ toInt n) (hn : n < 4294967296) :
    n < 2147483648 ∧ toInt n = n := by
  have := (toInt_nonneg_iff n hn).mp h
  exact ⟨this, toInt_of_lt n this⟩

theorem toNat_natCast_add (n : Nat) (k : Nat) : ((n : Int) + (k : Int)).toNat = n + k := by
  omega

/-- What one iteration of the loop of `readFromBmp` does when it ends with a
result. -/
theorem bmpPixel_store (palette bmpPixels : List Byte) (topDown : Bool) (y x : Nat)
    (s s' : Bitmap) (hy : y < s.height)
    (h : bmpPixel palette bmpPixels topDown y x s = .ok s') :
    ∃ a rgb, (∃ (idx r g b : Byte),
        0 ≤ toInt (wrapU (((if topDown then y else s.height - 1 - y) * s.width + x : Nat) : Int)) ∧
        bmpPixels[(toInt (wrapU (((if topDown then y else s.height - 1 - y) * s.width + x
          : Nat) : Int))).toNat]? = some idx ∧
        palette[idx.val * 4 + 2]? = some r ∧ palette[idx.val * 4 + 1]? = some g ∧
        palette[idx.val * 4]? = some b ∧
        a = some (idx != 0) ∧ rgb = [r, g, b]) ∧
      StoreAt s (y * s.width + x) a rgb s' := by
  have e1 : ((if topDown = true then (y : Int) else (s.height : Int) - 1 - y) * s.width + x)
      = (((if topDown then y else s.height - 1 - y) * s.width + x : Nat) : Int) := by
    cases topDown
    · simp only [Bool.false_eq_true, if_false]
      push_cast [Nat.sub_sub, Nat.cast_sub (by omega : 1 + y ≤ s.height)]
      ring
    · simp only [if_true]
      push_cast; ring
  have e2 : ((y : Int) * s.width + x) = ((y * s.width + x : Nat) : Int) := by
    push_cast; ring
  have e3 := wrapU_natCast_mul (y * s.width + x) 3
  simp only [Nat.cast_ofNat] at e3
  simp only [bmpPixel, bind_ok_iff, vecGetI_ok_iff, vecSet_ok_iff, vecSetI_ok_iff,
    checkInt_ok_iff, pure_ok_iff, e1, e2, e3] at h
  obtain ⟨idx, ⟨hnn, hidx⟩, h⟩ := h
  obtain ⟨al, ⟨hal, hal'⟩, h⟩ := h
  obtain ⟨r, ⟨-, hr⟩, h⟩ := h
  obtain ⟨d0, ⟨hd0e, -, -⟩, h⟩ := h
  obtain ⟨px0, ⟨hd0, hl0, hpx0⟩, h⟩ := h
  obtain ⟨g, ⟨-, hg⟩, h⟩ := h
  obtain ⟨d1, ⟨hd1e, -, -⟩, h⟩ := h
  obtain ⟨px1, ⟨-, hl1, hpx1⟩, h⟩ := h
  obtain ⟨b, ⟨-, hb⟩, h⟩ := h
  obtain ⟨d2, ⟨hd2e, -, -⟩, h⟩ := h
  obtain ⟨px2, ⟨-, hl2, hpx2⟩, h⟩ := h
  subst hd0e hd1e hd2e hal' hpx0 hpx1 hpx2 h
  simp only [add_zero] at hd0 hl0
  obtain ⟨hlt, heq⟩ := toInt_nonneg_eq _ hd0 (Nat.mod_lt _ (by norm_num))
  rw [wrapU_natCast] at hal
  simp only [heq, List.length_set] at hl0 hl1 hl2 ⊢
  have t0 := toNat_natCast_add ((y * s.width + x) * 3 % 4294967296) 0
  have t1 := toNat_natCast_add ((y * s.width + x) * 3 % 4294967296) 1
  have t2 := toNat_natCast_add ((y * s.width + x) * 3 % 4294967296) 2
  have u2 := toNat_natCast_add (idx.val * 4) 2
  have u1 := toNat_natCast_add (idx.val * 4) 1
  have u0 := toNat_natCast_add (idx.val * 4) 0
  simp only [Nat.cast_ofNat, Nat.cast_mul, Nat.cast_zero, Nat.cast_one, Nat.add_zero]
    at t0 t1 t2 u0 u1 u2
  rw [u2] at hr
  rw [u1] at hg
  rw [u0] at hb
  rw [t2] at hl2
  refine ⟨_, _, ⟨idx, r, g, b, hnn, hidx, hr, hg, hb, rfl, rfl⟩, rfl, by omega,
    fun _ => hal, rfl, rfl, ?_, ?_⟩
  · show ((s.pixels.set _ r).set _ g).set _ b = _
    rw [t0, t1, t2]
    exact set3_eq_overwrite _ _ r g b (by omega)
  · show s.alpha.set _ _ = s.alpha.set _ _
    rw [wrapU_natCast]

/-- What a successful run of `readFromBmp` has read and stored. -/
theorem readFromBmp_ok (file : List Byte) (c : Bitmap) (h : readFromBmp file = .ok c) :
    ∃ (hf : Int) (n : Nat),
      file.take 2 = bmpMagicNumber ∧
      hf = toInt (leValue ((file.drop 22).take 4)) ∧ hf ≠ 0 ∧
      c.width = leValue ((file.drop 18).take 4) ∧ c.width ≠ 0 ∧
      c.height = hf.natAbs ∧
      leValue ((file.drop 26).take 2) = 1 ∧ leValue ((file.drop 28).take 2) = 8 ∧
      leValue ((file.drop 30).take 4) = 0 ∧
      n = (if leValue ((file.drop 34).take 4) = 0 then 256
        else leValue ((file.drop 34).take 4)) ∧ n ≤ 256 ∧
      c.lengthsOk ∧ c.fits ∧
      ∀ x y, x < c.width → y < c.height →
        ∃ idx r g b : Byte,
          ((file.drop (leValue ((file.drop 10).take 4))).take (c.width * c.height))[
            (if hf < 0 then y else c.height - 1 - y) * c.width + x]? = some idx ∧
          ((file.drop (wrapU (leValue ((file.drop 14).take 4) + 14))).take (n * 4))[
            idx.val * 4 + 2]? = some r ∧
          ((file.drop (wrapU (leValue ((file.drop 14).take 4) + 14))).take (n * 4))[
            idx.val * 4 + 1]? = some g ∧
          ((file.drop (wrapU (leValue ((file.drop 14).take 4) + 14))).take (n * 4))[
            idx.val * 4]? = some b ∧
          c.alpha[y * c.width + x]? = some (idx != 0) ∧
          c.pixels[(y * c.width + x) * 3]? = some r ∧
          c.pixels[(y * c.width + x) * 3 + 1]? = some g ∧
          c.pixels[(y * c.width + x) * 3 + 2]? = some b := by
  simp only [readFromBmp, bind_ok_iff, readAt_ok_iff, ite_throw_ok_iff, checkInt_ok_iff] at h
  obtain ⟨magic, ⟨-, rfl⟩, hmagic, po, ⟨-, rfl⟩, pa, ⟨-, rfl⟩, wb, ⟨-, rfl⟩, tb, ⟨-, rfl⟩,
    hdim, h⟩ := h
  obtain ⟨ab, ⟨rfl, -, habs⟩, pl, ⟨-, rfl⟩, hplanes, bp, ⟨-, rfl⟩, hbpp, cm, ⟨-, rfl⟩, hcomp,
    h⟩ := h
  obtain ⟨ps, ⟨-, rfl⟩, hps, palette, ⟨-, rfl⟩, bmpPixels, ⟨-, rfl⟩, hrun⟩ := h
  generalize hwdef : leValue ((file.drop 18).take 4) = w at *
  generalize hhf : toInt (leValue ((file.drop 22).take 4)) = hf at *
  generalize hndef : (if leValue ((file.drop 34).take 4) = 0 then 256
    else leValue ((file.drop 34).take 4)) = n at *
  have hn : n ≤ 256 := by
    rw [← hndef]; split <;> omega
  have habsNat : |hf|.toNat = hf.natAbs := by
    rw [Int.abs_eq_natAbs, Int.toNat_natCast]
  rw [habsNat] at hrun
  generalize hhdef : hf.natAbs = ht at *
  have key := fill_loops_ok
    (fun y x a rgb => ∃ (idx r g b : Byte),
        0 ≤ toInt (wrapU (((if decide (hf < 0) then y else ht - 1 - y) * w + x : Nat) : Int)) ∧
        ((file.drop (leValue ((file.drop 10).take 4))).take (wrapU ((w : Int) * (ht : Int))))[
          (toInt (wrapU (((if decide (hf < 0) then y else ht - 1 - y) * w + x
          : Nat) : Int))).toNat]? = some idx ∧
        ((file.drop (wrapU (leValue ((file.drop 14).take 4) + 14))).take
          (wrapU ((n : Int) * 4)))[idx.val * 4 + 2]? = some r ∧
        ((file.drop (wrapU (leValue ((file.drop 14).take 4) + 14))).take
          (wrapU ((n : Int) * 4)))[idx.val * 4 + 1]? = some g ∧
        ((file.drop (wrapU (leValue ((file.drop 14).take 4) + 14))).take
          (wrapU ((n : Int) * 4)))[idx.val * 4]? = some b ∧
        a = some (idx != 0) ∧ rgb = [r, g, b])
    (fun y x t => bmpPixel _ _ (decide (hf < 0)) y x t) _ c w ht rfl
    (by simp only [List.length_replicate]; rw [← wrapU_natCast]; push_cast; rfl)
    (by
      intro y x s s' hy _ hsw hsh hs
      replace hsh : s.height = ht := hsh
      have := bmpPixel_store _ _ _ y x s s' (by omega) hs
      rw [hsw, hsh] at this
      exact this)
    hrun
  obtain ⟨hfit, hcw, hch, hcpl, hcal, hpix⟩ := key
  replace hch : c.height = ht := hch
  have hw0 : w ≠ 0 := fun e => hdim (Or.inl e)
  have hf0 : hf ≠ 0 := fun e => hdim (Or.inr e)
  have hwh : w * ht < 4294967296 := by omega
  have e1 : ((w : Int) * (ht : Int)) = ((w * ht : Nat) : Int) := by push_cast; rfl
  have e2 : wrapU ((n : Int) * 4) = n * 4 := by
    have := wrapU_natCast_mul n 4
    simp only [Nat.cast_ofNat] at this
    rw [this]; omega
  simp only [List.length_replicate] at hcal
  rw [e1, wrapU_of_lt _ hwh] at hcal
  have hwlt : w < 4294967296 := by
    have : w ≤ w * ht := Nat.le_mul_of_pos_right _ (by omega)
    omega
  have hhlt : ht < 4294967296 := by
    have : ht ≤ w * ht := Nat.le_mul_of_pos_left _ (by omega)
    omega
  refine ⟨hf, n, by simpa using hmagic, rfl, hf0, hcw, by rw [hcw]; exact hw0,
    hch.trans hhdef.symm,
    by simpa using hplanes, by simpa using hbpp, by simpa using hcomp, rfl, hn, ?_, ?_, ?_⟩
  · exact ⟨by rw [hcw, hch]; exact hcpl, by rw [hcw, hch]; exact hcal⟩
  · exact ⟨by rw [hcw]; exact hwlt, by rw [hch]; exact hhlt, by omega, by omega⟩
  · intro x y hx hy
    rw [hcw] at hx ⊢
    rw [hch] at hy ⊢
    obtain ⟨a, rgb, ⟨idx, r, g, b, hnn, hidx, hr, hg, hb, rfl, rfl⟩, hp, ha, -⟩ :=
      hpix x y hx hy
    have hsrc : (if decide (hf < 0) then y else ht - 1 - y) * w + x < w * ht := by
      apply index_lt _ _ _ _ hx
      split <;> omega
    rw [wrapU_of_lt _ (by omega), toInt_of_lt _ (by omega), Int.toNat_natCast, e1,
      wrapU_of_lt _ hwh] at hidx
    rw [e2] at hr hg hb
    refine ⟨idx, r, g, b, ?_, hr, hg, hb, ha _ rfl, ?_, ?_, ?_⟩
    · simpa using hidx
    · simpa using hp 0 (by omega)
    · simpa using hp 1 (by omega)
    · simpa using hp 2 (by omega)

/-! ## `readFromPng` -/

/-- What one iteration of the RGBA loop of `readFromPng` does when it ends with
a result. -/
theorem pngRgbaPixel_store (rows : List (List Byte)) (y x : Nat) (s s' : Bitmap)
    (h : pngRgbaPixel rows y x s = .ok s') :
    ∃ a rgb, (∃ (row : List Byte) (al : Byte), rows[y]? = some row ∧
        row[(x * 4) % 4294967296 + 3]? = some al ∧
        (x * 4) % 4294967296 + 3 ≤ row.length ∧
        a = some (al != 0) ∧ rgb = (row.drop ((x * 4) % 4294967296)).take 3) ∧
      StoreAt s (y * s.width + x) a rgb s' := by
  have e2 : ((y : Int) * s.width + x) = ((y * s.width + x : Nat) : Int) := by
    push_cast; ring
  have e3 := wrapU_natCast_mul (y * s.width + x) 3
  have e4 := wrapU_natCast_mul x 4
  simp only [Nat.cast_ofNat] at e3 e4
  simp only [pngRgbaPixel, bind_ok_iff, vecGet_ok_iff, vecSet_ok_iff, vecRange_ok_iff,
    copyTo_ok_iff, pure_ok_iff, e2, wrapU_natCast, e3, e4] at h
  obtain ⟨row, hrow, al, hal, alpha, ⟨hidx, rfl⟩, bytes, ⟨hbl, rfl⟩, px, ⟨hpl, rfl⟩, rfl⟩ := h
  have hl3 := range_length row _ 3 hbl
  rw [hl3] at hpl
  refine ⟨_, _, ⟨row, al, hrow, hal, hbl, rfl, rfl⟩, hl3, hpl, fun _ => hidx, rfl, rfl, ?_, rfl⟩
  simp only [hl3]

/-- What one iteration of the palette loop of `readFromPng` does when it ends
with a result. -/
theorem pngPalettePixel_store (rows : List (List Byte)) (palette : List (Byte × Byte × Byte))
    (y x : Nat) (s s' : Bitmap) (h : pngPalettePixel rows palette y x s = .ok s') :
    ∃ a rgb, (∃ (row : List Byte) (idx : Byte) (col : Byte × Byte × Byte),
        rows[y]? = some row ∧ row[x]? = some idx ∧ palette[idx.val]? = some col ∧
        a = some (idx != 0) ∧ rgb = [col.1, col.2.1, col.2.2]) ∧
      StoreAt s (y * s.width + x) a rgb s' := by
  have e2 : ((y : Int) * s.width + x) = ((y * s.width + x : Nat) : Int) := by
    push_cast; ring
  have e3 := wrapU_natCast_mul (y * s.width + x) 3
  simp only [Nat.cast_ofNat] at e3
  simp only [pngPalettePixel, bind_ok_iff, vecGet_ok_iff, vecSet_ok_iff,
    copyTo_ok_iff, pure_ok_iff, e2, wrapU_natCast, e3] at h
  obtain ⟨row, hrow, idx, hidx, alpha, ⟨hal, rfl⟩, col, hcol, px, ⟨hpl, rfl⟩, rfl⟩ := h
  exact ⟨_, _, ⟨row, idx, col, hrow, hidx, hcol, rfl, rfl⟩, rfl, hpl, fun _ => hal, rfl, rfl,
    rfl, rfl⟩

/-- What one iteration of the grayscale loop of `readFromPng` does when it ends
with a result. -/
theorem pngGrayPixel_store (rows : List (List Byte)) (y x : Nat) (s s' : Bitmap)
    (h : pngGrayPixel rows y x s = .ok s') :
    ∃ a rgb, (∃ (row : List Byte) (g : Byte), rows[y]? = some row ∧ row[x]? = some g ∧
        a = none ∧ rgb = [g, g, g]) ∧
      StoreAt s (y * s.width + x) a rgb s' := by
  have e3 := wrapU_natCast_mul (y * s.width + x) 3
  have e2 : ((y : Int) * s.width + x) = ((y * s.width + x : Nat) : Int) := by
    push_cast; ring
  simp only [Nat.cast_ofNat] at e3
  simp only [pngGrayPixel, bind_ok_iff, vecGet_ok_iff, copyToI_ok_iff, pure_ok_iff, e2, e3]
    at h
  obtain ⟨row, hrow, g, hg, px, ⟨hnn, hpl, rfl⟩, rfl⟩ := h
  obtain ⟨-, heq⟩ := toInt_nonneg_eq _ hnn (Nat.mod_lt _ (by norm_num))
  rw [heq, Int.toNat_natCast] at hpl ⊢
  exact ⟨_, _, ⟨row, g, hrow, hg, rfl, rfl⟩, rfl, hpl, fun hn => (by cases hn), rfl, rfl,
    rfl, rfl⟩

/-- A buffer of `(w * h * 3) mod 2^32` bytes that takes a write of `w * 3` bytes
at `(y * w * 3) mod 2^32` for every `y < h` has `w * h * 3` bytes. -/
theorem no_wrap_of_row_writes (w h : Nat) (hw : 0 < w) (hw3 : w * 3 < 4294967296)
    (hwr : ∀ y, y < h → (y * w * 3) % 4294967296 + w * 3 ≤ (w * h * 3) % 4294967296) :
    w * h * 3 < 4294967296 := by
  by_contra hc
  have hlt : (w * h * 3) % 4294967296 < 4294967296 := Nat.mod_lt _ (by norm_num)
  generalize hL : (w * h * 3) % 4294967296 = L at *
  have hdm : w * 3 * (L / (w * 3)) + L % (w * 3) = L := Nat.div_add_mod L (w * 3)
  have hml : L % (w * 3) < w * 3 := Nat.mod_lt _ (by omega)
  generalize hq : L / (w * 3) = q at *
  have hqh : q < h := by
    by_contra hge
    have : w * 3 * h ≤ w * 3 * q := Nat.mul_le_mul_left _ (by omega)
    have e : w * h * 3 = w * 3 * h := by ring
    omega
  have hm : (q * w * 3) % 4294967296 = q * w * 3 := by
    apply Nat.mod_eq_of_lt
    have e : q * w * 3 = w * 3 * q := by ring
    omega
  have := hwr q hqh
  rw [hm] at this
  have e : q * w * 3 = w * 3 * q := by ring
  omega

/-- What one iteration of the RGB loop of `readFromPng` does when it ends with a
result. -/
theorem pngRgbRow_ok (rows : List (List Byte)) (y : Nat) (s s' : Bitmap)
    (hw3 : s.width * 3 < 4294967296) (h : pngRgbRow rows y s = .ok s') :
    ∃ row, rows[y]? = some row ∧ s.width * 3 ≤ row.length ∧
      (y * s.width * 3) % 4294967296 + s.width * 3 ≤ s.pixels.length ∧
      s'.width = s.width ∧ s'.height = s.height ∧ s'.alpha = s.alpha ∧
      s'.pixels = s.pixels.take ((y * s.width * 3) % 4294967296) ++ row.take (s.width * 3) ++
        s.pixels.drop ((y * s.width * 3) % 4294967296 + s.width * 3) := by
  have e3 := wrapU_natCast_mul (y * s.width) 3
  have e4 := wrapU_natCast_mul s.width 3
  have e2 : ((y : Int) * s.width) = ((y * s.width : Nat) : Int) := by push_cast; rfl
  simp only [Nat.cast_ofNat] at e3 e4
  simp only [pngRgbRow, bind_ok_iff, vecGet_ok_iff, vecRange_ok_iff, copyTo_ok_iff,
    pure_ok_iff, e2, e3, e4, Nat.mod_eq_of_lt hw3, List.drop_zero, Nat.zero_add] at h
  obtain ⟨row, hrow, bytes, ⟨hbl, rfl⟩, px, ⟨hpl, rfl⟩, rfl⟩ := h
  have hl : (row.take (s.width * 3)).length = s.width * 3 := by
    rw [List.length_take]; omega
  rw [hl] at hpl
  refine ⟨row, hrow, hbl, hpl, rfl, rfl, rfl, ?_⟩
  simp only [hl]

/-- The RGB loop of `readFromPng`, when it ends with a result, has copied every
row to its place; in particular no 32-bit offset wrapped around. -/
theorem rgb_rows_ok (rows : List (List Byte)) (s0 c : Bitmap) (w h : Nat)
    (hw : s0.width = w) (hwpos : 0 < w) (hw3 : w * 3 < 4294967296)
    (hpl : s0.pixels.length = (w * h * 3) % 4294967296)
    (hrun : forUpTo h (fun y s => pngRgbRow rows y s) s0 = .ok c) :
    w * h * 3 < 4294967296 ∧ c.width = w ∧ c.height = s0.height ∧
    c.pixels.length = w * h * 3 ∧ c.alpha = s0.alpha ∧
    ∀ y, y < h → ∃ row, rows[y]? = some row ∧ w * 3 ≤ row.length ∧
      ∀ j, j < w * 3 → c.pixels[y * w * 3 + j]? = row[j]? := by
  have hinv := forUpTo_ok_inv
    (fun y s => s.width = w ∧ s.height = s0.height ∧
      s.pixels.length = s0.pixels.length ∧ s.alpha = s0.alpha ∧
      (∀ y', y' < y → (y' * w * 3) % 4294967296 + w * 3 ≤ s0.pixels.length) ∧
      (w * h * 3 < 4294967296 → ∀ y', y' < y → ∃ row, rows[y']? = some row ∧
        w * 3 ≤ row.length ∧ ∀ j, j < w * 3 → s.pixels[y' * w * 3 + j]? = row[j]?))
    (fun y s => pngRgbRow rows y s) h s0 c hrun
    ⟨hw, rfl, rfl, rfl, fun _ hy => absurd hy (Nat.not_lt_zero _),
      fun _ _ hy => absurd hy (Nat.not_lt_zero _)⟩
    (by
      intro y u v hy ⟨huw, huh, hupl, hual, hB, hC⟩ hv
      obtain ⟨row, hrow, hrl, hpb, hvw, hvh, hva, hvp⟩ :=
        pngRgbRow_ok rows y u v (by rw [huw]; exact hw3) hv
      rw [huw] at hrl hpb hvp
      have hl : (row.take (w * 3)).length = w * 3 := by
        rw [List.length_take]; omega
      have hvpl : v.pixels.length = u.pixels.length := by
        rw [hvp]
        have := overwrite_length u.pixels (row.take (w * 3)) ((y * w * 3) % 4294967296)
          (by omega)
        rw [hl] at this
        exact this
      refine ⟨hvw.trans huw, hvh.trans huh, hvpl.trans hupl, hva.trans hual, ?_, ?_⟩
      · intro y' hy'
        rcases Nat.lt_succ_iff_lt_or_eq.mp hy' with hlt | rfl
        · exact hB y' hlt
        · rw [← hupl]; exact hpb
      · intro hfit y' hy'
        have hyw : (y + 1) * (w * 3) ≤ h * (w * 3) := Nat.mul_le_mul_right _ hy
        have e1 : y * w * 3 = y * (w * 3) := by ring
        have e2 : w * h * 3 = h * (w * 3) := by ring
        have e3 : (y + 1) * (w * 3) = y * (w * 3) + w * 3 := by ring
        have hm : (y * w * 3) % 4294967296 = y * w * 3 := Nat.mod_eq_of_lt (by omega)
        rw [hm] at hvp hpb
        rcases Nat.lt_succ_iff_lt_or_eq.mp hy' with hlt | rfl
        · obtain ⟨row', hrow', hrl', hc'⟩ := hC hfit y' hlt
          refine ⟨row', hrow', hrl', fun j hj => ?_⟩
          have hy'w : (y' + 1) * (w * 3) ≤ y * (w * 3) := Nat.mul_le_mul_right _ hlt
          have e4 : y' * w * 3 = y' * (w * 3) := by ring
          have e5 : (y' + 1) * (w * 3) = y' * (w * 3) + w * 3 := by ring
          rw [hvp]
          have := overwrite_getElem? u.pixels (row.take (w * 3)) (y * w * 3)
            (y' * w * 3 + j) (by omega)
          rw [hl] at this
          rw [this, if_neg (by omega)]
          exact hc' j hj
        · refine ⟨row, hrow, hrl, fun j hj => ?_⟩
          rw [hvp]
          have := overwrite_getElem? u.pixels (row.take (w * 3)) (y' * w * 3)
            (y' * w * 3 + j) (by omega)
          rw [hl] at this
          rw [this, if_pos (by omega), Nat.add_sub_cancel_left,
            List.getElem?_take_of_lt hj])
  obtain ⟨hcw, hch, hcpl, hcal, hB, hC⟩ := hinv
  have hfit : w * h * 3 < 4294967296 :=
    no_wrap_of_row_writes w h hwpos hw3 (fun y hy => by
      have := hB y hy
      rw [hpl] at this
      exact this)
  refine ⟨hfit, hcw, hch, ?_, hcal, fun y hy => hC hfit y hy⟩
  rw [hcpl, hpl]; exact Nat.mod_eq_of_lt hfit

/-- The canvas `readFromPng` allocates before the `switch`. -/
theorem readFromPng_ok (libpng : List Byte → Option PngInfo) (file : Option (List Byte))
    (c : Bitmap) (h : readFromPng libpng file = .ok c) :
    ∃ content info, file = some content ∧ content.take 8 = pngSignature ∧
      libpng content = some info ∧ info.width ≠ 0 ∧ info.height ≠ 0 ∧
      pngSwitch info ""
        { width := info.width
          height := info.height
          pixels := List.replicate (wrapU (info.width * info.height * 3)) 0
          alpha := List.replicate (wrapU (info.width * info.height)) false } = .ok ("", c) := by
  unfold readFromPng at h
  cases file with
  | none => simp [throw_ne_ok] at h
  | some content =>
    simp only at h
    split at h
    · simp [throw_ne_ok] at h
    · split at h
      · simp [throw_ne_ok] at h
      · rename_i hsig
        cases hl : libpng content with
        | none => rw [hl] at h; simp [throw_ne_ok] at h
        | some info =>
          rw [hl] at h
          simp only [bind_ok_iff] at h
          obtain ⟨⟨e, r⟩, hsw, hr⟩ := h
          simp only [ite_throw_ok_iff, pure_ok_iff, ne_eq, not_not] at hr
          obtain ⟨rfl, rfl⟩ := hr
          by_cases hz : info.width = 0 ∨ info.height = 0
          · exfalso
            rw [if_pos hz] at hsw
            unfold pngSwitch at hsw
            split at hsw
            · simp only [bind_ok_iff, pure_ok_iff, Prod.mk.injEq] at hsw
              obtain ⟨_, _, he, _⟩ := hsw
              exact absurd he (by decide)
            · split at hsw
              · simp only [bind_ok_iff, pure_ok_iff, Prod.mk.injEq] at hsw
                obtain ⟨_, _, he, _⟩ := hsw
                exact absurd he (by decide)
              · split at hsw
                · simp only [bind_ok_iff, pure_ok_iff, Prod.mk.injEq] at hsw
                  obtain ⟨_, _, he, _⟩ := hsw
                  exact absurd he (by decide)
                · split at hsw
                  · simp only [bind_ok_iff, pure_ok_iff, Prod.mk.injEq] at hsw
                    obtain ⟨_, _, he, _⟩ := hsw
                    exact absurd he (by decide)
                  · split at hsw
                    · simp only [bind_ok_iff, pure_ok_iff, Prod.mk.injEq] at hsw
                      obtain ⟨_, _, he, _⟩ := hsw
                      exact absurd he (by decide)
                    · simp only [pure_ok_iff, Prod.mk.injEq] at hsw
                      exact absurd hsw.1 (by decide)
          · rw [if_neg hz] at hsw
            exact ⟨content, info, rfl, by simpa using hsig, hl, fun e => hz (Or.inl e),
              fun e => hz (Or.inr e), hsw⟩

/-- The `switch` of `readFromPng` leaves the text of `error` alone only in the
cases palette, RGB, RGBA and grayscale, and then ran the loop of that case. -/
theorem pngSwitch_ok (info : PngInfo) (s0 c : Bitmap)
    (h : pngSwitch info "" s0 = .ok ("", c)) :
    (info.colorType = PNG_COLOR_TYPE_PALETTE ∧
      forUpTo s0.height (fun y s => forUpTo s0.width
        (fun x t => pngPalettePixel info.rows info.palette y x t) s) s0 = .ok c) ∨
    (info.colorType = PNG_COLOR_TYPE_RGB ∧
      forUpTo s0.height (fun y s => pngRgbRow info.rows y s)
        { s0 with alpha := List.replicate s0.alpha.length true } = .ok c) ∨
    (info.colorType = PNG_COLOR_TYPE_RGBA ∧
      forUpTo s0.height (fun y s => forUpTo s0.width
        (fun x t => pngRgbaPixel info.rows y x t) s) s0 = .ok c) ∨
    (info.colorType = PNG_COLOR_TYPE_GRAY ∧
      forUpTo s0.height (fun y s => forUpTo s0.width
        (fun x t => pngGrayPixel info.rows y x t) s)
        { s0 with alpha := List.replicate s0.alpha.length true } = .ok c) := by
  unfold pngSwitch at h
  split at h
  · rename_i hct
    simp only [bind_ok_iff, pure_ok_iff, Prod.mk.injEq, true_and] at h
    obtain ⟨r, hr, rfl⟩ := h
    exact Or.inl ⟨hct, hr⟩
  · split at h
    · rename_i hct
      simp only [bind_ok_iff, pure_ok_iff, Prod.mk.injEq, true_and] at h
      obtain ⟨r, hr, rfl⟩ := h
      exact Or.inr (Or.inl ⟨hct, hr⟩)
    · split at h
      · rename_i hct
        simp only [bind_ok_iff, pure_ok_iff, Prod.mk.injEq, true_and] at h
        obtain ⟨r, hr, rfl⟩ := h
        exact Or.inr (Or.inr (Or.inl ⟨hct, hr⟩))
      · split at h
        · rename_i hct
          simp only [bind_ok_iff, pure_ok_iff, Prod.mk.injEq, true_and] at h
          obtain ⟨r, hr, rfl⟩ := h
          exact Or.inr (Or.inr (Or.inr ⟨hct, hr⟩))
        · split at h
          · simp only [bind_ok_iff, pure_ok_iff, Prod.mk.injEq] at h
            obtain ⟨_, _, he, _⟩ := h
            exact absurd he (by decide)
          · simp only [pure_ok_iff, Prod.mk.injEq] at h
            exact absurd h.1 (by decide)

theorem wrapU_mul (a b : Nat) : wrapU ((a : Int) * (b : Int)) = (a * b) % 4294967296 :=
  wrapU_natCast_mul a b

theorem wrapU_mul3 (a b : Nat) :
    wrapU ((a : Int) * (b : Int) * 3) = (a * b * 3) % 4294967296 := by
  rw [← wrapU_natCast]; push_cast; rfl

/-- A successful run of `readFromPng` on an image within libpng's width limit
yields a canvas that satisfies the buffer-length invariant. -/
theorem readFromPng_lengths (libpng : List Byte → Option PngInfo) (file : Option (List Byte))
    (c : Bitmap) (h : readFromPng libpng file = .ok c)
    (hlim : ∀ content info, libpng content = some info → info.width ≤ PNG_USER_WIDTH_MAX) :
    c.lengthsOk ∧ c.fits := by
  obtain ⟨content, info, -, -, hlib, hw0, hh0, hsw⟩ := readFromPng_ok libpng file c h
  have hwl := hlim content info hlib
  unfold PNG_USER_WIDTH_MAX at hwl
  generalize info.width = w at *
  generalize info.height = ht at *
  have fin : ∀ (la : Nat), w * ht * 3 < 4294967296 → c.width = w → c.height = ht →
      c.pixels.length = w * ht * 3 → c.alpha.length = la → la = (w * ht) % 4294967296 →
      c.lengthsOk ∧ c.fits := by
    intro la hfit hcw hch hcpl hcal hla
    have hwh : w * ht < 4294967296 := by omega
    rw [Nat.mod_eq_of_lt hwh] at hla
    have hwlt : w ≤ w * ht := Nat.le_mul_of_pos_right _ (by omega)
    have hhlt : ht ≤ w * ht := Nat.le_mul_of_pos_left _ (by omega)
    exact ⟨⟨by rw [hcw, hch]; exact hcpl, by rw [hcw, hch, hcal, hla]⟩,
      by rw [hcw]; omega, by rw [hch]; omega, by omega, by omega⟩
  rcases pngSwitch_ok info _ c hsw with ⟨-, hrun⟩ | ⟨-, hrun⟩ | ⟨-, hrun⟩ | ⟨-, hrun⟩
  · obtain ⟨hfit, hcw, hch, hcpl, hcal, -⟩ := fill_loops_ok _ _ _ c w ht rfl
      (by simp only [List.length_replicate]; exact wrapU_mul3 w ht)
      (fun y x s s' _ _ hsw _ hs => by
        have := pngPalettePixel_store info.rows info.palette y x s s' hs
        rw [hsw] at this
        exact this) hrun
    exact fin _ hfit hcw hch hcpl hcal (by simp only [List.length_replicate]; exact wrapU_mul w ht)
  · obtain ⟨hfit, hcw, hch, hcpl, hcal, -⟩ := rgb_rows_ok info.rows _ c w ht rfl (by omega)
      (by omega) (by simp only [List.length_replicate]; exact wrapU_mul3 w ht) hrun
    exact fin _ hfit hcw hch hcpl (by rw [hcal])
      (by simp only [List.length_replicate]; exact wrapU_mul w ht)
  · obtain ⟨hfit, hcw, hch, hcpl, hcal, -⟩ := fill_loops_ok _ _ _ c w ht rfl
      (by simp only [List.length_replicate]; exact wrapU_mul3 w ht)
      (fun y x s s' _ _ hsw _ hs => by
        have := pngRgbaPixel_store info.rows y x s s' hs
        rw [hsw] at this
        exact this) hrun
    exact fin _ hfit hcw hch hcpl hcal (by simp only [List.length_replicate]; exact wrapU_mul w ht)
  · obtain ⟨hfit, hcw, hch, hcpl, hcal, -⟩ := fill_loops_ok _ _ _ c w ht rfl
      (by simp only [List.length_replicate]; exact wrapU_mul3 w ht)
      (fun y x s s' _ _ hsw _ hs => by
        have := pngGrayPixel_store info.rows y x s s' hs
        rw [hsw] at this
        exact this) hrun
    exact fin _ hfit hcw hch hcpl hcal (by simp only [List.length_replicate]; exact wrapU_mul w ht)

/-- What a successful run of `readFromPng` on an RGBA image has stored. -/
theorem readFromPng_rgba_ok (libpng : List Byte → Option PngInfo) (content : List Byte)
    (info : PngInfo) (c : Bitmap)
    (hlib : libpng content = some info)
    (hct : info.colorType = PNG_COLOR_TYPE_RGBA)
    (hwl : info.width ≤ PNG_USER_WIDTH_MAX)
    (h : readFromPng libpng (some content) = .ok c) :
    c.width = info.width ∧ c.height = info.height ∧
    ∀ x y, x < info.width → y < info.height →
      ∃ (row : List Byte) (al : Byte), info.rows[y]? = some row ∧
        x * 4 + 4 ≤ row.length ∧ row[x * 4 + 3]? = some al ∧
        c.alpha[y * info.width + x]? = some (al != 0) ∧
        ∀ k, k < 3 → c.pixels[(y * info.width + x) * 3 + k]? = row[x * 4 + k]? := by
  obtain ⟨content', info', hc, -, hlib', hw0, hh0, hsw⟩ := readFromPng_ok libpng _ c h
  cases hc
  rw [hlib] at hlib'
  cases hlib'
  unfold PNG_USER_WIDTH_MAX at hwl
  have hrun := pngSwitch_ok info _ c hsw
  rw [hct] at hrun
  simp only [PNG_COLOR_TYPE_RGBA, PNG_COLOR_TYPE_PALETTE, PNG_COLOR_TYPE_RGB,
    PNG_COLOR_TYPE_GRAY, Nat.reduceEqDiff, OfNat.ofNat_ne_zero, false_and, true_and,
    false_or, or_false] at hrun
  obtain ⟨hfit, hcw, hch, hcpl, hcal, hpix⟩ := fill_loops_ok _ _ _ c info.width info.height rfl
    (by simp only [List.length_replicate]; exact wrapU_mul3 _ _)
    (fun y x s s' _ _ hsw _ hs => by
      have := pngRgbaPixel_store info.rows y x s s' hs
      rw [hsw] at this
      exact this) hrun
  refine ⟨hcw, hch, fun x y hx hy => ?_⟩
  obtain ⟨a, rgb, ⟨row, al, hrow, hal, hrl, rfl, rfl⟩, hp, ha, -⟩ := hpix x y hx hy
  have hx4 : (x * 4) % 4294967296 = x * 4 := Nat.mod_eq_of_lt (by omega)
  rw [hx4] at hal hrl hp
  have hlen : x * 4 + 3 < row.length := by
    by_contra hge
    rw [List.getElem?_eq_none (by omega)] at hal
    cases hal
  refine ⟨row, al, hrow, by omega, hal, ha _ rfl, fun k hk => ?_⟩
  rw [hp k hk, range_getElem? _ _ _ _ hk]

/-! ## `writeToPng` and preservation of lengths -/

/-- One iteration of `blit` changes neither `width`, `height` nor the length of a
buffer. -/
theorem blitPixel_lengths (o : Bitmap) (mX mY oX oY : Int) (y x : Nat) (s s' : Bitmap)
    (h : blitPixel o mX mY oX oY y x s = .ok s') :
    s'.width = s.width ∧ s'.height = s.height ∧
    s'.pixels.length = s.pixels.length ∧ s'.alpha.length = s.alpha.length := by
  simp only [blitPixel, bind_ok_iff, checkInt_ok_iff, vecGetI_ok_iff] at h
  obtain ⟨oRow, -, mRow, -, a, -, hrest⟩ := h
  cases a with
  | false =>
    simp only [Bool.false_eq_true, if_false, pure_ok_iff] at hrest
    subst hrest
    exact ⟨rfl, rfl, rfl, rfl⟩
  | true =>
    simp only [if_true, bind_ok_iff, vecSetI_ok_iff, checkInt_ok_iff, vecRangeI_ok_iff,
      copyTo_ok_iff, pure_ok_iff] at hrest
    obtain ⟨al, ⟨-, -, rfl⟩, first, -, col, ⟨-, hcl, rfl⟩, px, ⟨hpl, rfl⟩, rfl⟩ := hrest
    refine ⟨rfl, rfl, ?_, ?_⟩
    · exact overwrite_length _ _ _ hpl
    · exact List.length_set _ _ _

/-- A `blit` call that ends with a result changes neither `width`, `height` nor
the length of a buffer, whatever its arguments. -/
theorem blit_lengths (d o : Bitmap) (mX mY oX oY oW oH : Int) (d' : Bitmap)
    (h : blit d mX mY o oX oY oW oH = .ok d') :
    d'.width = d.width ∧ d'.height = d.height ∧
    d'.pixels.length = d.pixels.length ∧ d'.alpha.length = d.alpha.length := by
  unfold blit at h
  have := nested_ok_inv (fun _ s => s.width = d.width ∧ s.height = d.height ∧
      s.pixels.length = d.pixels.length ∧ s.alpha.length = d.alpha.length)
    (fun y x t => blitPixel o mX mY oX oY y x t) oH.toNat oW.toNat d d' h
    ⟨rfl, rfl, rfl, rfl⟩
    (by
      intro y x u v _ _ ⟨h1, h2, h3, h4⟩ hv
      obtain ⟨g1, g2, g3, g4⟩ := blitPixel_lengths o mX mY oX oY y x u v hv
      exact ⟨g1.trans h1, g2.trans h2, g3.trans h3, g4.trans h4⟩)
  exact this

/-- A row buffer of `(n * 4) mod 2^32` bytes that takes a 4-byte write at
`(i * 4) mod 2^32` for every `i < n` has `n * 4` bytes. -/
theorem no_wrap_of_writes4 (n : Nat)
    (h : ∀ i, i < n → (i * 4) % 4294967296 + 4 ≤ (n * 4) % 4294967296) :
    n * 4 < 4294967296 := by
  by_contra hc
  have hlt : (n * 4) % 4294967296 < 4294967296 := Nat.mod_lt _ (by norm_num)
  have hle : (n * 4) % 4294967296 / 4 * 4 ≤ (n * 4) % 4294967296 := Nat.div_mul_le_self _ 4
  have hmod : ((n * 4) % 4294967296 / 4 * 4) % 4294967296
      = (n * 4) % 4294967296 / 4 * 4 := Nat.mod_eq_of_lt (by omega)
  have := h ((n * 4) % 4294967296 / 4) (by omega)
  rw [hmod] at this
  omega

/-- What one iteration of the inner loop of `writeToPng` does to the row buffer
when it ends with a result. -/
theorem writeRowPixel_ok (self : Bitmap) (y x : Nat) (row row' : List Byte)
    (h : writeRowPixel self y x row = .ok row') :
    ∃ a : Bool,
      ((y * self.width + x) * 3) % 4294967296 < 2147483648 ∧
      ((y * self.width + x) * 3) % 4294967296 + 3 ≤ self.pixels.length ∧
      (x * 4) % 4294967296 + 4 ≤ row.length ∧
      self.alpha[(y * self.width + x) % 4294967296]? = some a ∧
      row'.length = row.length ∧
      ∀ j, row'[j]? =
        if j = (x * 4) % 4294967296 + 3 then some (if a then 255 else 0)
        else if (x * 4) % 4294967296 ≤ j ∧ j < (x * 4) % 4294967296 + 3 then
          self.pixels[((y * self.width + x) * 3) % 4294967296 + (j - (x * 4) % 4294967296)]?
        else row[j]? := by
  have e2 : ((y : Int) * self.width + x) = ((y * self.width + x : Nat) : Int) := by
    push_cast; ring
  have e3 := wrapU_natCast_mul (y * self.width + x) 3
  have e4 := wrapU_natCast_mul x 4
  have e5 : ((x : Int) * 4 + 3) = ((x * 4 + 3 : Nat) : Int) := by push_cast; ring
  simp only [Nat.cast_ofNat] at e3 e4
  simp only [writeRowPixel, bind_ok_iff, vecRangeI_ok_iff, copyTo_ok_iff, vecGet_ok_iff,
    vecSet_ok_iff, e2, e3, e4, e5, wrapU_natCast] at h
  obtain ⟨col, ⟨hnn, hcl, rfl⟩, r1, ⟨hr1, rfl⟩, a, ha, hset, rfl⟩ := h
  obtain ⟨hlt, heq⟩ := toInt_nonneg_eq _ hnn (Nat.mod_lt _ (by norm_num))
  rw [heq, Int.toNat_natCast] at hcl hr1 hset ⊢
  have hl3 := range_length self.pixels (((y * self.width + x) * 3) % 4294967296) 3 hcl
  rw [hl3] at hr1 hset ⊢
  have hlen := overwrite_length row
    ((self.pixels.drop (((y * self.width + x) * 3) % 4294967296)).take 3)
    ((x * 4) % 4294967296) (by rw [hl3]; exact hr1)
  rw [hl3] at hlen
  rw [hlen] at hset
  have hq : (x * 4 + 3) % 4294967296 = (x * 4) % 4294967296 + 3 := by omega
  rw [hq] at hset ⊢
  refine ⟨a, hlt, hcl, by omega, ha, by rw [List.length_set, hlen], fun j => ?_⟩
  rw [List.getElem?_set]
  by_cases hj : j = (x * 4) % 4294967296 + 3
  · subst hj
    rw [if_pos rfl, if_pos (by rw [hlen]; omega), if_pos rfl]
  · rw [if_neg (Ne.symm hj), if_neg hj]
    have := overwrite_getElem? row
      ((self.pixels.drop (((y * self.width + x) * 3) % 4294967296)).take 3)
      ((x * 4) % 4294967296) j (by rw [hl3]; exact hr1)
    rw [hl3] at this
    rw [this]
    by_cases hin : (x * 4) % 4294967296 ≤ j ∧ j < (x * 4) % 4294967296 + 3
    · rw [if_pos hin, if_pos hin, range_getElem? _ _ _ _ (by omega)]
    · rw [if_neg hin, if_neg hin]

/-- The inner loop of `writeToPng`, when it ends with a result, has laid out
line `y` in the row buffer; in particular `width * 4` did not wrap around. -/
theorem writeRow_ok (self : Bitmap) (y : Nat) (r0 r : List Byte)
    (hr0 : r0.length = (self.width * 4) % 4294967296)
    (h : forUpTo self.width (fun x t => writeRowPixel self y x t) r0 = .ok r) :
    RowHolds self y r := by
  have hinv := forUpTo_ok_inv
    (fun x (t : List Byte) => t.length = r0.length ∧
      (∀ x', x' < x → (x' * 4) % 4294967296 + 4 ≤ r0.length) ∧
      (self.width * 4 < 4294967296 → ∀ x', x' < x → ∃ a : Bool,
        self.alpha[(y * self.width + x') % 4294967296]? = some a ∧
        ((y * self.width + x') * 3) % 4294967296 < 2147483648 ∧
        ((y * self.width + x') * 3) % 4294967296 + 3 ≤ self.pixels.length ∧
        t[x' * 4 + 3]? = some (if a then 255 else 0) ∧
        ∀ k, k < 3 →
          t[x' * 4 + k]? = self.pixels[((y * self.width + x') * 3) % 4294967296 + k]?))
    (fun x t => writeRowPixel self y x t) self.width r0 r h
    ⟨rfl, fun _ hx => absurd hx (Nat.not_lt_zero _), fun _ _ hx => absurd hx (Nat.not_lt_zero _)⟩
    (by
      intro x u v hx ⟨hul, hB, hC⟩ hv
      obtain ⟨a, hlt, hpl, hrl, ha, hvl, hget⟩ := writeRowPixel_ok self y x u v hv
      refine ⟨hvl.trans hul, ?_, ?_⟩
      · intro x' hx'
        rcases Nat.lt_succ_iff_lt_or_eq.mp hx' with h1 | rfl
        · exact hB x' h1
        · rw [← hul]; exact hrl
      · intro hfit x' hx'
        have hm : (x * 4) % 4294967296 = x * 4 := Nat.mod_eq_of_lt (by omega)
        rw [hm] at hget
        rcases Nat.lt_succ_iff_lt_or_eq.mp hx' with h1 | rfl
        · obtain ⟨a', ha', hlt', hpl', h3', hk'⟩ := hC hfit x' h1
          refine ⟨a', ha', hlt', hpl', ?_, fun k hk => ?_⟩
          · rw [hget, if_neg (by omega), if_neg (by omega)]; exact h3'
          · rw [hget, if_neg (by omega), if_neg (by omega)]; exact hk' k hk
        · refine ⟨a, ha, hlt, hpl, ?_, fun k hk => ?_⟩
          · rw [hget, if_pos rfl]
          · rw [hget, if_neg (by omega), if_pos (by omega), Nat.add_sub_cancel_left])
  obtain ⟨hrl, hB, hC⟩ := hinv
  have hfit : self.width * 4 < 4294967296 :=
    no_wrap_of_writes4 self.width (fun i hi => by
      have := hB i hi
      rw [hr0] at this
      exact this)
  exact ⟨by rw [hrl, hr0, Nat.mod_eq_of_lt hfit], hfit, fun x hx => hC hfit x hx⟩

/-- The rows that `writeToPng` hands to the PNG library: one per line, each
laid out as `RowHolds` says. -/
theorem pngWriteRow_ok_iff (env : PngWriter) (y : Nat) (row : List Byte)
    (rows r : List (List Byte)) :
    pngWriteRow env y row rows = .ok r ↔ env.writes (y + 1) = true ∧ r = rows ++ [row] := by
  unfold pngWriteRow
  split
  · rename_i h
    simp only [pure_ok_iff, h, true_and]
    exact eq_comm
  · rename_i h
    simp [throw_ne_ok, h]

theorem writeToPng_rows (self : Bitmap) (env : PngWriter) (rows : List (List Byte))
    (h : writeToPng self env = .ok rows) :
    rows.length = self.height ∧
    ∀ y, y < self.height → ∃ row, rows[y]? = some row ∧ RowHolds self y row := by
  simp only [writeToPng, ite_throw_ok_iff, bind_ok_iff, pure_ok_iff] at h
  obtain ⟨-, -, -, -, st, hst, -, rfl⟩ := h
  unfold writeRows at hst
  have hinv := forUpTo_ok_inv
    (fun y (t : List Byte × List (List Byte)) =>
      t.1.length = (self.width * 4) % 4294967296 ∧ t.2.length = y ∧
      ∀ y', y' < y → ∃ row, t.2[y']? = some row ∧ RowHolds self y' row)
    _ self.height _ st hst
    ⟨by simp only [List.length_replicate]; exact wrapU_natCast_mul self.width 4, rfl,
      fun _ hy => absurd hy (Nat.not_lt_zero _)⟩
    (by
      intro y u v _ ⟨hul, hol, hC⟩ hv
      simp only [bind_ok_iff, pure_ok_iff, pngWriteRow_ok_iff] at hv
      obtain ⟨row, hrow, _, ⟨-, rfl⟩, rfl⟩ := hv
      have hrh := writeRow_ok self y _ row (by simp only [List.length_replicate]; exact hul) hrow
      refine ⟨?_, by simp only [List.length_append, hol, List.length_singleton], ?_⟩
      · show row.length = _
        rw [hrh.1, Nat.mod_eq_of_lt hrh.2.1]
      · intro y' hy'
        rcases Nat.lt_succ_iff_lt_or_eq.mp hy' with h1 | rfl
        · obtain ⟨r', hr', hh'⟩ := hC y' h1
          refine ⟨r', ?_, hh'⟩
          show (u.2 ++ [row])[y']? = _
          rw [List.getElem?_append_left (by omega)]; exact hr'
        · refine ⟨row, ?_, hrh⟩
          show (u.2 ++ [row])[y']? = _
          rw [List.getElem?_append_right (by omega), hol, Nat.sub_self]
          rfl)
  exact ⟨hinv.2.1, hinv.2.2⟩

/-- One iteration of the RGBA loop of `readFromPng` ends with a result when its
reads and writes are in bounds. -/
theorem pngRgbaPixel_total (rows : List (List Byte)) (y x : Nat) (s : Bitmap) (row : List Byte)
    (hrow : rows[y]? = some row) (hrl : (x * 4) % 4294967296 + 4 ≤ row.length)
    (hal : (y * s.width + x) % 4294967296 < s.alpha.length)
    (hpl : ((y * s.width + x) * 3) % 4294967296 + 3 ≤ s.pixels.length) :
    ∃ s', pngRgbaPixel rows y x s = .ok s' := by
  have e2 : ((y : Int) * s.width + x) = ((y * s.width + x : Nat) : Int) := by
    push_cast; ring
  have e3 := wrapU_natCast_mul (y * s.width + x) 3
  have e4 := wrapU_natCast_mul x 4
  simp only [Nat.cast_ofNat] at e3 e4
  obtain ⟨al, hal'⟩ : ∃ al, row[(x * 4) % 4294967296 + 3]? = some al :=
    ⟨_, List.getElem?_eq_getElem (by omega)⟩
  have g1 : vecGet rows y = .ok row := (vecGet_ok_iff _ _ _).mpr hrow
  have g2 : vecGet row ((x * 4) % 4294967296 + 3) = .ok al := (vecGet_ok_iff _ _ _).mpr hal'
  have g3 : vecSet s.alpha ((y * s.width + x) % 4294967296) (al != 0)
      = .ok (s.alpha.set ((y * s.width + x) % 4294967296) (al != 0)) :=
    (vecSet_ok_iff _ _ _ _).mpr ⟨hal, rfl⟩
  have g4 : vecRange row ((x * 4) % 4294967296) 3
      = .ok ((row.drop ((x * 4) % 4294967296)).take 3) :=
    (vecRange_ok_iff _ _ _ _).mpr ⟨by omega, rfl⟩
  have hl3 := range_length row ((x * 4) % 4294967296) 3 (by omega)
  have g5 : copyTo s.pixels (((y * s.width + x) * 3) % 4294967296)
      ((row.drop ((x * 4) % 4294967296)).take 3) = .ok
        (s.pixels.take (((y * s.width + x) * 3) % 4294967296) ++
          (row.drop ((x * 4) % 4294967296)).take 3 ++
          s.pixels.drop (((y * s.width + x) * 3) % 4294967296 +
            ((row.drop ((x * 4) % 4294967296)).take 3).length)) :=
    (copyTo_ok_iff _ _ _ _).mpr ⟨by rw [hl3]; exact hpl, rfl⟩
  simp only [pngRgbaPixel, e2, wrapU_natCast, e3, e4, g1, g2, g3, g4, g5, ok_bind]
  exact ⟨_, rfl⟩

/-- Two canvases with the same dimensions, buffer lengths and pixels are equal. -/
theorem bitmap_eq_of_pixels (a b : Bitmap) (hw : a.width = b.width) (hh : a.height = b.height)
    (hal : a.lengthsOk) (hbl : b.lengthsOk)
    (hpix : ∀ x y, x < b.width → y < b.height →
      a.alpha[y * b.width + x]? = b.alpha[y * b.width + x]? ∧
      ∀ k, k < 3 → a.pixels[(y * b.width + x) * 3 + k]? = b.pixels[(y * b.width + x) * 3 + k]?) :
    a = b := by
  obtain ⟨hap, haa⟩ := hal
  obtain ⟨hbp, hba⟩ := hbl
  rw [hw, hh] at hap haa
  have split : ∀ i, i < b.width * b.height →
      i / b.width * b.width + i % b.width = i ∧ i % b.width < b.width ∧
        i / b.width < b.height := by
    intro i hi
    have hwpos : 0 < b.width := by
      rcases Nat.eq_zero_or_pos b.width with h0 | h0
      · rw [h0] at hi; omega
      · exact h0
    refine ⟨?_, Nat.mod_lt _ hwpos, ?_⟩
    · rw [Nat.mul_comm]; exact Nat.div_add_mod i b.width
    · exact Nat.div_lt_of_lt_mul hi
  have hA : a.alpha = b.alpha := by
    apply List.ext_getElem?
    intro i
    by_cases hi : i < b.width * b.height
    · obtain ⟨e, hx, hy⟩ := split i hi
      have := (hpix _ _ hx hy).1
      rw [e] at this
      exact this
    · rw [List.getElem?_eq_none (by omega), List.getElem?_eq_none (by omega)]
  have hP : a.pixels = b.pixels := by
    apply List.ext_getElem?
    intro j
    by_cases hj : j < b.width * b.height * 3
    · obtain ⟨e, hx, hy⟩ := split (j / 3) (by omega)
      have := (hpix _ _ hx hy).2 (j % 3) (Nat.mod_lt _ (by norm_num))
      rw [e] at this
      have ej : j / 3 * 3 + j % 3 = j := by omega
      rw [ej] at this
      exact this
    · rw [List.getElem?_eq_none (by omega), List.getElem?_eq_none (by omega)]
  cases a
  cases b
  simp only [Bitmap.mk.injEq]
  exact ⟨hw, hh, hP, hA⟩

/-- The RGBA loop of `readFromPng`, run on the rows that `writeToPng` produced
from a canvas, rebuilds that canvas. -/
theorem rgba_of_written_rows (b : Bitmap) (rows : List (List Byte))
    (hl : b.lengthsOk) (hf : b.fits)
    (hrows : ∀ y, y < b.height → ∃ row, rows[y]? = some row ∧ RowHolds b y row) :
    forUpTo b.height (fun y s => forUpTo b.width (fun x t => pngRgbaPixel rows y x t) s)
      { width := b.width
        height := b.height
        pixels := List.replicate (wrapU (b.width * b.height * 3)) 0
        alpha := List.replicate (wrapU (b.width * b.height)) false } = .ok b := by
  obtain ⟨hbp, hba⟩ := hl
  obtain ⟨_, _, hbpl, hbal⟩ := hf
  have hfit : b.width * b.height * 3 < 4294967296 := by omega
  have e3 : wrapU ((b.width : Int) * (b.height : Int) * 3) = b.width * b.height * 3 := by
    rw [wrapU_mul3, Nat.mod_eq_of_lt hfit]
  have e1 : wrapU ((b.width : Int) * (b.height : Int)) = b.width * b.height := by
    rw [wrapU_mul, Nat.mod_eq_of_lt (by omega)]
  rw [e3, e1]
  obtain ⟨c, hc, -⟩ := nested_total
    (fun _ (s : Bitmap) => s.width = b.width ∧ s.pixels.length = b.width * b.height * 3 ∧
      s.alpha.length = b.width * b.height)
    (fun y x t => pngRgbaPixel rows y x t) b.height b.width
    { width := b.width
      height := b.height
      pixels := List.replicate (b.width * b.height * 3) 0
      alpha := List.replicate (b.width * b.height) false }
    ⟨rfl, by simp, by simp⟩
    (by
      intro y x u hy hx ⟨huw, hupl, hual⟩
      obtain ⟨row, hrow, hrl, hw4, hrx⟩ := hrows y hy
      have hi := index_lt x y b.width b.height hx hy
      have hx4 : x * 4 + 4 ≤ b.width * 4 := by omega
      obtain ⟨v, hv⟩ := pngRgbaPixel_total rows y x u row hrow
        (by rw [Nat.mod_eq_of_lt (by omega)]; omega)
        (by rw [huw, Nat.mod_eq_of_lt (by omega)]; omega)
        (by rw [huw, Nat.mod_eq_of_lt (by omega)]; omega)
      obtain ⟨_, _, ⟨_, _, -, -, -, rfl, rfl⟩, h3, -, -, hvw, -, hvp, hva⟩ :=
        pngRgbaPixel_store rows y x u v hv
      refine ⟨v, hv, hvw.trans huw, ?_, ?_⟩
      · rw [hvp]
        have := overwrite_length u.pixels _ ((y * u.width + x) * 3 % 4294967296)
          (by rw [h3, huw, Nat.mod_eq_of_lt (by omega)]; omega)
        rw [h3] at this
        rw [this, hupl]
      · rw [hva]
        show (List.set _ _ _).length = _
        rw [List.length_set]
        exact hual)
  rw [hc]
  congr 1
  obtain ⟨-, hcw, hch, hcpl, hcal, hpix⟩ := fill_loops_ok _ _
    { width := b.width
      height := b.height
      pixels := List.replicate (b.width * b.height * 3) 0
      alpha := List.replicate (b.width * b.height) false } c b.width b.height rfl
    (by show (List.replicate _ _).length = _; rw [List.length_replicate, Nat.mod_eq_of_lt hfit])
    (fun y x s s' _ _ hsw _ hs => by
      have := pngRgbaPixel_store rows y x s s' hs
      rw [hsw] at this
      exact this) hc
  replace hcal : c.alpha.length = b.width * b.height := by
    rw [hcal]; exact List.length_replicate _ _
  apply bitmap_eq_of_pixels c b hcw hch ⟨by rw [hcw, hch]; exact hcpl, by rw [hcw, hch]; exact hcal⟩
    ⟨hbp, hba⟩
  intro x y hx hy
  obtain ⟨a, rgb, ⟨row, al, hrow, hal, hrl, rfl, rfl⟩, hp, ha, -⟩ := hpix x y hx hy
  obtain ⟨row', hrow', hrl', hw4, hrx⟩ := hrows y hy
  rw [hrow] at hrow'
  cases hrow'
  obtain ⟨fl, hfl, -, -, h3, hk⟩ := hrx x hx
  have hi := index_lt x y b.width b.height hx hy
  have hx4 : (x * 4) % 4294967296 = x * 4 := Nat.mod_eq_of_lt (by omega)
  rw [hx4] at hal hp
  rw [Nat.mod_eq_of_lt (by omega)] at hfl hk
  rw [h3] at hal
  cases hal
  refine ⟨?_, fun k hk' => ?_⟩
  · rw [ha _ rfl, hfl]
    cases fl <;> rfl
  · rw [hp k hk', range_getElem? _ _ _ _ hk', hk k hk']

/-! ## Runs that end with a result -/

/-- The RGBA loop of `readFromPng` ends with a result on rows that libpng hands
back when the canvas has `width * height * 3 < 2^32` bytes. -/
theorem rgba_loops_total (info : PngInfo) (hct : info.colorType = PNG_COLOR_TYPE_RGBA)
    (hwf : info.fromLibpng) (hfit : info.width * info.height * 3 < 4294967296) :
    ∃ c, forUpTo info.height (fun y s => forUpTo info.width
        (fun x t => pngRgbaPixel info.rows y x t) s)
      { width := info.width
        height := info.height
        pixels := List.replicate (wrapU (info.width * info.height * 3)) 0
        alpha := List.replicate (wrapU (info.width * info.height)) false } = .ok c := by
  obtain ⟨⟨hrl, hrows⟩, hwl, -⟩ := hwf
  unfold PNG_USER_WIDTH_MAX at hwl
  have hch : channels info.colorType = 4 := by rw [hct]; rfl
  have e3 : wrapU ((info.width : Int) * (info.height : Int) * 3)
      = info.width * info.height * 3 := by
    rw [wrapU_mul3, Nat.mod_eq_of_lt hfit]
  have e1 : wrapU ((info.width : Int) * (info.height : Int)) = info.width * info.height := by
    rw [wrapU_mul, Nat.mod_eq_of_lt (by omega)]
  rw [e3, e1]
  obtain ⟨c, hc, -⟩ := nested_total
    (fun _ (s : Bitmap) => s.width = info.width ∧
      s.pixels.length = info.width * info.height * 3 ∧
      s.alpha.length = info.width * info.height)
    (fun y x t => pngRgbaPixel info.rows y x t) info.height info.width
    { width := info.width
      height := info.height
      pixels := List.replicate (info.width * info.height * 3) 0
      alpha := List.replicate (info.width * info.height) false }
    ⟨rfl, by simp, by simp⟩
    (by
      intro y x u hy hx ⟨huw, hupl, hual⟩
      have hyl : y < info.rows.length := by rw [hrl]; exact hy
      have hrow : info.rows[y]? = some info.rows[y] := List.getElem?_eq_getElem hyl
      have hlen : info.rows[y].length = info.width * 4 := by
        rw [hrows _ (List.getElem_mem hyl), hch]
      have hi := index_lt x y info.width info.height hx hy
      obtain ⟨v, hv⟩ := pngRgbaPixel_total info.rows y x u _ hrow
        (by rw [Nat.mod_eq_of_lt (by omega), hlen]; omega)
        (by rw [huw, Nat.mod_eq_of_lt (by omega)]; omega)
        (by rw [huw, Nat.mod_eq_of_lt (by omega)]; omega)
      obtain ⟨_, _, ⟨_, _, -, -, -, rfl, rfl⟩, h3, -, -, hvw, -, hvp, hva⟩ :=
        pngRgbaPixel_store info.rows y x u v hv
      refine ⟨v, hv, hvw.trans huw, ?_, ?_⟩
      · rw [hvp]
        have := overwrite_length u.pixels _ ((y * u.width + x) * 3 % 4294967296)
          (by rw [h3, huw, Nat.mod_eq_of_lt (by omega)]; omega)
        rw [h3] at this
        rw [this, hupl]
      · rw [hva]
        show (List.set _ _ _).length = _
        rw [List.length_set]
        exact hual)
  exact ⟨c, hc⟩

/-- A run of `readFromPng` ends with a canvas when the file carries the PNG
signature, libpng hands back an RGBA image with non-zero dimensions, and the
canvas has `width * height * 3 < 2^32` bytes. -/
theorem readFromPng_rgba_total (libpng : List Byte → Option PngInfo) (content : List Byte)
    (info : PngInfo) (hlib : libpng content = some info)
    (hct : info.colorType = PNG_COLOR_TYPE_RGBA) (hwf : info.fromLibpng)
    (hsig : content.take 8 = pngSignature)
    (hw : info.width ≠ 0) (hh : info.height ≠ 0)
    (hfit : info.width * info.height * 3 < 4294967296) :
    ∃ c, readFromPng libpng (some content) = .ok c := by
  obtain ⟨c, hc⟩ := rgba_loops_total info hct hwf hfit
  have hlen : ¬ content.length < 8 := by
    intro hlt
    have : (content.take 8).length = 8 := by rw [hsig]; rfl
    rw [List.length_take] at this
    omega
  have hz : ¬ (info.width = 0 ∨ info.height = 0) := by
    intro h; rcases h with h | h
    · exact hw h
    · exact hh h
  refine ⟨c, ?_⟩
  unfold readFromPng
  simp only [hlen, if_false, hsig, ne_eq, not_true_eq_false, hlib, hz, pngSwitch, hct,
    PNG_COLOR_TYPE_RGBA, PNG_COLOR_TYPE_PALETTE, PNG_COLOR_TYPE_RGB, Nat.reduceEqDiff, if_true]
  rw [hc]
  rfl

/-- One iteration of the inner loop of `writeToPng` ends with a result when the
canvas satisfies the buffer-length invariant and every pixel offset is within
the `int` range. -/
theorem writeRowPixel_total (self : Bitmap) (y x : Nat) (row : List Byte)
    (hl : self.lengthsOk) (hsmall : self.pixels.length ≤ 2147483650)
    (hx : x < self.width) (hy : y < self.height)
    (hrow : row.length = self.width * 4) (hw4 : self.width * 4 < 4294967296) :
    ∃ row', writeRowPixel self y x row = .ok row' := by
  obtain ⟨hp, ha⟩ := hl
  have hi := index_lt x y self.width self.height hx hy
  have e2 : ((y : Int) * self.width + x) = ((y * self.width + x : Nat) : Int) := by
    push_cast; ring
  have e3 := wrapU_natCast_mul (y * self.width + x) 3
  have e4 := wrapU_natCast_mul x 4
  have e5 : ((x : Int) * 4 + 3) = ((x * 4 + 3 : Nat) : Int) := by push_cast; ring
  simp only [Nat.cast_ofNat] at e3 e4
  have m3 : (y * self.width + x) * 3 % 4294967296 = (y * self.width + x) * 3 :=
    Nat.mod_eq_of_lt (by omega)
  have m1 : (y * self.width + x) % 4294967296 = y * self.width + x :=
    Nat.mod_eq_of_lt (by omega)
  have m4 : x * 4 % 4294967296 = x * 4 := Nat.mod_eq_of_lt (by omega)
  have m5 : (x * 4 + 3) % 4294967296 = x * 4 + 3 := Nat.mod_eq_of_lt (by omega)
  have t1 : toInt ((y * self.width + x) * 3) = (((y * self.width + x) * 3 : Nat) : Int) :=
    toInt_of_lt _ (by omega)
  obtain ⟨a, ha'⟩ : ∃ a, self.alpha[y * self.width + x]? = some a :=
    ⟨_, List.getElem?_eq_getElem (by omega)⟩
  have g1 : vecRangeI self.pixels (((y * self.width + x) * 3 : Nat) : Int) 3
      = .ok ((self.pixels.drop ((y * self.width + x) * 3)).take 3) := by
    rw [vecRangeI_ok_iff, Int.toNat_natCast]
    exact ⟨by omega, by omega, rfl⟩
  have hl3 := range_length self.pixels ((y * self.width + x) * 3) 3 (by omega)
  have g2 : copyTo row (x * 4) ((self.pixels.drop ((y * self.width + x) * 3)).take 3)
      = .ok (row.take (x * 4) ++ (self.pixels.drop ((y * self.width + x) * 3)).take 3 ++
          row.drop (x * 4 + ((self.pixels.drop ((y * self.width + x) * 3)).take 3).length)) :=
    (copyTo_ok_iff _ _ _ _).mpr ⟨by rw [hl3]; omega, rfl⟩
  have g3 : vecGet self.alpha (y * self.width + x) = .ok a := (vecGet_ok_iff _ _ _).mpr ha'
  simp only [writeRowPixel, e2, e3, e4, e5, wrapU_natCast, m3, m1, m4, m5, t1, g1, g2, g3,
    ok_bind]
  have hlen := overwrite_length row ((self.pixels.drop ((y * self.width + x) * 3)).take 3)
    (x * 4) (by rw [hl3]; omega)
  exact ⟨_, (vecSet_ok_iff _ _ _ _).mpr ⟨by rw [hlen]; omega, rfl⟩⟩

/-- The method `writeToPng` ends with its rows when nothing fails in the
environment, libpng accepts the dimensions, the canvas satisfies the
buffer-length invariant and the pixel buffer has at most `2^31 + 2` bytes. -/
theorem writeToPng_total (self : Bitmap) (env : PngWriter) (hl : self.lengthsOk)
    (henv : env.succeeds) (hdim : pngCheckIHDR self.width self.height = true)
    (hsmall : self.pixels.length ≤ 2147483650) :
    ∃ rows, writeToPng self env = .ok rows := by
  obtain ⟨hopen, hcreated, hwrites⟩ := henv
  have hw4 : self.width * 4 < 4294967296 := by
    unfold pngCheckIHDR PNG_USER_WIDTH_MAX at hdim
    simp only [decide_eq_true_eq] at hdim
    omega
  have row_total : ∀ y, y < self.height → ∀ r0 : List Byte, r0.length = self.width * 4 →
      ∃ r, forUpTo self.width (fun x t => writeRowPixel self y x t) r0 = .ok r ∧
        r.length = self.width * 4 := by
    intro y hy r0 hr0
    exact forUpTo_total (fun _ (t : List Byte) => t.length = self.width * 4)
      (fun x t => writeRowPixel self y x t) self.width r0 hr0
      (by
        intro x u hx hu
        obtain ⟨v, hv⟩ := writeRowPixel_total self y x u hl hsmall hx hy hu hw4
        obtain ⟨_, _, _, _, _, hvl, _⟩ := writeRowPixel_ok self y x u v hv
        exact ⟨v, hv, hvl.trans hu⟩)
  obtain ⟨st, hst, -⟩ := forUpTo_total
    (fun _ (t : List Byte × List (List Byte)) => t.1.length = self.width * 4)
    (fun y (st : List Byte × List (List Byte)) => do
      let row := List.replicate st.1.length (0 : Byte)
      let row ← forUpTo self.width (fun x r => writeRowPixel self y x r) row
      let rows ← pngWriteRow env y row st.2
      pure (row, rows))
    self.height
    (List.replicate (wrapU (self.width * 4)) 0, [])
    (by
      show (List.replicate _ _).length = _
      rw [List.length_replicate]
      have := wrapU_natCast_mul self.width 4
      simp only [Nat.cast_ofNat] at this
      rw [this, Nat.mod_eq_of_lt hw4])
    (by
      intro y u hy hu
      obtain ⟨r, hr, hrl⟩ := row_total y hy (List.replicate u.1.length 0)
        (by rw [List.length_replicate]; exact hu)
      refine ⟨(r, u.2 ++ [r]), ?_, hrl⟩
      simp only [hr, ok_bind, pngWriteRow, hwrites, if_true]
      rfl)
  refine ⟨st.2, ?_⟩
  have hst' : writeRows self env = .ok st := hst
  simp only [writeToPng, hopen, hcreated, hdim, hwrites, Bool.not_true, Bool.false_eq_true,
    if_false, hst', ok_bind]
  rfl

/-- The method `readFromPng` returns the canvas its `switch` leaves when the file
carries the PNG signature, the dimensions are not zero and no error text was set. -/
theorem readFromPng_of_switch (libpng : List Byte → Option PngInfo) (content : List Byte)
    (info : PngInfo) (c : Bitmap) (hlib : libpng content = some info)
    (hsig : content.take 8 = pngSignature)
    (hw : info.width ≠ 0) (hh : info.height ≠ 0)
    (hsw : pngSwitch info ""
      { width := info.width
        height := info.height
        pixels := List.replicate (wrapU (info.width * info.height * 3)) 0
        alpha := List.replicate (wrapU (info.width * info.height)) false } = .ok ("", c)) :
    readFromPng libpng (some content) = .ok c := by
  have hlen : ¬ content.length < 8 := by
    intro hlt
    have : (content.take 8).length = 8 := by rw [hsig]; rfl
    rw [List.length_take] at this
    omega
  have hz : ¬ (info.width = 0 ∨ info.height = 0) := by
    intro h; rcases h with h | h
    · exact hw h
    · exact hh h
  unfold readFromPng
  simp only [hlen, if_false, hsig, ne_eq, not_true_eq_false, hlib, hz, hsw, ok_bind]
  rfl

/-! ## The constructor `Bitmap(w, h)` -/

/-- The fields of the canvas that `Bitmap(w, h)` builds. -/
theorem blank_sizes (w h : Nat) :
    (Bitmap.blank w h).width = w ∧ (Bitmap.blank w h).height = h ∧
    (Bitmap.blank w h).pixels = List.replicate ((w * h * 3) % 4294967296) 0 ∧
    (Bitmap.blank w h).alpha = List.replicate ((w * h) % 4294967296) false ∧
    (w * h * 3 < 4294967296 →
      (Bitmap.blank w h).pixels = List.replicate (w * h * 3) 0 ∧
      (Bitmap.blank w h).alpha = List.replicate (w * h) false) := by
  have e1 : wrapU ((w : Int) * (h : Int) * 3) = (w * h * 3) % 4294967296 := wrapU_mul3 w h
  have e2 : wrapU ((w : Int) * (h : Int)) = (w * h) % 4294967296 := wrapU_mul w h
  refine ⟨rfl, rfl, ?_, ?_, ?_⟩
  · show List.replicate _ _ = _
    rw [e1]
  · show List.replicate _ _ = _
    rw [e2]
  · intro hfit
    constructor
    · show List.replicate _ _ = _
      rw [e1, Nat.mod_eq_of_lt hfit]
    · show List.replicate _ _ = _
      rw [e2, Nat.mod_eq_of_lt (by omega)]

/-! ## The sizes every canvas of the program has -/

/-- Every way the program builds or changes a canvas yields one whose fields fit
their `unsigned int` types: the constructors, the three decoders, and `blit`. -/
theorem fits_reachable :
    Bitmap.empty.fits ∧
    (∀ w h, w < 4294967296 → h < 4294967296 → (Bitmap.blank w h).fits) ∧
    (∀ inflate file c, readFromXyz inflate file = .ok c → c.fits) ∧
    (∀ file c, readFromBmp file = .ok c → c.fits) ∧
    (∀ libpng file c, (∀ content info, libpng content = some info → info.fromLibpng) →
      readFromPng libpng file = .ok c → c.fits) ∧
    (∀ d mX mY o oX oY oW oH d', d.fits → blit d mX mY o oX oY oW oH = .ok d' → d'.fits) := by
  refine ⟨by decide, ?_, ?_, ?_, ?_, ?_⟩
  · intro w h hw hh
    obtain ⟨-, -, hp, ha, -⟩ := blank_sizes w h
    refine ⟨hw, hh, ?_, ?_⟩
    · rw [hp, List.length_replicate]; exact Nat.mod_lt _ (by norm_num)
    · rw [ha, List.length_replicate]; exact Nat.mod_lt _ (by norm_num)
  · intro inflate file c h
    obtain ⟨_, -, -, -, -, -, -, -, hf, -⟩ := readFromXyz_ok inflate file c h
    exact hf
  · intro file c h
    obtain ⟨_, _, -, -, -, -, -, -, -, -, -, -, -, -, hf, -⟩ := readFromBmp_ok file c h
    exact hf
  · intro libpng file c hlim h
    exact (readFromPng_lengths libpng file c h
      (fun content info hlib => (hlim content info hlib).2.1)).2
  · intro d mX mY o oX oY oW oH d' hd h
    obtain ⟨h1, h2, h3, h4⟩ := blit_lengths d o mX mY oX oY oW oH d' h
    unfold Bitmap.fits at hd ⊢
    rw [h1, h2, h3, h4]
    exact hd

/-! ## Observing pixels -/

theorem rgbAt_eq_some (b : Bitmap) (x y : Nat) (r g bl : Byte)
    (h0 : b.pixels[(y * b.width + x) * 3]? = some r)
    (h1 : b.pixels[(y * b.width + x) * 3 + 1]? = some g)
    (h2 : b.pixels[(y * b.width + x) * 3 + 2]? = some bl) :
    b.rgbAt x y = some (r, g, bl) := by
  unfold Bitmap.rgbAt
  rw [h0, h1, h2]

/-- A run of `readFromPng` on a grayscale+alpha image never ends with a canvas. -/
theorem readFromPng_grayAlpha_fails (libpng : List Byte → Option PngInfo)
    (content : List Byte) (info : PngInfo) (hlib : libpng content = some info)
    (hct : info.colorType = PNG_COLOR_TYPE_GRAY_ALPHA) (c : Bitmap) :
    readFromPng libpng (some content) ≠ .ok c := by
  intro h
  obtain ⟨content', info', hc, -, hlib', -, -, hsw⟩ := readFromPng_ok libpng _ c h
  cases hc
  rw [hlib] at hlib'
  cases hlib'
  have hrun := pngSwitch_ok info _ c hsw
  rw [hct] at hrun
  simp only [PNG_COLOR_TYPE_RGBA, PNG_COLOR_TYPE_PALETTE, PNG_COLOR_TYPE_RGB,
    PNG_COLOR_TYPE_GRAY, PNG_COLOR_TYPE_GRAY_ALPHA, Nat.reduceEqDiff, OfNat.ofNat_ne_zero,
    false_and, or_self] at hrun

/-! ## Header checks of `readFromXyz` -/

theorem readAt_eq_ok (file : List Byte) (pos n : Nat) (h : pos + n ≤ file.length) :
    readAt file pos n = .ok ((file.drop pos).take n) := by
  unfold readAt
  rw [if_pos h]

/-- The first check of `readFromXyz`: four bytes other than `XYZ1` are rejected. -/
theorem readFromXyz_bad_magic (inflate : List Byte → Option (List Byte)) (file : List Byte)
    (hlen : 4 ≤ file.length) (hmagic : file.take 4 ≠ xyzMagicNumber) :
    readFromXyz inflate file = .error (.thrown "not a valid XYZ file") := by
  have h0 : readAt file 0 4 = .ok (file.take 4) := by
    rw [readAt_eq_ok file 0 4 (by omega), List.drop_zero]
  simp only [readFromXyz, h0, ok_bind, ne_eq, hmagic, not_false_eq_true, if_true]
  rfl

/-- What `readFromXyz` does once the magic number matched and the file has the
eight bytes of the header. -/
theorem readFromXyz_after_header (inflate : List Byte → Option (List Byte)) (file : List Byte)
    (hlen : 8 ≤ file.length) (hmagic : file.take 4 = xyzMagicNumber) :
    readFromXyz inflate file =
      if file.length - 8 = 0 then .error (.thrown "not a valid XYZ file")
      else
        match uncompress inflate
          (List.replicate (256 * 3 + leValue ((file.drop 4).take 2) *
            leValue ((file.drop 6).take 2)) 0) (file.drop 8) with
        | none => .error (.thrown "zlib error")
        | some (data, size) =>
          if size ≠ data.length then .error (.thrown "uncompressed image data too small")
          else
            forUpTo (leValue ((file.drop 6).take 2)) (fun y s =>
              forUpTo (leValue ((file.drop 4).take 2)) (fun x t => xyzPixel data y x t) s)
              { width := leValue ((file.drop 4).take 2)
                height := leValue ((file.drop 6).take 2)
                pixels := List.replicate (wrapU (leValue ((file.drop 4).take 2) *
                  leValue ((file.drop 6).take 2) * 3)) 0
                alpha := List.replicate (wrapU (leValue ((file.drop 4).take 2) *
                  leValue ((file.drop 6).take 2))) false } := by
  have h0 : readAt file 0 4 = .ok (file.take 4) := by
    rw [readAt_eq_ok file 0 4 (by omega), List.drop_zero]
  have h4 := readAt_eq_ok file 4 2 (by omega)
  have h6 := readAt_eq_ok file 6 2 (by omega)
  have h8 := readAt_eq_ok file 8 (file.length - 8) (by omega)
  have htake : (file.drop 8).take (file.length - 8) = file.drop 8 :=
    List.take_of_length_le (by simp)
  rw [htake] at h8
  have hwlt := leValue_two_lt ((file.drop 4).take 2) (range_length _ _ _ (by omega))
  have hhlt := leValue_two_lt ((file.drop 6).take 2) (range_length _ _ _ (by omega))
  simp only [readFromXyz, h0, ok_bind, ne_eq, hmagic, not_true_eq_false, if_false, h4, h6, h8]
  generalize leValue ((file.drop 4).take 2) = w at *
  generalize leValue ((file.drop 6).take 2) = ht at *
  have hwh : w * ht ≤ 65535 * 65535 := Nat.mul_le_mul (by omega) (by omega)
  have e0 : wrapU (256 * 3 + (w : Int) * (ht : Int)) = 256 * 3 + w * ht := by
    have : (256 * 3 + (w : Int) * (ht : Int)) = ((256 * 3 + w * ht : Nat) : Int) := by
      push_cast; ring
    rw [this, wrapU_of_lt _ (by omega)]
  rw [e0]
  by_cases hz : file.length - 8 = 0
  · simp only [hz, if_true]
    rfl
  · simp only [hz, if_false, ok_bind]
    cases uncompress inflate (List.replicate (256 * 3 + w * ht) 0) (file.drop 8) with
    | none => rfl
    | some r =>
      obtain ⟨data, size⟩ := r
      by_cases hs : size = data.length
      · simp only [hs, not_true_eq_false, if_false]
      · simp only [hs, not_false_eq_true, if_true]
        rfl

/-- A written row, read pixel by pixel against the canvas. -/
theorem rowHolds_layout (b : Bitmap) (hl : b.lengthsOk) (hf : b.fits) (y : Nat)
    (row : List Byte) (hy : y < b.height) (hrow : RowHolds b y row) :
    row.length = b.width * 4 ∧
    ∀ x, x < b.width → ∃ (r g bl : Byte) (a : Bool),
      b.rgbAt x y = some (r, g, bl) ∧ b.opacityAt x y = some a ∧
      row[x * 4]? = some r ∧ row[x * 4 + 1]? = some g ∧ row[x * 4 + 2]? = some bl ∧
      row[x * 4 + 3]? = some (if a then 255 else 0) := by
  obtain ⟨hlen, -, hpix⟩ := hrow
  refine ⟨hlen, ?_⟩
  intro x hx
  obtain ⟨a, ha, -, hend, h3, hk⟩ := hpix x hx
  obtain ⟨hbp, hba⟩ := hl
  obtain ⟨-, -, hbpl, hbal⟩ := hf
  have hidx := index_lt x y b.width b.height hx hy
  have e1 : (y * b.width + x) % 4294967296 = y * b.width + x :=
    Nat.mod_eq_of_lt (by omega)
  have e3 : ((y * b.width + x) * 3) % 4294967296 = (y * b.width + x) * 3 :=
    Nat.mod_eq_of_lt (by omega)
  rw [e1] at ha
  rw [e3] at hend
  have h0 := hk 0 (by omega)
  have h1 := hk 1 (by omega)
  have h2 := hk 2 (by omega)
  rw [e3] at h0 h1 h2
  simp only [Nat.add_zero] at h0
  have g0 : (y * b.width + x) * 3 < b.pixels.length := by omega
  have g1 : (y * b.width + x) * 3 + 1 < b.pixels.length := by omega
  have g2 : (y * b.width + x) * 3 + 2 < b.pixels.length := by omega
  rw [List.getElem?_eq_getElem g0] at h0
  rw [List.getElem?_eq_getElem g1] at h1
  rw [List.getElem?_eq_getElem g2] at h2
  exact ⟨_, _, _, a,
    rgbAt_eq_some b x y _ _ _ (List.getElem?_eq_getElem g0) (List.getElem?_eq_getElem g1)
      (List.getElem?_eq_getElem g2),
    ha, h0, h1, h2, h3⟩

/-! ## Header checks of `readFromBmp` -/

theorem leValue_lt (l : List Byte) : leValue l < 256 ^ l.length := by
  induction l with
  | nil => simp [leValue]
  | cons b bs ih =>
    simp only [leValue, List.length_cons, pow_succ]
    have := b.isLt
    omega

theorem leValue_four_lt (l : List Byte) (h : l.length = 4) : leValue l < 4294967296 := by
  have := leValue_lt l
  rw [h] at this
  exact this

theorem toInt_range (n : Nat) (h : n < 4294967296) :
    -2147483648 ≤ toInt n ∧ toInt n ≤ 2147483647 := by
  unfold toInt
  split <;> omega

/-- The first check of `readFromBmp`: two bytes other than `BM` are rejected. -/
theorem readFromBmp_bad_magic (file : List Byte)
    (hlen : 2 ≤ file.length) (hmagic : file.take 2 ≠ bmpMagicNumber) :
    readFromBmp file = .error (.thrown "not a valid BMP file") := by
  have h0 : readAt file 0 2 = .ok (file.take 2) := by
    rw [readAt_eq_ok file 0 2 (by omega), List.drop_zero]
  simp only [readFromBmp, h0, ok_bind, ne_eq, hmagic, not_false_eq_true, if_true]
  rfl

/-- The call `abs(temp)` of `readFromBmp` has a value for every height field
other than `-2^31`. -/
theorem checkInt_abs_height (file : List Byte) (hlen : 26 ≤ file.length)
    (hmin : toInt (leValue ((file.drop 22).take 4)) ≠ -2147483648) :
    checkInt |toInt (leValue ((file.drop 22).take 4))|
      = .ok |toInt (leValue ((file.drop 22).take 4))| := by
  have hr := toInt_range _ (leValue_four_lt ((file.drop 22).take 4)
    (range_length _ _ _ (by omega)))
  unfold checkInt
  rw [if_pos]
  generalize toInt (leValue ((file.drop 22).take 4)) = v at *
  constructor
  · have := abs_nonneg v
    omega
  · rw [abs_le]
    omega

/-- The plane count check of `readFromBmp`. -/
theorem readFromBmp_planes (file : List Byte) (hlen : 28 ≤ file.length)
    (hmagic : file.take 2 = bmpMagicNumber)
    (hw : leValue ((file.drop 18).take 4) ≠ 0)
    (hh : toInt (leValue ((file.drop 22).take 4)) ≠ 0)
    (hmin : toInt (leValue ((file.drop 22).take 4)) ≠ -2147483648)
    (hplanes : leValue ((file.drop 26).take 2) ≠ 1) :
    readFromBmp file = .error (.thrown "number of BMP planes is not 1") := by
  have h0 : readAt file 0 2 = .ok (file.take 2) := by
    rw [readAt_eq_ok file 0 2 (by omega), List.drop_zero]
  have h10 := readAt_eq_ok file 10 4 (by omega)
  have h14 := readAt_eq_ok file 14 4 (by omega)
  have h18 := readAt_eq_ok file 18 4 (by omega)
  have h22 := readAt_eq_ok file 22 4 (by omega)
  have h26 := readAt_eq_ok file 26 2 (by omega)
  have hci := checkInt_abs_height file (by omega) hmin
  simp only [readFromBmp, h0, h10, h14, h18, h22, h26, hci, ok_bind, ne_eq, hmagic,
    not_true_eq_false, if_false, hw, hh, or_self, hplanes, not_false_eq_true, if_true]
  rfl

/-- The bits-per-pixel check of `readFromBmp`. -/
theorem readFromBmp_depth (file : List Byte) (hlen : 30 ≤ file.length)
    (hmagic : file.take 2 = bmpMagicNumber)
    (hw : leValue ((file.drop 18).take 4) ≠ 0)
    (hh : toInt (leValue ((file.drop 22).take 4)) ≠ 0)
    (hmin : toInt (leValue ((file.drop 22).take 4)) ≠ -2147483648)
    (hplanes : leValue ((file.drop 26).take 2) = 1)
    (hbpp : leValue ((file.drop 28).take 2) ≠ 8) :
    readFromBmp file = .error (.thrown "BMP is not 8-bit") := by
  have h0 : readAt file 0 2 = .ok (file.take 2) := by
    rw [readAt_eq_ok file 0 2 (by omega), List.drop_zero]
  have h10 := readAt_eq_ok file 10 4 (by omega)
  have h14 := readAt_eq_ok file 14 4 (by omega)
  have h18 := readAt_eq_ok file 18 4 (by omega)
  have h22 := readAt_eq_ok file 22 4 (by omega)
  have h26 := readAt_eq_ok file 26 2 (by omega)
  have h28 := readAt_eq_ok file 28 2 (by omega)
  have hci := checkInt_abs_height file (by omega) hmin
  simp only [readFromBmp, h0, h10, h14, h18, h22, h26, h28, hci, ok_bind, ne_eq, hmagic,
    not_true_eq_false, if_false, hw, hh, or_self, hplanes, hbpp, not_false_eq_true, if_true]
  rfl

/-- The compression check of `readFromBmp`. -/
theorem readFromBmp_compression (file : List Byte) (hlen : 34 ≤ file.length)
    (hmagic : file.take 2 = bmpMagicNumber)
    (hw : leValue ((file.drop 18).take 4) ≠ 0)
    (hh : toInt (leValue ((file.drop 22).take 4)) ≠ 0)
    (hmin : toInt (leValue ((file.drop 22).take 4)) ≠ -2147483648)
    (hplanes : leValue ((file.drop 26).take 2) = 1)
    (hbpp : leValue ((file.drop 28).take 2) = 8)
    (hcomp : leValue ((file.drop 30).take 4) ≠ 0) :
    readFromBmp file = .error (.thrown "BMP is compressed") := by
  have h0 : readAt file 0 2 = .ok (file.take 2) := by
    rw [readAt_eq_ok file 0 2 (by omega), List.drop_zero]
  have h10 := readAt_eq_ok file 10 4 (by omega)
  have h14 := readAt_eq_ok file 14 4 (by omega)
  have h18 := readAt_eq_ok file 18 4 (by omega)
  have h22 := readAt_eq_ok file 22 4 (by omega)
  have h26 := readAt_eq_ok file 26 2 (by omega)
  have h28 := readAt_eq_ok file 28 2 (by omega)
  have h30 := readAt_eq_ok file 30 4 (by omega)
  have hci := checkInt_abs_height file (by omega) hmin
  simp only [readFromBmp, h0, h10, h14, h18, h22, h26, h28, h30, hci, ok_bind, ne_eq, hmagic,
    not_true_eq_false, if_false, hw, hh, or_self, hplanes, hbpp, hcomp, not_false_eq_true,
    if_true]
  rfl

/-- The palette count check of `readFromBmp`: the count is the field at
offset 34. -/
theorem readFromBmp_colors (file : List Byte) (hlen : 38 ≤ file.length)
    (hmagic : file.take 2 = bmpMagicNumber)
    (hw : leValue ((file.drop 18).take 4) ≠ 0)
    (hh : toInt (leValue ((file.drop 22).take 4)) ≠ 0)
    (hmin : toInt (leValue ((file.drop 22).take 4)) ≠ -2147483648)
    (hplanes : leValue ((file.drop 26).take 2) = 1)
    (hbpp : leValue ((file.drop 28).take 2) = 8)
    (hcomp : leValue ((file.drop 30).take 4) = 0)
    (hcount : 256 < leValue ((file.drop 34).take 4)) :
    readFromBmp file = .error (.thrown "BMP header specifies more than 256 colors") := by
  have h0 : readAt file 0 2 = .ok (file.take 2) := by
    rw [readAt_eq_ok file 0 2 (by omega), List.drop_zero]
  have h10 := readAt_eq_ok file 10 4 (by omega)
  have h14 := readAt_eq_ok file 14 4 (by omega)
  have h18 := readAt_eq_ok file 18 4 (by omega)
  have h22 := readAt_eq_ok file 22 4 (by omega)
  have h26 := readAt_eq_ok file 26 2 (by omega)
  have h28 := readAt_eq_ok file 28 2 (by omega)
  have h30 := readAt_eq_ok file 30 4 (by omega)
  have h34 := readAt_eq_ok file 34 4 (by omega)
  have hci := checkInt_abs_height file (by omega) hmin
  simp only [readFromBmp, h0, h10, h14, h18, h22, h26, h28, h30, h34, hci, ok_bind, ne_eq,
    hmagic, not_true_eq_false, if_false, hw, hh, or_self, hplanes, hbpp, hcomp, gt_iff_lt,
    hcount, if_true]
  rfl

/-! ## `readFromPng`: the palette, RGB and grayscale cases -/

/-- What a successful run of `readFromPng` on a palette image has stored. -/
theorem readFromPng_palette_ok (libpng : List Byte → Option PngInfo) (content : List Byte)
    (info : PngInfo) (c : Bitmap)
    (hlib : libpng content = some info)
    (hct : info.colorType = PNG_COLOR_TYPE_PALETTE)
    (h : readFromPng libpng (some content) = .ok c) :
    c.width = info.width ∧ c.height = info.height ∧
    ∀ x y, x < info.width → y < info.height →
      ∃ (row : List Byte) (idx : Byte) (col : Byte × Byte × Byte),
        info.rows[y]? = some row ∧ row[x]? = some idx ∧
        info.palette[idx.val]? = some col ∧
        c.opacityAt x y = some (idx != 0) ∧ c.rgbAt x y = some col := by
  obtain ⟨content', info', hc, -, hlib', hw0, hh0, hsw⟩ := readFromPng_ok libpng _ c h
  cases hc
  rw [hlib] at hlib'
  cases hlib'
  have hrun := pngSwitch_ok info _ c hsw
  rw [hct] at hrun
  simp only [PNG_COLOR_TYPE_RGBA, PNG_COLOR_TYPE_PALETTE, PNG_COLOR_TYPE_RGB,
    PNG_COLOR_TYPE_GRAY, Nat.reduceEqDiff, OfNat.ofNat_ne_zero, false_and, true_and,
    false_or, or_false] at hrun
  obtain ⟨hfit, hcw, hch, hcpl, hcal, hpix⟩ := fill_loops_ok _ _ _ c info.width info.height rfl
    (by simp only [List.length_replicate]; exact wrapU_mul3 _ _)
    (fun y x s s' _ _ hsw _ hs => by
      have := pngPalettePixel_store info.rows info.palette y x s s' hs
      rw [hsw] at this
      exact this) hrun
  refine ⟨hcw, hch, fun x y hx hy => ?_⟩
  obtain ⟨a, rgb, ⟨row, idx, col, hrow, hidx, hcol, rfl, rfl⟩, hp, ha, -⟩ := hpix x y hx hy
  refine ⟨row, idx, col, hrow, hidx, hcol, ?_, ?_⟩
  · show c.alpha[_]? = _
    rw [hcw]; exact ha _ rfl
  · apply rgbAt_eq_some
    · rw [hcw]; exact hp 0 (by omega)
    · rw [hcw]; exact hp 1 (by omega)
    · rw [hcw]; exact hp 2 (by omega)

/-- What a successful run of `readFromPng` on a grayscale image has stored. -/
theorem readFromPng_gray_ok (libpng : List Byte → Option PngInfo) (content : List Byte)
    (info : PngInfo) (c : Bitmap)
    (hlib : libpng content = some info)
    (hct : info.colorType = PNG_COLOR_TYPE_GRAY)
    (h : readFromPng libpng (some content) = .ok c) :
    c.width = info.width ∧ c.height = info.height ∧
    ∀ x y, x < info.width → y < info.height →
      ∃ (row : List Byte) (g : Byte),
        info.rows[y]? = some row ∧ row[x]? = some g ∧
        c.opacityAt x y = some true ∧ c.rgbAt x y = some (g, g, g) := by
  obtain ⟨content', info', hc, -, hlib', hw0, hh0, hsw⟩ := readFromPng_ok libpng _ c h
  cases hc
  rw [hlib] at hlib'
  cases hlib'
  have hrun := pngSwitch_ok info _ c hsw
  rw [hct] at hrun
  simp only [PNG_COLOR_TYPE_RGBA, PNG_COLOR_TYPE_PALETTE, PNG_COLOR_TYPE_RGB,
    PNG_COLOR_TYPE_GRAY, Nat.reduceEqDiff, OfNat.ofNat_ne_zero, false_and, true_and,
    false_or, or_false] at hrun
  obtain ⟨hfit, hcw, hch, hcpl, hcal, hpix⟩ := fill_loops_ok _ _ _ c info.width info.height rfl
    (by simp only [List.length_replicate]; exact wrapU_mul3 _ _)
    (fun y x s s' _ _ hsw _ hs => by
      have := pngGrayPixel_store info.rows y x s s' hs
      rw [hsw] at this
      exact this) hrun
  refine ⟨hcw, hch, fun x y hx hy => ?_⟩
  obtain ⟨a, rgb, ⟨row, g, hrow, hg, rfl, rfl⟩, hp, -, ha⟩ := hpix x y hx hy
  have hi := index_lt x y info.width info.height hx hy
  refine ⟨row, g, hrow, hg, ?_, ?_⟩
  · show c.alpha[_]? = _
    rw [hcw, ha rfl]
    simp only [List.length_replicate]
    rw [wrapU_mul, Nat.mod_eq_of_lt (by omega)]
    exact List.getElem?_replicate_of_lt hi
  · apply rgbAt_eq_some
    · rw [hcw]; exact hp 0 (by omega)
    · rw [hcw]; exact hp 1 (by omega)
    · rw [hcw]; exact hp 2 (by omega)

/-- What a successful run of `readFromPng` on an RGB image has stored. -/
theorem readFromPng_rgb_ok (libpng : List Byte → Option PngInfo) (content : List Byte)
    (info : PngInfo) (c : Bitmap)
    (hlib : libpng content = some info)
    (hct : info.colorType = PNG_COLOR_TYPE_RGB)
    (hwl : info.width ≤ PNG_USER_WIDTH_MAX)
    (h : readFromPng libpng (some content) = .ok c) :
    c.width = info.width ∧ c.height = info.height ∧
    ∀ x y, x < info.width → y < info.height →
      ∃ (row : List Byte) (r g b : Byte),
        info.rows[y]? = some row ∧
        row[x * 3]? = some r ∧ row[x * 3 + 1]? = some g ∧ row[x * 3 + 2]? = some b ∧
        c.opacityAt x y = some true ∧ c.rgbAt x y = some (r, g, b) := by
  obtain ⟨content', info', hc, -, hlib', hw0, hh0, hsw⟩ := readFromPng_ok libpng _ c h
  cases hc
  rw [hlib] at hlib'
  cases hlib'
  unfold PNG_USER_WIDTH_MAX at hwl
  have hrun := pngSwitch_ok info _ c hsw
  rw [hct] at hrun
  simp only [PNG_COLOR_TYPE_RGBA, PNG_COLOR_TYPE_PALETTE, PNG_COLOR_TYPE_RGB,
    PNG_COLOR_TYPE_GRAY, Nat.reduceEqDiff, OfNat.ofNat_ne_zero, false_and, true_and,
    false_or, or_false] at hrun
  obtain ⟨hfit, hcw, hch, hcpl, hcal, hrows⟩ := rgb_rows_ok info.rows _ c info.width
    info.height rfl (by omega) (by omega)
    (by simp only [List.length_replicate]; exact wrapU_mul3 _ _) hrun
  refine ⟨hcw, hch, fun x y hx hy => ?_⟩
  obtain ⟨row, hrow, hrl, hp⟩ := hrows y hy
  have hi := index_lt x y info.width info.height hx hy
  have g0 : x * 3 < row.length := by omega
  have g1 : x * 3 + 1 < row.length := by omega
  have g2 : x * 3 + 2 < row.length := by omega
  have e : ∀ k, (y * info.width + x) * 3 + k = y * info.width * 3 + (x * 3 + k) := by
    intro k; ring
  refine ⟨row, row[x * 3], row[x * 3 + 1], row[x * 3 + 2], hrow,
    List.getElem?_eq_getElem g0, List.getElem?_eq_getElem g1, List.getElem?_eq_getElem g2,
    ?_, ?_⟩
  · show c.alpha[_]? = _
    rw [hcw, hcal]
    simp only [List.length_replicate]
    rw [wrapU_mul, Nat.mod_eq_of_lt (by omega)]
    exact List.getElem?_replicate_of_lt hi
  · apply rgbAt_eq_some
    · rw [hcw, ← List.getElem?_eq_getElem g0]
      have := hp (x * 3) (by omega)
      rw [← this]; congr 1; ring
    · rw [hcw, ← List.getElem?_eq_getElem g1, e 1]; exact hp _ (by omega)
    · rw [hcw, ← List.getElem?_eq_getElem g2, e 2]; exact hp _ (by omega)

/-- A loop nest whose iterations each store one pixel into a canvas of
`w * h * 3` bytes and `w * h` flags ends with a result when every iteration
does. -/
theorem fill_loops_total (body : Nat → Nat → Bitmap → Run Bitmap) (s0 : Bitmap) (w h : Nat)
    (hw : s0.width = w) (hpl : s0.pixels.length = w * h * 3)
    (hal : s0.alpha.length = w * h)
    (hbody : ∀ y x s, y < h → x < w → s.width = w → s.pixels.length = w * h * 3 →
      s.alpha.length = w * h →
      ∃ s', body y x s = .ok s' ∧ ∃ a rgb, StoreAt s (y * w + x) a rgb s') :
    ∃ c, forUpTo h (fun y s => forUpTo w (fun x t => body y x t) s) s0 = .ok c := by
  obtain ⟨c, hc, -⟩ := nested_total
    (fun _ (s : Bitmap) => s.width = w ∧ s.pixels.length = w * h * 3 ∧
      s.alpha.length = w * h)
    body h w s0 ⟨hw, hpl, hal⟩
    (by
      intro y x u hy hx ⟨huw, hupl, hual⟩
      obtain ⟨v, hv, a, rgb, h3, hb, -, hvw, -, hvp, hva⟩ := hbody y x u hy hx huw hupl hual
      refine ⟨v, hv, hvw.trans huw, ?_, ?_⟩
      · rw [hvp]
        have := overwrite_length u.pixels rgb ((y * w + x) * 3 % 4294967296)
          (by rw [h3]; exact hb)
        rw [h3] at this
        rw [this, hupl]
      · rw [hva]
        cases a with
        | none => exact hual
        | some b =>
          show (List.set _ _ _).length = _
          rw [List.length_set]
          exact hual)
  exact ⟨c, hc⟩

/-- One iteration of the palette loop of `readFromPng` ends with a result when
the index byte exists, the palette has an entry for it, and the offsets are
inside the buffers. -/
theorem pngPalettePixel_total (rows : List (List Byte)) (palette : List (Byte × Byte × Byte))
    (y x : Nat) (s : Bitmap) (row : List Byte) (idx : Byte)
    (hrow : rows[y]? = some row) (hidx : row[x]? = some idx)
    (hcol : idx.val < palette.length)
    (hal : (y * s.width + x) % 4294967296 < s.alpha.length)
    (hpl : ((y * s.width + x) * 3) % 4294967296 + 3 ≤ s.pixels.length) :
    ∃ s', pngPalettePixel rows palette y x s = .ok s' := by
  have e2 : ((y : Int) * s.width + x) = ((y * s.width + x : Nat) : Int) := by
    push_cast; ring
  have e3 := wrapU_natCast_mul (y * s.width + x) 3
  simp only [Nat.cast_ofNat] at e3
  have g1 : vecGet rows y = .ok row := (vecGet_ok_iff _ _ _).mpr hrow
  have g2 : vecGet row x = .ok idx := (vecGet_ok_iff _ _ _).mpr hidx
  have g3 : vecSet s.alpha ((y * s.width + x) % 4294967296) (idx != 0)
      = .ok (s.alpha.set ((y * s.width + x) % 4294967296) (idx != 0)) :=
    (vecSet_ok_iff _ _ _ _).mpr ⟨hal, rfl⟩
  have g4 : vecGet palette idx.val = .ok (palette.get ⟨idx.val, hcol⟩) :=
    (vecGet_ok_iff _ _ _).mpr (List.getElem?_eq_getElem hcol)
  simp only [pngPalettePixel, e2, wrapU_natCast, e3, g1, g2, g3, g4, ok_bind]
  unfold copyTo
  rw [if_pos (by simpa using hpl)]
  exact ⟨_, rfl⟩

/-- One iteration of the grayscale loop of `readFromPng` ends with a result when
the gray byte exists and the pixel offset is below `2^31` and inside the
buffer. -/
theorem pngGrayPixel_total (rows : List (List Byte)) (y x : Nat) (s : Bitmap)
    (row : List Byte) (g : Byte)
    (hrow : rows[y]? = some row) (hg : row[x]? = some g)
    (hint : (y * s.width + x) * 3 < 2147483648)
    (hpl : (y * s.width + x) * 3 + 3 ≤ s.pixels.length) :
    ∃ s', pngGrayPixel rows y x s = .ok s' := by
  have e2 : ((y : Int) * s.width + x) = ((y * s.width + x : Nat) : Int) := by
    push_cast; ring
  have e3 := wrapU_natCast_mul (y * s.width + x) 3
  simp only [Nat.cast_ofNat] at e3
  rw [Nat.mod_eq_of_lt (by omega)] at e3
  have g1 : vecGet rows y = .ok row := (vecGet_ok_iff _ _ _).mpr hrow
  have g2 : vecGet row x = .ok g := (vecGet_ok_iff _ _ _).mpr hg
  have e4 := toInt_of_lt _ hint
  simp only [pngGrayPixel, e2, e3, e4, g1, g2, ok_bind]
  unfold copyToI copyTo
  rw [if_pos (by omega), Int.toNat_natCast, if_pos (by simpa using hpl)]
  exact ⟨_, rfl⟩

/-- One iteration of the RGB loop of `readFromPng` ends with a result when the
row exists and holds `width * 3` bytes and the row offset is inside the
buffer. -/
theorem pngRgbRow_total (rows : List (List Byte)) (y : Nat) (s : Bitmap) (row : List Byte)
    (hw3 : s.width * 3 < 4294967296)
    (hrow : rows[y]? = some row) (hrl : s.width * 3 ≤ row.length)
    (hpl : (y * s.width * 3) % 4294967296 + s.width * 3 ≤ s.pixels.length) :
    ∃ s', pngRgbRow rows y s = .ok s' ∧ s'.width = s.width ∧
      s'.pixels.length = s.pixels.length := by
  have e3 := wrapU_natCast_mul (y * s.width) 3
  have e4 := wrapU_natCast_mul s.width 3
  have e2 : ((y : Int) * s.width) = ((y * s.width : Nat) : Int) := by push_cast; rfl
  simp only [Nat.cast_ofNat] at e3 e4
  rw [Nat.mod_eq_of_lt hw3] at e4
  have g1 : vecGet rows y = .ok row := (vecGet_ok_iff _ _ _).mpr hrow
  have g2 : vecRange row 0 (s.width * 3) = .ok ((row.drop 0).take (s.width * 3)) :=
    (vecRange_ok_iff _ _ _ _).mpr ⟨by omega, rfl⟩
  have hl : ((row.drop 0).take (s.width * 3)).length = s.width * 3 := by
    rw [List.drop_zero, List.length_take]; omega
  have g3 := (copyTo_ok_iff s.pixels ((y * s.width * 3) % 4294967296)
    ((row.drop 0).take (s.width * 3)) _).mpr ⟨by rw [hl]; exact hpl, rfl⟩
  simp only [pngRgbRow, e2, e3, e4, g1, g2, g3, ok_bind]
  refine ⟨_, rfl, rfl, ?_⟩
  exact overwrite_length _ _ _ (by rw [hl]; exact hpl)

/-- A run of `readFromPng` ends with a canvas when the file carries the PNG
signature, libpng hands back a palette image with non-zero dimensions whose
index bytes all have a palette entry, and the canvas has
`width * height * 3 < 2^32` bytes. -/
theorem readFromPng_palette_total (libpng : List Byte → Option PngInfo) (content : List Byte)
    (info : PngInfo) (hlib : libpng content = some info)
    (hct : info.colorType = PNG_COLOR_TYPE_PALETTE) (hwf : info.fromLibpng)
    (hsig : content.take 8 = pngSignature)
    (hw : info.width ≠ 0) (hh : info.height ≠ 0)
    (hfit : info.width * info.height * 3 < 4294967296)
    (hpal : ∀ row ∈ info.rows, ∀ idx ∈ row, idx.val < info.palette.length) :
    ∃ c, readFromPng libpng (some content) = .ok c := by
  obtain ⟨⟨hrl, hrows⟩, -, -⟩ := hwf
  have hch : channels info.colorType = 1 := by rw [hct]; rfl
  have e3 : wrapU ((info.width : Int) * (info.height : Int) * 3)
      = info.width * info.height * 3 := by
    rw [wrapU_mul3, Nat.mod_eq_of_lt hfit]
  have e1 : wrapU ((info.width : Int) * (info.height : Int)) = info.width * info.height := by
    rw [wrapU_mul, Nat.mod_eq_of_lt (by omega)]
  obtain ⟨c, hc⟩ := fill_loops_total
    (fun y x t => pngPalettePixel info.rows info.palette y x t)
    { width := info.width
      height := info.height
      pixels := List.replicate (info.width * info.height * 3) 0
      alpha := List.replicate (info.width * info.height) false }
    info.width info.height rfl (by simp) (by simp)
    (by
      intro y x u hy hx huw hupl hual
      have hyl : y < info.rows.length := by rw [hrl]; exact hy
      have hrow : info.rows[y]? = some info.rows[y] := List.getElem?_eq_getElem hyl
      have hlen : info.rows[y].length = info.width := by
        rw [hrows _ (List.getElem_mem hyl), hch, Nat.mul_one]
      have hxl : x < info.rows[y].length := by rw [hlen]; exact hx
      have hi := index_lt x y info.width info.height hx hy
      obtain ⟨v, hv⟩ := pngPalettePixel_total info.rows info.palette y x u _ _ hrow
        (List.getElem?_eq_getElem hxl)
        (hpal _ (List.getElem_mem hyl) _ (List.getElem_mem hxl))
        (by rw [huw, Nat.mod_eq_of_lt (by omega)]; omega)
        (by rw [huw, Nat.mod_eq_of_lt (by omega)]; omega)
      obtain ⟨a, rgb, -, hst⟩ := pngPalettePixel_store info.rows info.palette y x u v hv
      rw [huw] at hst
      exact ⟨v, hv, a, rgb, hst⟩)
  refine ⟨c, readFromPng_of_switch libpng content info c hlib hsig hw hh ?_⟩
  rw [e3, e1]
  simp only [pngSwitch, hct, if_true, hc, ok_bind]
  rfl

/-- A run of `readFromPng` ends with a canvas when the file carries the PNG
signature, libpng hands back a grayscale image with non-zero dimensions, and the
canvas has `width * height * 3 < 2^31` bytes. -/
theorem readFromPng_gray_total (libpng : List Byte → Option PngInfo) (content : List Byte)
    (info : PngInfo) (hlib : libpng content = some info)
    (hct : info.colorType = PNG_COLOR_TYPE_GRAY) (hwf : info.fromLibpng)
    (hsig : content.take 8 = pngSignature)
    (hw : info.width ≠ 0) (hh : info.height ≠ 0)
    (hfit : info.width * info.height * 3 < 2147483648) :
    ∃ c, readFromPng libpng (some content) = .ok c := by
  obtain ⟨⟨hrl, hrows⟩, -, -⟩ := hwf
  have hch : channels info.colorType = 1 := by rw [hct]; rfl
  have e3 : wrapU ((info.width : Int) * (info.height : Int) * 3)
      = info.width * info.height * 3 := by
    rw [wrapU_mul3, Nat.mod_eq_of_lt (by omega)]
  have e1 : wrapU ((info.width : Int) * (info.height : Int)) = info.width * info.height := by
    rw [wrapU_mul, Nat.mod_eq_of_lt (by omega)]
  obtain ⟨c, hc⟩ := fill_loops_total
    (fun y x t => pngGrayPixel info.rows y x t)
    { width := info.width
      height := info.height
      pixels := List.replicate (info.width * info.height * 3) 0
      alpha := List.replicate (info.width * info.height) true }
    info.width info.height rfl (by simp) (by simp)
    (by
      intro y x u hy hx huw hupl hual
      have hyl : y < info.rows.length := by rw [hrl]; exact hy
      have hrow : info.rows[y]? = some info.rows[y] := List.getElem?_eq_getElem hyl
      have hlen : info.rows[y].length = info.width := by
        rw [hrows _ (List.getElem_mem hyl), hch, Nat.mul_one]
      have hxl : x < info.rows[y].length := by rw [hlen]; exact hx
      have hi := index_lt x y info.width info.height hx hy
      obtain ⟨v, hv⟩ := pngGrayPixel_total info.rows y x u _ _ hrow
        (List.getElem?_eq_getElem hxl)
        (by rw [huw]; omega)
        (by rw [huw]; omega)
      obtain ⟨a, rgb, -, hst⟩ := pngGrayPixel_store info.rows y x u v hv
      rw [huw] at hst
      exact ⟨v, hv, a, rgb, hst⟩)
  refine ⟨c, readFromPng_of_switch libpng content info c hlib hsig hw hh ?_⟩
  rw [e3, e1]
  simp only [pngSwitch, hct, PNG_COLOR_TYPE_RGBA, PNG_COLOR_TYPE_PALETTE, PNG_COLOR_TYPE_RGB,
    PNG_COLOR_TYPE_GRAY, Nat.reduceEqDiff, OfNat.zero_ne_ofNat, OfNat.ofNat_ne_zero, if_false,
    if_true, List.length_replicate, hc, ok_bind]
  rfl

/-- A run of `readFromPng` ends with a canvas when the file carries the PNG
signature, libpng hands back an RGB image with non-zero dimensions, and the
canvas has `width * height * 3 < 2^32` bytes. -/
theorem readFromPng_rgb_total (libpng : List Byte → Option PngInfo) (content : List Byte)
    (info : PngInfo) (hlib : libpng content = some info)
    (hct : info.colorType = PNG_COLOR_TYPE_RGB) (hwf : info.fromLibpng)
    (hsig : content.take 8 = pngSignature)
    (hw : info.width ≠ 0) (hh : info.height ≠ 0)
    (hfit : info.width * info.height * 3 < 4294967296) :
    ∃ c, readFromPng libpng (some content) = .ok c := by
  obtain ⟨⟨hrl, hrows⟩, hwl, -⟩ := hwf
  unfold PNG_USER_WIDTH_MAX at hwl
  have hch : channels info.colorType = 3 := by rw [hct]; rfl
  have e3 : wrapU ((info.width : Int) * (info.height : Int) * 3)
      = info.width * info.height * 3 := by
    rw [wrapU_mul3, Nat.mod_eq_of_lt hfit]
  have e1 : wrapU ((info.width : Int) * (info.height : Int)) = info.width * info.height := by
    rw [wrapU_mul, Nat.mod_eq_of_lt (by omega)]
  obtain ⟨c, hc, -⟩ := forUpTo_total
    (fun _ (s : Bitmap) => s.width = info.width ∧
      s.pixels.length = info.width * info.height * 3)
    (fun y s => pngRgbRow info.rows y s) info.height
    { width := info.width
      height := info.height
      pixels := List.replicate (info.width * info.height * 3) 0
      alpha := List.replicate (info.width * info.height) true }
    ⟨rfl, by simp⟩
    (by
      intro y u hy ⟨huw, hupl⟩
      have hyl : y < info.rows.length := by rw [hrl]; exact hy
      have hrow : info.rows[y]? = some info.rows[y] := List.getElem?_eq_getElem hyl
      have hlen : info.rows[y].length = info.width * 3 := by
        rw [hrows _ (List.getElem_mem hyl), hch]
      have hbound : y * info.width * 3 + info.width * 3 ≤ info.width * info.height * 3 := by
        have h1 : (y + 1) * info.width ≤ info.height * info.width :=
          Nat.mul_le_mul_right _ hy
        have h2 : (y + 1) * info.width = y * info.width + info.width := Nat.succ_mul _ _
        have h3 : info.height * info.width = info.width * info.height := Nat.mul_comm _ _
        omega
      obtain ⟨v, hv, hvw, hvp⟩ := pngRgbRow_total info.rows y u _ (by rw [huw]; omega) hrow
        (by rw [huw, hlen])
        (by rw [huw, hupl, Nat.mod_eq_of_lt (by omega)]; exact hbound)
      exact ⟨v, hv, hvw.trans huw, hvp.trans hupl⟩)
  refine ⟨c, readFromPng_of_switch libpng content info c hlib hsig hw hh ?_⟩
  rw [e3, e1]
  simp only [pngSwitch, hct, PNG_COLOR_TYPE_RGBA, PNG_COLOR_TYPE_PALETTE, PNG_COLOR_TYPE_RGB,
    PNG_COLOR_TYPE_GRAY, Nat.reduceEqDiff, OfNat.zero_ne_ofNat, OfNat.ofNat_ne_zero, if_false,
    if_true, List.length_replicate, hc, ok_bind]
  rfl

/-- The result of `readFromPng` does not depend on the alpha table of the
file's `tRNS` chunk. -/
theorem readFromPng_ignores_trans (libpng : List Byte → Option PngInfo)
    (file : Option (List Byte)) (t : List Byte) :
    readFromPng (fun f => (libpng f).map (fun i => { i with trans := t })) file
      = readFromPng libpng file := by
  cases file with
  | none => rfl
  | some content =>
    unfold readFromPng
    simp only
    cases libpng content with
    | none => rfl
    | some info => rfl

/-! ## `Util::getExtension` -/

set_option maxRecDepth 100000 in
theorem tolower_idem : ∀ ch : Byte, tolower (tolower ch) = tolower ch := by decide

set_option maxRecDepth 100000 in
theorem tolower_eq_dot : ∀ ch : Byte, tolower ch = 46 ↔ ch = 46 := by decide

theorem rfind_eq_none (str : List Byte) (ch : Byte) : rfind str ch = none ↔ ch ∉ str := by
  induction str with
  | nil => simp [rfind]
  | cons b bs ih =>
    unfold rfind
    cases h : rfind bs ch with
    | some i =>
      have : ch ∈ bs := by
        by_contra hn
        rw [ih.mpr hn] at h
        cases h
      simp [this]
    | none =>
      have hn := ih.mp h
      by_cases hb : b = ch
      · simp [hb]
      · have hb2 : ¬ ch = b := fun e => hb e.symm
        simp [hb, hb2, hn]

/-- The position that `rfind` returns is that of the last occurrence. -/
theorem rfind_append (stem ext : List Byte) (ch : Byte) (h : ch ∉ ext) :
    rfind (stem ++ ch :: ext) ch = some stem.length := by
  induction stem with
  | nil =>
    simp only [List.nil_append, List.length_nil]
    unfold rfind
    rw [(rfind_eq_none ext ch).mpr h]
    simp
  | cons b bs ih =>
    simp only [List.cons_append, List.length_cons]
    unfold rfind
    rw [ih]

/-- A string splits at the position that `rfind` returns. -/
theorem rfind_split (str : List Byte) (ch : Byte) :
    ∀ i, rfind str ch = some i →
      str = str.take i ++ ch :: str.drop (i + 1) ∧ ch ∉ str.drop (i + 1) := by
  induction str with
  | nil => intro i h; simp [rfind] at h
  | cons b bs ih =>
    intro i h
    unfold rfind at h
    cases hr : rfind bs ch with
    | some j =>
      rw [hr] at h
      simp only [Option.some.injEq] at h
      subst h
      obtain ⟨h1, h2⟩ := ih j hr
      simp only [List.take_succ_cons, List.drop_succ_cons, List.cons_append, List.cons.injEq,
        true_and]
      exact ⟨h1, h2⟩
    | none =>
      rw [hr] at h
      by_cases hb : b = ch
      · simp only [hb, if_true, Option.some.injEq] at h
        subst h
        simp only [List.take_zero, List.nil_append, Nat.zero_add, List.drop_succ_cons,
          List.drop_zero, hb, true_and]
        exact (rfind_eq_none bs ch).mp hr
      · simp [hb] at h

theorem rfind_toLower (str : List Byte) : rfind (Util.toLower str) 46 = rfind str 46 := by
  induction str with
  | nil => rfl
  | cons b bs ih =>
    unfold Util.toLower at ih ⊢
    simp only [List.map_cons]
    unfold rfind
    rw [ih]
    cases rfind bs 46 with
    | some i => rfl
    | none =>
      simp only
      by_cases hb : b = 46
      · rw [if_pos hb, if_pos ((tolower_eq_dot b).mpr hb)]
      · rw [if_neg hb, if_neg (fun e => hb ((tolower_eq_dot b).mp e))]

theorem toLower_idem (str : List Byte) : Util.toLower (Util.toLower str) = Util.toLower str := by
  unfold Util.toLower
  rw [List.map_map]
  apply List.map_congr_left
  intro b _
  exact tolower_idem b

/-- The extension does not depend on the letter case of the file name. -/
theorem getExtension_toLower (filename : List Byte) :
    Util.getExtension (Util.toLower filename) = Util.getExtension filename := by
  unfold Util.getExtension
  rw [rfind_toLower]
  cases rfind filename 46 with
  | none => rfl
  | some dot =>
    simp only
    have : (Util.toLower filename).drop (dot + 1) = Util.toLower (filename.drop (dot + 1)) := by
      unfold Util.toLower
      rw [List.map_drop]
    rw [this, toLower_idem]

/-- The extension is the lower-cased text after the last `.`. -/
theorem getExtension_append (stem ext : List Byte) (h : (46 : Byte) ∉ ext) :
    Util.getExtension (stem ++ 46 :: ext) = Util.toLower ext := by
  unfold Util.getExtension
  rw [rfind_append stem ext 46 h]
  simp only
  congr 1
  simp

theorem getExtension_no_dot (filename : List Byte) (h : (46 : Byte) ∉ filename) :
    Util.getExtension filename = [] := by
  unfold Util.getExtension
  rw [(rfind_eq_none filename 46).mpr h]

/-- A file name with a `.` splits at its last `.`. -/
theorem exists_last_dot (filename : List Byte) (h : (46 : Byte) ∈ filename) :
    ∃ stem ext, filename = stem ++ 46 :: ext ∧ (46 : Byte) ∉ ext := by
  cases hr : rfind filename 46 with
  | none => exact absurd h ((rfind_eq_none filename 46).mp hr)
  | some i =>
    obtain ⟨h1, h2⟩ := rfind_split filename 46 i hr
    exact ⟨_, _, h1, h2⟩

/-! ## `blit` from a source of more than `2^31` bytes -/

theorem bigSource_lengthsOk : bigSource.lengthsOk := by
  unfold Bitmap.lengthsOk bigSource
  simp only [List.length_replicate]
  exact ⟨by norm_num, by norm_num⟩

theorem bigSource_fits : bigSource.fits := by
  unfold Bitmap.fits bigSource
  simp only [List.length_replicate]
  exact ⟨by norm_num, by norm_num, by norm_num, by norm_num⟩

theorem bigSource_alpha : bigSource.alpha = List.replicate 715830025 true := rfl

theorem bigSource_last_opaque : bigSource.alpha[715830024]? = some true := by
  rw [bigSource_alpha]
  exact List.getElem?_replicate_of_lt (by norm_num)

theorem bigSource_width : bigSource.width = 26755 := rfl

theorem bigSource_height : bigSource.height = 26755 := rfl

/-- One iteration of `blit` over an opaque source pixel whose offset times 3 is
more than `2^31 - 1`: the `int` product `oOffset * 3` overflows. -/
theorem blitPixel_overflow (o s : Bitmap) (mx my ox oy x y : Nat)
    (ho : o.lengthsOk) (hof : o.fits) (hs : s.lengthsOk) (hsf : s.fits)
    (hox : ox + x < o.width) (hoy : oy + y < o.height)
    (hmx : mx + x < s.width) (hmy : my + y < s.height)
    (hsrc : o.alpha[(oy + y) * o.width + (ox + x)]? = some true)
    (hbig : 2147483647 < ((oy + y) * o.width + (ox + x)) * 3) :
    blitPixel o mx my ox oy y x s = .error .undefined := by
  obtain ⟨hop, hoa⟩ := ho
  obtain ⟨hsp, hsa⟩ := hs
  obtain ⟨_, _, hopl, _⟩ := hof
  obtain ⟨_, _, hspl, _⟩ := hsf
  have hio := index_lt (ox + x) (oy + y) o.width o.height hox hoy
  have him := index_lt (mx + x) (my + y) s.width s.height hmx hmy
  have hoh : o.height ≤ o.width * o.height := Nat.le_mul_of_pos_left _ (by omega)
  have hsh : s.height ≤ s.width * s.height := Nat.le_mul_of_pos_left _ (by omega)
  generalize hio' : (oy + y) * o.width + (ox + x) = io at *
  generalize him' : (my + y) * s.width + (mx + x) = im at *
  have e1 : ((oy : Int) + y) * o.width + ox + x = (io : Int) := by
    rw [← hio']; push_cast; ring
  have e2 : ((my : Int) + y) * s.width + mx + x = (im : Int) := by
    rw [← him']; push_cast; ring
  have c1 : checkInt ((oy : Int) + y) = .ok ((oy : Int) + y) := by
    rw [checkInt_ok_iff]; omega
  have c2 : checkInt ((my : Int) + y) = .ok ((my : Int) + y) := by
    rw [checkInt_ok_iff]; omega
  have c3 : checkInt ((io : Int) * 3) = .error .undefined := by
    unfold checkInt
    rw [if_neg (by omega)]
  have g1 : vecGetI o.alpha (io : Int) = .ok true := by
    rw [vecGetI_ok_iff]; exact ⟨by omega, by simpa using hsrc⟩
  have g2 : vecSetI s.alpha (im : Int) true = .ok (s.alpha.set im true) := by
    rw [vecSetI_ok_iff]; exact ⟨by omega, by simp; omega, by simp⟩
  simp only [blitPixel, c1, c2, ok_bind, e1, e2, wrapU_of_lt io (by omega),
    wrapU_of_lt im (by omega), toInt_of_lt io (by omega), toInt_of_lt im (by omega), g1,
    if_true, g2, c3]
  rfl

/-- The call of `blit` that copies the last pixel of `bigSource` onto a 1 × 1
canvas. -/
theorem blit_bigSource :
    blit (Bitmap.blank 1 1) 0 0 bigSource 26754 26754 1 1 = .error .undefined := by
  have e : (26754 + 0) * 26755 + (26754 + 0) = 715830024 := by norm_num
  have h := blitPixel_overflow bigSource (Bitmap.blank 1 1) 0 0 26754 26754 0 0
    bigSource_lengthsOk bigSource_fits (by decide) (by decide)
    (by rw [bigSource_width]; norm_num) (by rw [bigSource_height]; norm_num)
    (by decide) (by decide)
    (by rw [bigSource_width, e]; exact bigSource_last_opaque)
    (by rw [bigSource_width]; norm_num)
  rw [blit_eq_loops _ _ _ _ _ _ _ _ (by norm_num) (by norm_num) (by norm_num) (by norm_num)]
  have t1 : (1 : Int).toNat = 1 := rfl
  have t2 : (26754 : Int).toNat = 26754 := rfl
  have t3 : (0 : Int).toNat = 0 := rfl
  rw [t1, t2, t3]
  simp only [forUpTo]
  exact h

/-- With an in-range rectangle and canvases that satisfy the invariant, the
`int` offsets that `blit` computes are the row-major indices, and these lie
inside the buffers. -/
theorem blit_offsets (d o : Bitmap) (mx my ox oy x y : Nat)
    (ho : o.lengthsOk) (hof : o.fits) (hd : d.lengthsOk) (hdf : d.fits)
    (hox : ox + x < o.width) (hoy : oy + y < o.height)
    (hmx : mx + x < d.width) (hmy : my + y < d.height) :
    toInt (wrapU (((oy : Int) + y) * o.width + ox + x))
      = (((oy + y) * o.width + (ox + x) : Nat) : Int) ∧
    toInt (wrapU (((my : Int) + y) * d.width + mx + x))
      = (((my + y) * d.width + (mx + x) : Nat) : Int) ∧
    (oy + y) * o.width + (ox + x) < o.alpha.length ∧
    ((oy + y) * o.width + (ox + x)) * 3 + 3 ≤ o.pixels.length ∧
    (my + y) * d.width + (mx + x) < d.alpha.length ∧
    ((my + y) * d.width + (mx + x)) * 3 + 3 ≤ d.pixels.length := by
  obtain ⟨hop, hoa⟩ := ho
  obtain ⟨hsp, hsa⟩ := hd
  obtain ⟨_, _, hopl, _⟩ := hof
  obtain ⟨_, _, hspl, _⟩ := hdf
  have hio := index_lt (ox + x) (oy + y) o.width o.height hox hoy
  have him := index_lt (mx + x) (my + y) d.width d.height hmx hmy
  generalize hio' : (oy + y) * o.width + (ox + x) = io at *
  generalize him' : (my + y) * d.width + (mx + x) = im at *
  have e1 : ((oy : Int) + y) * o.width + ox + x = (io : Int) := by
    rw [← hio']; push_cast; ring
  have e2 : ((my : Int) + y) * d.width + mx + x = (im : Int) := by
    rw [← him']; push_cast; ring
  rw [e1, e2, wrapU_of_lt io (by omega), wrapU_of_lt im (by omega),
    toInt_of_lt io (by omega), toInt_of_lt im (by omega)]
  exact ⟨rfl, rfl, by omega, by omega, by omega, by omega⟩

/-! ## `blit` twice -/

/-- Rule for two runs of the same loop from related states: the second run ends
with a result when the first does, and the results are related. -/
theorem forUpTo_rel {σ : Type} (R : σ → σ → Prop) (body : Nat → σ → Run σ) :
    ∀ (n : Nat) (s t s2 : σ), forUpTo n body s = .ok t → R s s2 →
      (∀ k u v u2, k < n → R u u2 → body k u = .ok v →
        ∃ v2, body k u2 = .ok v2 ∧ R v v2) →
      ∃ t2, forUpTo n body s2 = .ok t2 ∧ R t t2 := by
  intro n
  induction n with
  | zero =>
    intro s t s2 h h0 _
    simp only [forUpTo, Except.ok.injEq] at h
    exact ⟨s2, rfl, h ▸ h0⟩
  | succ k ih =>
    intro s t s2 h h0 hstep
    simp only [forUpTo] at h
    cases hk : forUpTo k body s with
    | error e => rw [hk] at h; cases h
    | ok u =>
      rw [hk] at h
      obtain ⟨u2, hu2, hR⟩ := ih s u s2 hk h0
        (fun j a b a2 hj => hstep j a b a2 (Nat.lt_succ_of_lt hj))
      obtain ⟨v2, hv2, hR2⟩ := hstep k u t u2 (Nat.lt_succ_self k) hR h
      refine ⟨v2, ?_, hR2⟩
      simp only [forUpTo, hu2, hv2]

/-- The rule `forUpTo_rel` for a loop nest. -/
theorem nested_rel {σ : Type} (R : σ → σ → Prop) (body : Nat → Nat → σ → Run σ)
    (h w : Nat) (s t s2 : σ)
    (hrun : forUpTo h (fun y u => forUpTo w (fun x v => body y x v) u) s = .ok t)
    (h0 : R s s2)
    (hstep : ∀ y x u v u2, y < h → x < w → R u u2 → body y x u = .ok v →
      ∃ v2, body y x u2 = .ok v2 ∧ R v v2) :
    ∃ t2, forUpTo h (fun y u => forUpTo w (fun x v => body y x v) u) s2 = .ok t2 ∧ R t t2 :=
  forUpTo_rel R _ h s t s2 hrun h0
    (fun y u v u2 hy hR hv =>
      forUpTo_rel R (fun x a => body y x a) w u v u2 hv hR
        (fun x a b a2 hx hRa hb => hstep y x a b a2 hy hx hRa hb))

/-- One iteration of `blit` on two related states: it ends with a result on the
second when it does on the first, and the results are related. -/
theorem blitPixel_rel (final o : Bitmap) (mX mY oX oY : Int) (y x : Nat) (a a' b : Bitmap)
    (hr : BlitRel final a b) (h : blitPixel o mX mY oX oY y x a = .ok a') :
    ∃ b', blitPixel o mX mY oX oY y x b = .ok b' ∧ BlitRel final a' b' := by
  obtain ⟨hw, hh, hpl, hal, hA, hP⟩ := hr
  simp only [blitPixel, bind_ok_iff, checkInt_ok_iff, vecGetI_ok_iff] at h ⊢
  obtain ⟨oRow, hoRow, mRow, hmRow, src, hsrc, hrest⟩ := h
  cases src with
  | false =>
    simp only [Bool.false_eq_true, if_false, pure_ok_iff] at hrest
    subst hrest
    refine ⟨b, ⟨oRow, hoRow, mRow, hmRow, false, hsrc, ?_⟩, hw, hh, hpl, hal, hA, hP⟩
    simp only [Bool.false_eq_true, if_false, pure_ok_iff]
  | true =>
    simp only [if_true, bind_ok_iff, vecSetI_ok_iff, checkInt_ok_iff, vecRangeI_ok_iff,
      copyTo_ok_iff, pure_ok_iff] at hrest
    obtain ⟨al, ⟨hnn, hlt, rfl⟩, first, hfirst, col, ⟨hfn, hcl, rfl⟩, px, ⟨hpb, rfl⟩, rfl⟩ :=
      hrest
    rw [hw] at hnn hlt hpb ⊢
    have hl3 : (List.take 3 (List.drop first.toNat o.pixels)).length = 3 :=
      range_length _ _ _ hcl
    rw [hl3] at hpb ⊢
    generalize hi : (toInt (wrapU (mRow * (b.width : Int) + mX + x))).toNat = i at *
    generalize hoff : wrapU ((wrapU (mRow * (b.width : Int) + mX + x) : Int) * 3) = off at *
    generalize hcol : List.take 3 (List.drop first.toNat o.pixels) = col at *
    refine ⟨{ width := b.width, height := b.height,
              pixels := b.pixels.take off ++ col ++ b.pixels.drop (off + 3),
              alpha := b.alpha.set i true },
      ⟨oRow, hoRow, mRow, hmRow, true, hsrc, ?_⟩, ?_⟩
    · simp only [if_true, bind_ok_iff, vecSetI_ok_iff, checkInt_ok_iff, vecRangeI_ok_iff,
        copyTo_ok_iff, pure_ok_iff]
      refine ⟨_, ⟨hnn, ?_, rfl⟩, first, hfirst, _, ⟨hfn, hcl, rfl⟩, _, ⟨?_, rfl⟩, ?_⟩
      · rw [hi, ← hal]; exact hlt
      · rw [hoff, hcol, hl3, ← hpl]; exact hpb
      · rw [hi, hoff, hcol, hl3]
    · have hpb2 : off + col.length ≤ b.pixels.length := by rw [hl3, ← hpl]; exact hpb
      have hpa2 : off + col.length ≤ a.pixels.length := by rw [hl3]; exact hpb
      refine ⟨rfl, hh, ?_, ?_, ?_, ?_⟩
      · show (a.pixels.take off ++ col ++ a.pixels.drop (off + 3)).length =
          (b.pixels.take off ++ col ++ b.pixels.drop (off + 3)).length
        have e1 := overwrite_length a.pixels col off hpa2
        have e2 := overwrite_length b.pixels col off hpb2
        rw [hl3] at e1 e2
        rw [e1, e2, hpl]
      · show (a.alpha.set i true).length = (b.alpha.set i true).length
        rw [List.length_set, List.length_set, hal]
      · intro j
        show (b.alpha.set i true)[j]? = (a.alpha.set i true)[j]? ∨
          (b.alpha.set i true)[j]? = final.alpha[j]?
        by_cases hj : i = j
        · subst hj
          left
          rw [List.getElem?_set_self (by rw [← hal]; exact hlt), List.getElem?_set_self hlt]
        · rw [List.getElem?_set_ne hj, List.getElem?_set_ne hj]
          exact hA j
      · intro j
        show (b.pixels.take off ++ col ++ b.pixels.drop (off + 3))[j]? =
            (a.pixels.take off ++ col ++ a.pixels.drop (off + 3))[j]? ∨
          (b.pixels.take off ++ col ++ b.pixels.drop (off + 3))[j]? = final.pixels[j]?
        have e1 := overwrite_getElem? a.pixels col off j hpa2
        have e2 := overwrite_getElem? b.pixels col off j hpb2
        rw [hl3] at e1 e2
        rw [e1, e2]
        by_cases hj : off ≤ j ∧ j < off + 3
        · rw [if_pos hj, if_pos hj]
          left; trivial
        · rw [if_neg hj, if_neg hj]
          exact hP j

/-- A `blit` call repeated on its own result returns that result. -/
theorem blit_again (d o d1 : Bitmap) (mX mY oX oY oW oH : Int)
    (h : blit d mX mY o oX oY oW oH = .ok d1) :
    blit d1 mX mY o oX oY oW oH = .ok d1 := by
  obtain ⟨g1, g2, g3, g4⟩ := blit_lengths d o mX mY oX oY oW oH d1 h
  unfold blit at h ⊢
  obtain ⟨t2, ht2, hR⟩ := nested_rel (BlitRel d1)
    (fun y x t => blitPixel o mX mY oX oY y x t) oH.toNat oW.toNat d d1 d1 h
    ⟨g1.symm, g2.symm, g3.symm, g4.symm, fun _ => Or.inr rfl, fun _ => Or.inr rfl⟩
    (fun y x u v u2 _ _ hRu hv => blitPixel_rel d1 o mX mY oX oY y x u v u2 hRu hv)
  rw [ht2]
  obtain ⟨hw, hh, -, -, hA, hP⟩ := hR
  have ea : t2.alpha = d1.alpha :=
    List.ext_getElem? (fun j => by rcases hA j with e | e <;> exact e)
  have ep : t2.pixels = d1.pixels :=
    List.ext_getElem? (fun j => by rcases hP j with e | e <;> exact e)
  obtain ⟨w2, h2, p2, a2⟩ := t2
  obtain ⟨w1, h1, p1, a1⟩ := d1
  simp only at hw hh ea ep
  subst hw hh ea ep
  rfl

/-- Two `blit` calls with the same arguments in succession have the outcome of
one, also when that outcome is a failure. -/
theorem blit_bind_self (d o : Bitmap) (mX mY oX oY oW oH : Int) :
    (blit d mX mY o oX oY oW oH >>= fun d1 => blit d1 mX mY o oX oY oW oH)
      = blit d mX mY o oX oY oW oH := by
  cases h : blit d mX mY o oX oY oW oH with
  | error e => rfl
  | ok d1 =>
    rw [ok_bind]
    exact blit_again d o d1 mX mY oX oY oW oH h

/-! ## `writeToPng` on a canvas of more than `2^31 + 2` bytes -/

/-- A loop that fails has failed in one of its iterations. -/
theorem forUpTo_error {σ : Type} (body : Nat → σ → Run σ) :
    ∀ (n : Nat) (s : σ) (e : Fault), forUpTo n body s = .error e →
      ∃ k u, k < n ∧ body k u = .error e := by
  intro n
  induction n with
  | zero => intro s e h; simp only [forUpTo] at h; cases h
  | succ k ih =>
    intro s e h
    simp only [forUpTo] at h
    cases hk : forUpTo k body s with
    | error e' =>
      rw [hk] at h
      have he : e' = e := by injection h
      subst he
      obtain ⟨j, u, hj, hu⟩ := ih s e' hk
      exact ⟨j, u, Nat.lt_succ_of_lt hj, hu⟩
    | ok u =>
      rw [hk] at h
      exact ⟨k, u, Nat.lt_succ_self k, h⟩

theorem bind_error_iff {α β : Type} (m : Run α) (f : α → Run β) (e : Fault) :
    (m >>= f) = .error e ↔ m = .error e ∨ ∃ a, m = .ok a ∧ f a = .error e := by
  cases m with
  | error e' => simp [bind, Except.bind]
  | ok a => simp [bind, Except.bind]

theorem vecGet_error {α : Type} (v : List α) (i : Nat) (e : Fault)
    (h : vecGet v i = .error e) : e = .undefined := by
  unfold vecGet at h
  split at h
  · cases h
  · cases h; rfl

theorem vecSet_error {α : Type} (v : List α) (i : Nat) (a : α) (e : Fault)
    (h : vecSet v i a = .error e) : e = .undefined := by
  unfold vecSet at h
  split at h
  · cases h
  · cases h; rfl

theorem copyTo_error {α : Type} (dst : List α) (off : Nat) (src : List α) (e : Fault)
    (h : copyTo dst off src = .error e) : e = .undefined := by
  unfold copyTo at h
  split at h
  · cases h
  · cases h; rfl

theorem vecRangeI_error {α : Type} (v : List α) (off : Int) (n : Nat) (e : Fault)
    (h : vecRangeI v off n = .error e) : e = .undefined := by
  unfold vecRangeI at h
  split at h
  · unfold vecRange at h
    split at h
    · cases h
    · cases h; rfl
  · cases h; rfl

/-- One iteration of the inner loop of `writeToPng` fails only by an access out
of bounds. -/
theorem writeRowPixel_error (self : Bitmap) (y x : Nat) (row : List Byte) (e : Fault)
    (h : writeRowPixel self y x row = .error e) : e = .undefined := by
  simp only [writeRowPixel, bind_error_iff] at h
  rcases h with h | ⟨_, -, h | ⟨_, -, h | ⟨_, -, h⟩⟩⟩
  · exact vecRangeI_error _ _ _ _ h
  · exact copyTo_error _ _ _ _ h
  · exact vecGet_error _ _ _ h
  · exact vecSet_error _ _ _ _ h

/-- With nothing failing in the environment and dimensions that libpng accepts,
`writeToPng` fails only by an access out of bounds. -/
theorem writeToPng_error (self : Bitmap) (env : PngWriter) (henv : env.succeeds)
    (hdim : pngCheckIHDR self.width self.height = true) (e : Fault)
    (h : writeToPng self env = .error e) : e = .undefined := by
  obtain ⟨hopen, hcreated, hwrites⟩ := henv
  simp only [writeToPng, hopen, hcreated, hdim, hwrites, Bool.not_true, Bool.false_eq_true,
    if_false, bind_error_iff] at h
  rcases h with h | ⟨_, -, h⟩
  · unfold writeRows at h
    obtain ⟨y, st, -, hy⟩ := forUpTo_error _ _ _ _ h
    simp only [bind_error_iff] at hy
    rcases hy with hy | ⟨_, -, hy | ⟨_, -, hy⟩⟩
    · obtain ⟨x, r, -, hx⟩ := forUpTo_error _ _ _ _ hy
      exact writeRowPixel_error self y x r e hx
    · simp only [pngWriteRow, hwrites, if_true] at hy
      cases hy
    · cases hy
  · cases h

/-- Dimensions that libpng accepts are not zero, and a canvas with such
dimensions and at most `2^31 + 2` bytes has fields within the `unsigned int`
range. -/
theorem fits_of_checkIHDR (b : Bitmap) (hl : b.lengthsOk)
    (hdim : pngCheckIHDR b.width b.height = true)
    (hsmall : b.pixels.length ≤ 2147483650) :
    b.width ≠ 0 ∧ b.height ≠ 0 ∧ b.fits := by
  unfold pngCheckIHDR PNG_USER_WIDTH_MAX PNG_USER_HEIGHT_MAX at hdim
  simp only [decide_eq_true_eq] at hdim
  obtain ⟨hw0, hh0, hw, hh⟩ := hdim
  obtain ⟨hp, ha⟩ := hl
  refine ⟨hw0, hh0, by omega, by omega, by omega, by omega⟩

/-- On a canvas of more than `2^31 + 2` bytes that satisfies the buffer-length
invariant `writeToPng` reads out of bounds: the `int` offset of the last pixel is
above `2^31 - 1`. -/
theorem writeToPng_overflow (b : Bitmap) (env : PngWriter) (hl : b.lengthsOk) (hf : b.fits)
    (henv : env.succeeds) (hdim : pngCheckIHDR b.width b.height = true)
    (hbig : 2147483651 ≤ b.pixels.length) :
    writeToPng b env = .error .undefined := by
  cases h : writeToPng b env with
  | error e => rw [writeToPng_error b env henv hdim e h]
  | ok rows =>
    exfalso
    obtain ⟨-, hrows⟩ := writeToPng_rows b env rows h
    obtain ⟨hp, -⟩ := hl
    obtain ⟨-, -, hpl, -⟩ := hf
    have hdim' := hdim
    unfold pngCheckIHDR at hdim'
    simp only [decide_eq_true_eq] at hdim'
    obtain ⟨hw0, hh0, -, -⟩ := hdim'
    obtain ⟨row, -, -, -, hpix⟩ := hrows (b.height - 1) (by omega)
    obtain ⟨_, -, hlt, -⟩ := hpix (b.width - 1) (by omega)
    have e1 : (b.height - 1 + 1) * b.width = (b.height - 1) * b.width + b.width :=
      Nat.succ_mul _ _
    rw [Nat.sub_add_cancel (by omega)] at e1
    have e2 : b.height * b.width = b.width * b.height := Nat.mul_comm _ _
    have e3 : ((b.height - 1) * b.width + (b.width - 1)) * 3 = b.pixels.length - 3 := by
      omega
    rw [e3, Nat.mod_eq_of_lt (by omega)] at hlt
    omega

theorem tallCanvas_pixels : tallCanvas.pixels = List.replicate 2148000000 0 := rfl

theorem tallCanvas_lengthsOk : tallCanvas.lengthsOk := by
  unfold Bitmap.lengthsOk tallCanvas
  simp only [List.length_replicate]
  exact ⟨by norm_num, by norm_num⟩

theorem tallCanvas_fits : tallCanvas.fits := by
  unfold Bitmap.fits tallCanvas
  simp only [List.length_replicate]
  exact ⟨by norm_num, by norm_num, by norm_num, by norm_num⟩

theorem wideCanvas_pixels : wideCanvas.pixels = List.replicate 2148000000 0 := rfl

theorem wideCanvas_lengthsOk : wideCanvas.lengthsOk := by
  unfold Bitmap.lengthsOk wideCanvas
  simp only [List.length_replicate]
  exact ⟨by norm_num, by norm_num⟩

theorem wideCanvas_fits : wideCanvas.fits := by
  unfold Bitmap.fits wideCanvas
  simp only [List.length_replicate]
  exact ⟨by norm_num, by norm_num, by norm_num, by norm_num⟩

/-! ## `blit` on two different canvases of a program -/

/-- A loop on a state that embeds the state of another loop runs as that loop
does. -/
theorem forUpTo_lift {σ τ : Type} (f : σ → τ) (b1 : Nat → σ → Run σ) (b2 : Nat → τ → Run τ)
    (h : ∀ k s, b2 k (f s) = (b1 k s >>= fun s' => pure (f s'))) :
    ∀ (n : Nat) (s : σ), forUpTo n b2 (f s) = (forUpTo n b1 s >>= fun s' => pure (f s')) := by
  intro n
  induction n with
  | zero => intro s; rfl
  | succ k ih =>
    intro s
    simp only [forUpTo]
    rw [ih s]
    cases forUpTo k b1 s with
    | error e => rfl
    | ok t => exact h k t

/-- One iteration of `blit` on two different canvases of a program writes the
destination only. -/
theorem blitRefPixel_distinct (objs : List Bitmap) (self other : Nat) (o : Bitmap)
    (mX mY oX oY : Int) (hne : self ≠ other) (hlt : self < objs.length)
    (hother : objs[other]? = some o) (y x : Nat) (d : Bitmap) :
    blitRefPixel self other mX mY oX oY y x (objs.set self d) =
      (blitPixel o mX mY oX oY y x d >>= fun d' => pure (objs.set self d')) := by
  have g1 : vecGet (objs.set self d) self = .ok d :=
    (vecGet_ok_iff _ _ _).mpr (List.getElem?_set_self hlt)
  have g2 : vecGet (objs.set self d) other = .ok o := by
    rw [vecGet_ok_iff, List.getElem?_set_ne hne]
    exact hother
  simp only [blitRefPixel, g1, ok_bind, hne, if_false, g2, List.set_set]

/-- The call `blit` on two different canvases of a program is the call on the
destination with the source as a value; it writes the destination only. -/
theorem blitRef_distinct (objs : List Bitmap) (self other : Nat) (d o : Bitmap)
    (mX mY oX oY oW oH : Int) (hne : self ≠ other)
    (hself : objs[self]? = some d) (hother : objs[other]? = some o) :
    blitRef self other mX mY oX oY oW oH objs =
      (blit d mX mY o oX oY oW oH >>= fun d' => pure (objs.set self d')) := by
  have hlt : self < objs.length := by
    by_contra hge
    rw [List.getElem?_eq_none (by omega)] at hself
    cases hself
  have hset : objs.set self d = objs := by
    apply List.ext_getElem?
    intro j
    by_cases hj : self = j
    · subst hj
      rw [List.getElem?_set_self hlt, hself]
    · rw [List.getElem?_set_ne hj]
  unfold blitRef blit
  have inner : ∀ y (s : Bitmap),
      forUpTo oW.toNat (fun x t => blitRefPixel self other mX mY oX oY y x t)
        (objs.set self s) =
      (forUpTo oW.toNat (fun x t => blitPixel o mX mY oX oY y x t) s >>=
        fun s' => pure (objs.set self s')) := by
    intro y s
    exact forUpTo_lift (fun t => objs.set self t)
      (fun x t => blitPixel o mX mY oX oY y x t)
      (fun x t => blitRefPixel self other mX mY oX oY y x t)
      (fun x t => blitRefPixel_distinct objs self other o mX mY oX oY hne hlt hother y x t)
      oW.toNat s
  have outer := forUpTo_lift (fun t => objs.set self t)
    (fun y s => forUpTo oW.toNat (fun x t => blitPixel o mX mY oX oY y x t) s)
    (fun y s => forUpTo oW.toNat (fun x t => blitRefPixel self other mX mY oX oY y x t) s)
    inner oH.toNat d
  rw [hset] at outer
  exact outer

/-! ## `blit`: what a call that ends with a result has done -/

/-- A `blit` call that ends with a result has copied every opaque source pixel
of the rectangle and has left the destination pixel under every transparent one
as it was; the call ends with a result when the source buffer is shorter than
`2^31` bytes. -/
theorem blit_pixels_ok (d o : Bitmap) (mX mY oX oY oW oH : Int)
    (hd : d.lengthsOk) (ho : o.lengthsOk) (hdf : d.fits) (hof : o.fits)
    (hr : blitInRange d mX mY o oX oY oW oH) :
    (o.pixels.length < 2147483648 → ∃ d', blit d mX mY o oX oY oW oH = .ok d') ∧
    ∀ d', blit d mX mY o oX oY oW oH = .ok d' →
      ∀ x y : Nat, (x : Int) < oW → (y : Int) < oH →
        match o.opacityAt (oX.toNat + x) (oY.toNat + y) with
        | some true =>
          d'.opacityAt (mX.toNat + x) (mY.toNat + y) = some true ∧
          d'.rgbAt (mX.toNat + x) (mY.toNat + y) = o.rgbAt (oX.toNat + x) (oY.toNat + y) ∧
          (o.rgbAt (oX.toNat + x) (oY.toNat + y)).isSome = true
        | some false =>
          d'.opacityAt (mX.toNat + x) (mY.toNat + y)
            = d.opacityAt (mX.toNat + x) (mY.toNat + y) ∧
          d'.rgbAt (mX.toNat + x) (mY.toNat + y) = d.rgbAt (mX.toNat + x) (mY.toNat + y)
        | none => False := by
  obtain ⟨hoX, hoY, hoW, hoH, hmX, hmY, hmW, hmH⟩ := hr
  by_cases hpos : oW ≤ 0 ∨ oH ≤ 0
  · rw [blit_empty_rect d o mX mY oX oY oW oH hpos]
    refine ⟨fun _ => ⟨d, rfl⟩, ?_⟩
    intro d' _ x y hx hy
    omega
  rw [blit_eq_loops d o mX mY oX oY oW oH hmX hmY hoX hoY]
  have b1 : oX.toNat + oW.toNat ≤ o.width := by omega
  have b2 : oY.toNat + oH.toNat ≤ o.height := by omega
  have b3 : mX.toNat + oW.toNat ≤ d.width := by omega
  have b4 : mY.toNat + oH.toNat ≤ d.height := by omega
  refine ⟨fun hsmall => blit_loops_total d o _ _ _ _ _ _ ho hof hd hdf b1 b2 b3 b4 hsmall, ?_⟩
  intro d' hrun x y hx hy
  have hxW : x < oW.toNat := by omega
  have hyH : y < oH.toNat := by omega
  obtain ⟨hw, hh, hpl, hal, hA, hB⟩ :=
    blit_loops_ok d o d' _ _ _ _ _ _ ho hof hd hdf b1 b2 b3 b4 hrun
  have hp : y * oW.toNat + x < oH.toNat * oW.toNat := by
    have := index_lt x y oW.toNat oH.toNat hxW hyH
    rwa [Nat.mul_comm oW.toNat] at this
  have hio := index_lt (oX.toNat + x) (oY.toNat + y) o.width o.height (by omega) (by omega)
  obtain ⟨a, ha⟩ : ∃ a, o.alpha[(oY.toNat + y) * o.width + (oX.toNat + x)]? = some a :=
    ⟨_, List.getElem?_eq_getElem (by rw [ho.2]; exact hio)⟩
  have hopa : o.opacityAt (oX.toNat + x) (oY.toNat + y) = some a := ha
  rw [hopa]
  cases a with
  | true =>
    obtain ⟨h1, h2⟩ := hA x y hxW hyH hp ha
    refine ⟨?_, ?_, ?_⟩
    · show d'.alpha[_]? = some true
      rw [hw]; exact h1
    · apply rgbAt_congr
      intro k hk
      rw [hw]; exact h2 k hk
    · apply rgbAt_isSome
      rw [ho.1]; omega
  | false =>
    have hne : ∀ x' y', x' < oW.toNat → y' < oH.toNat →
        y' * oW.toNat + x' < oH.toNat * oW.toNat →
        o.alpha[(oY.toNat + y') * o.width + (oX.toNat + x')]? = some true →
        (mY.toNat + y) * d.width + (mX.toNat + x)
          ≠ (mY.toNat + y') * d.width + (mX.toNat + x') := by
      intro x' y' hx' _ _ hop e
      have := index_inj (mX.toNat + x) (mY.toNat + y) (mX.toNat + x') (mY.toNat + y')
        d.width (by omega) (by omega) e
      have hxx : x = x' := by omega
      have hyy : y = y' := by omega
      subst hxx; subst hyy
      rw [ha] at hop
      cases hop
    obtain ⟨h1, h2⟩ := hB _ hne
    refine ⟨?_, ?_⟩
    · show d'.alpha[_]? = d.alpha[_]?
      rw [hw]; exact h1
    · apply rgbAt_congr
      intro k hk
      rw [hw]; exact h2 k hk

/-- A `blit` call that ends with a result has kept the sizes of the destination
and every destination pixel outside the target rectangle. -/
theorem blit_frame_ok (d o : Bitmap) (mX mY oX oY oW oH : Int)
    (hd : d.lengthsOk) (ho : o.lengthsOk) (hdf : d.fits) (hof : o.fits)
    (hr : blitInRange d mX mY o oX oY oW oH) :
    (o.pixels.length < 2147483648 → ∃ d', blit d mX mY o oX oY oW oH = .ok d') ∧
    ∀ d', blit d mX mY o oX oY oW oH = .ok d' →
      d'.width = d.width ∧ d'.height = d.height ∧
      d'.pixels.length = d.pixels.length ∧ d'.alpha.length = d.alpha.length ∧
      ∀ px py : Nat, px < d.width → py < d.height →
        ¬ (mX ≤ px ∧ (px : Int) < mX + oW ∧ mY ≤ py ∧ (py : Int) < mY + oH) →
        d'.opacityAt px py = d.opacityAt px py ∧ d'.rgbAt px py = d.rgbAt px py := by
  obtain ⟨hoX, hoY, hoW, hoH, hmX, hmY, hmW, hmH⟩ := hr
  by_cases hpos : oW ≤ 0 ∨ oH ≤ 0
  · rw [blit_empty_rect d o mX mY oX oY oW oH hpos]
    refine ⟨fun _ => ⟨d, rfl⟩, ?_⟩
    intro d' hd'
    cases hd'
    exact ⟨rfl, rfl, rfl, rfl, fun _ _ _ _ _ => ⟨rfl, rfl⟩⟩
  rw [blit_eq_loops d o mX mY oX oY oW oH hmX hmY hoX hoY]
  have b1 : oX.toNat + oW.toNat ≤ o.width := by omega
  have b2 : oY.toNat + oH.toNat ≤ o.height := by omega
  have b3 : mX.toNat + oW.toNat ≤ d.width := by omega
  have b4 : mY.toNat + oH.toNat ≤ d.height := by omega
  refine ⟨fun hsmall => blit_loops_total d o _ _ _ _ _ _ ho hof hd hdf b1 b2 b3 b4 hsmall, ?_⟩
  intro d' hrun
  obtain ⟨hw, hh, hpl, hal, -, hB⟩ :=
    blit_loops_ok d o d' _ _ _ _ _ _ ho hof hd hdf b1 b2 b3 b4 hrun
  refine ⟨hw, hh, hpl, hal, ?_⟩
  intro px py hpx hpy hout
  have hne : ∀ x' y', x' < oW.toNat → y' < oH.toNat →
      y' * oW.toNat + x' < oH.toNat * oW.toNat →
      o.alpha[(oY.toNat + y') * o.width + (oX.toNat + x')]? = some true →
      py * d.width + px ≠ (mY.toNat + y') * d.width + (mX.toNat + x') := by
    intro x' y' hx' hy' _ _ e
    have := index_inj px py (mX.toNat + x') (mY.toNat + y') d.width hpx (by omega) e
    apply hout
    omega
  obtain ⟨h1, h2⟩ := hB _ hne
  refine ⟨?_, ?_⟩
  · show d'.alpha[_]? = d.alpha[_]?
    rw [hw]; exact h1
  · apply rgbAt_congr
    intro k hk
    rw [hw]; exact h2 k hk
/-! ## `blit`: the contract -/

/-- Claim C1, amended.  For a destination and a source canvas that satisfy the
buffer-length invariant, a source whose pixel buffer is shorter than `2^31`
bytes, and a rectangle in range of both: `blit` ends with a result, in which
every offset `(x, y)` of the rectangle whose source pixel is opaque has an opaque
destination pixel with the source's RGB bytes, and every offset whose source
pixel is transparent has the destination pixel it had before the call. -/
theorem blit_copies_opaque_skips_transparent (d o : Bitmap) (mX mY oX oY oW oH : Int)
    (hd : d.lengthsOk) (ho : o.lengthsOk) (hdf : d.fits) (hof : o.fits)
    (hr : blitInRange d mX mY o oX oY oW oH)
    (hsmall : o.pixels.length < 2147483648) :
    ∃ d', blit d mX mY o oX oY oW oH = .ok d' ∧
      ∀ x y : Nat, (x : Int) < oW → (y : Int) < oH →
        match o.opacityAt (oX.toNat + x) (oY.toNat + y) with
        | some true =>
          d'.opacityAt (mX.toNat + x) (mY.toNat + y) = some true ∧
          d'.rgbAt (mX.toNat + x) (mY.toNat + y) = o.rgbAt (oX.toNat + x) (oY.toNat + y) ∧
          (o.rgbAt (oX.toNat + x) (oY.toNat + y)).isSome = true
        | some false =>
          d'.opacityAt (mX.toNat + x) (mY.toNat + y)
            = d.opacityAt (mX.toNat + x) (mY.toNat + y) ∧
          d'.rgbAt (mX.toNat + x) (mY.toNat + y) = d.rgbAt (mX.toNat + x) (mY.toNat + y)
        | none => False := by
  obtain ⟨htotal, hpix⟩ := blit_pixels_ok d o mX mY oX oY oW oH hd ho hdf hof hr
  obtain ⟨d', hd'⟩ := htotal hsmall
  exact ⟨d', hd', hpix d' hd'⟩

/-- Counterexample to C1 as stated: `bigSource` and the blank 1 × 1 canvas
satisfy the buffer-length invariant, the 1 × 1 rectangle at `(26754, 26754)` is
in range of both and its source pixel is opaque, but the call has no result:
the `int` product `oOffset * 3` overflows, so no destination pixel is shown to
receive the source's bytes. -/
theorem blit_opaque_pixel_no_result :
    (Bitmap.blank 1 1).lengthsOk ∧ bigSource.lengthsOk ∧
    blitInRange (Bitmap.blank 1 1) 0 0 bigSource 26754 26754 1 1 ∧
    bigSource.opacityAt 26754 26754 = some true ∧
    ∀ d', blit (Bitmap.blank 1 1) 0 0 bigSource 26754 26754 1 1 ≠ .ok d' := by
  refine ⟨by decide, bigSource_lengthsOk, ?_, ?_, ?_⟩
  · unfold blitInRange
    rw [bigSource_width, bigSource_height]
    decide
  · unfold Bitmap.opacityAt
    rw [bigSource_width]
    exact bigSource_last_opaque
  · intro d' h
    rw [blit_bigSource] at h
    cases h

/-- Claim C2, amended.  For an in-range `blit` call whose destination and source
are two different canvases of the program, both satisfying the buffer-length
invariant, the source with a pixel buffer shorter than `2^31` bytes: the call
ends with a result; the source canvas and every canvas other than the
destination are as they were before the call; the destination keeps its width
and height, the lengths of both buffers, and the opacity flag and RGB bytes of
every pixel outside the target rectangle. -/
theorem blit_frame (objs : List Bitmap) (self other : Nat) (d o : Bitmap)
    (mX mY oX oY oW oH : Int)
    (hne : self ≠ other) (hself : objs[self]? = some d) (hother : objs[other]? = some o)
    (hd : d.lengthsOk) (ho : o.lengthsOk) (hdf : d.fits) (hof : o.fits)
    (hr : blitInRange d mX mY o oX oY oW oH)
    (hsmall : o.pixels.length < 2147483648) :
    ∃ (objs' : List Bitmap) (d' : Bitmap),
      blitRef self other mX mY oX oY oW oH objs = .ok objs' ∧
      objs'[other]? = some o ∧
      (∀ k, k ≠ self → objs'[k]? = objs[k]?) ∧
      objs'.length = objs.length ∧
      objs'[self]? = some d' ∧
      d'.width = d.width ∧ d'.height = d.height ∧
      d'.pixels.length = d.pixels.length ∧ d'.alpha.length = d.alpha.length ∧
      ∀ px py : Nat, px < d.width → py < d.height →
        ¬ (mX ≤ px ∧ (px : Int) < mX + oW ∧ mY ≤ py ∧ (py : Int) < mY + oH) →
        d'.opacityAt px py = d.opacityAt px py ∧ d'.rgbAt px py = d.rgbAt px py := by
  obtain ⟨htotal, hframe⟩ := blit_frame_ok d o mX mY oX oY oW oH hd ho hdf hof hr
  obtain ⟨d', hd'⟩ := htotal hsmall
  obtain ⟨h1, h2, h3, h4, h5⟩ := hframe d' hd'
  have hlt : self < objs.length := by
    by_contra hge
    rw [List.getElem?_eq_none (by omega)] at hself
    cases hself
  refine ⟨objs.set self d', d', ?_, ?_, ?_, List.length_set _ _ _, ?_, h1, h2, h3, h4, h5⟩
  · rw [blitRef_distinct objs self other d o mX mY oX oY oW oH hne hself hother, hd']
    rfl
  · rw [List.getElem?_set_ne hne]
    exact hother
  · intro k hk
    exact List.getElem?_set_ne (Ne.symm hk)
  · exact List.getElem?_set_self hlt

/-- Counterexample to C2 as stated: the call `c.blit(1, 0, c, 0, 0, 1, 1)` on the
2 × 1 canvas `c = redAndClear` is in range, and its source, which is `c` itself,
is not unchanged: the call turns it into `redAndRed`.  And the in-range call that
copies the last pixel of `bigSource`, a canvas other than the destination, has
no result. -/
theorem blit_same_canvas_changes_source :
    redAndClear.lengthsOk ∧
    blitInRange redAndClear 1 0 redAndClear 0 0 1 1 ∧
    blitRef 0 0 1 0 0 0 1 1 [redAndClear] = .ok [redAndRed] ∧
    redAndRed ≠ redAndClear ∧
    blitInRange (Bitmap.blank 1 1) 0 0 bigSource 26754 26754 1 1 ∧
    blitRef 0 1 0 0 26754 26754 1 1 [Bitmap.blank 1 1, bigSource] = .error .undefined := by
  refine ⟨by decide, by decide, by decide, by decide, ?_, ?_⟩
  · unfold blitInRange
    rw [bigSource_width, bigSource_height]
    decide
  · rw [blitRef_distinct [Bitmap.blank 1 1, bigSource] 0 1 (Bitmap.blank 1 1) bigSource
      0 0 26754 26754 1 1 (by decide) rfl rfl, blit_bigSource]
    rfl

/-- Claim C4 (as amended).  For every width `w` and height `h` the canvas
`Bitmap(w, h)` has width `w`, height `h`, a pixel buffer of `(w * h * 3) mod 2^32`
zero bytes and an opacity buffer of `(w * h) mod 2^32` false flags; these are
`w * h * 3` bytes and `w * h` flags when `w * h * 3 < 2^32`. -/
theorem blank_canvas_sizes (w h : Nat) :
    (Bitmap.blank w h).width = w ∧ (Bitmap.blank w h).height = h ∧
    (Bitmap.blank w h).pixels = List.replicate ((w * h * 3) % 4294967296) 0 ∧
    (Bitmap.blank w h).alpha = List.replicate ((w * h) % 4294967296) false ∧
    (w * h * 3 < 4294967296 →
      (Bitmap.blank w h).pixels = List.replicate (w * h * 3) 0 ∧
      (Bitmap.blank w h).alpha = List.replicate (w * h) false) :=
  blank_sizes w h

/-- Claim C4 as stated fails: `Bitmap(65536, 65536)` has width and height 65536
and empty buffers, not buffers of `65536 * 65536 * 3` bytes and `65536 * 65536`
flags. -/
theorem blank_canvas_wraps :
    (Bitmap.blank 65536 65536).width = 65536 ∧ (Bitmap.blank 65536 65536).height = 65536 ∧
    (Bitmap.blank 65536 65536).pixels = [] ∧ (Bitmap.blank 65536 65536).alpha = [] ∧
    ¬ ((Bitmap.blank 65536 65536).pixels.length = 65536 * 65536 * 3 ∧
       (Bitmap.blank 65536 65536).alpha.length = 65536 * 65536) := by
  refine ⟨rfl, rfl, by decide, by decide, ?_⟩
  have : (Bitmap.blank 65536 65536).pixels = [] := by decide
  rw [this]
  intro h
  exact absurd h.1 (by decide)

/-! ## The decoders -/

/-- Claim C6.  A successful XYZ decode has inflated the bytes after the header to
a 768-byte palette followed by `width * height` index bytes, and every pixel
`(x, y)` of the result has opacity `idx != 0` and the RGB bytes
`palette[idx*3], palette[idx*3+1], palette[idx*3+2]`, where `idx` is the index
byte at position `y * width + x`. -/
theorem readFromXyz_pixels (inflate : List Byte → Option (List Byte)) (file : List Byte)
    (c : Bitmap) (h : readFromXyz inflate file = .ok c) :
    ∃ data : List Byte, inflate (file.drop 8) = some data ∧
      c.width = leValue ((file.drop 4).take 2) ∧
      c.height = leValue ((file.drop 6).take 2) ∧
      (data.take (256 * 3)).length = 256 * 3 ∧
      (data.drop (256 * 3)).length = c.width * c.height ∧
      ∀ x y, x < c.width → y < c.height →
        ∃ idx r g b : Byte,
          (data.drop (256 * 3))[y * c.width + x]? = some idx ∧
          (data.take (256 * 3))[idx.val * 3]? = some r ∧
          (data.take (256 * 3))[idx.val * 3 + 1]? = some g ∧
          (data.take (256 * 3))[idx.val * 3 + 2]? = some b ∧
          c.opacityAt x y = some (idx != 0) ∧
          c.rgbAt x y = some (r, g, b) := by
  obtain ⟨data, -, -, hinf, hw, hh, hlen, -, -, hpix⟩ := readFromXyz_ok inflate file c h
  refine ⟨data, hinf, hw, hh, ?_, ?_, ?_⟩
  · rw [List.length_take]; omega
  · rw [List.length_drop]; omega
  · intro x y hx hy
    obtain ⟨idx, hidx, hi3, ha, hp⟩ := hpix x y hx hy
    have hlt := idx.isLt
    have g0 : idx.val * 3 < data.length := by omega
    have g1 : idx.val * 3 + 1 < data.length := by omega
    have g2 : idx.val * 3 + 2 < data.length := by omega
    refine ⟨idx, data[idx.val * 3], data[idx.val * 3 + 1], data[idx.val * 3 + 2], ?_, ?_, ?_,
      ?_, ha, ?_⟩
    · rw [List.getElem?_drop, ← Nat.add_assoc]; exact hidx
    · rw [List.getElem?_take_of_lt (by omega)]; exact List.getElem?_eq_getElem g0
    · rw [List.getElem?_take_of_lt (by omega)]; exact List.getElem?_eq_getElem g1
    · rw [List.getElem?_take_of_lt (by omega)]; exact List.getElem?_eq_getElem g2
    · apply rgbAt_eq_some
      · rw [← List.getElem?_eq_getElem g0]; exact hp 0 (by omega)
      · rw [← List.getElem?_eq_getElem g1]; exact hp 1 (by omega)
      · rw [← List.getElem?_eq_getElem g2]; exact hp 2 (by omega)

/-- Claim C7.  A successful BMP decode, with height field `hf` and height `|hf|`:
every pixel `(x, y)` of the result takes its index byte `idx` from stored row `y`
when `hf` is negative and from stored row `height - 1 - y` otherwise, the rows
being read contiguously from the pixel-data offset; it has opacity `idx != 0` and
RGB `(palette[idx*4+2], palette[idx*4+1], palette[idx*4])`. -/
theorem readFromBmp_pixels (file : List Byte) (c : Bitmap) (h : readFromBmp file = .ok c) :
    ∃ (hf : Int) (palette bmpPixels : List Byte),
      hf = toInt (leValue ((file.drop 22).take 4)) ∧
      c.height = hf.natAbs ∧
      bmpPixels = (file.drop (leValue ((file.drop 10).take 4))).take (c.width * c.height) ∧
      (∃ n, palette = (file.drop (wrapU (leValue ((file.drop 14).take 4) + 14))).take (n * 4)) ∧
      ∀ x y, x < c.width → y < c.height →
        ∃ idx r g b : Byte,
          bmpPixels[(if hf < 0 then y else c.height - 1 - y) * c.width + x]? = some idx ∧
          palette[idx.val * 4 + 2]? = some r ∧
          palette[idx.val * 4 + 1]? = some g ∧
          palette[idx.val * 4 + 0]? = some b ∧
          c.opacityAt x y = some (idx != 0) ∧
          c.rgbAt x y = some (r, g, b) := by
  obtain ⟨hf, n, -, hhf, -, -, -, hh, -, -, -, -, -, -, -, hpix⟩ := readFromBmp_ok file c h
  refine ⟨hf, _, _, hhf, hh, rfl, ⟨n, rfl⟩, ?_⟩
  intro x y hx hy
  obtain ⟨idx, r, g, b, hidx, hr, hg, hb, ha, h0, h1, h2⟩ := hpix x y hx hy
  exact ⟨idx, r, g, b, hidx, hr, hg, hb, ha, rgbAt_eq_some c x y r g b h0 h1 h2⟩

/-- Claim C8.  A PNG whose decoded colour type is RGBA, with 8-bit rows from
libpng: every pixel `(x, y)` of the result of the decode has opacity
`rows[y][x*4+3] != 0` and the RGB bytes `rows[y][x*4], rows[y][x*4+1],
rows[y][x*4+2]`.  The decode yields a result when the file carries the PNG
signature, the dimensions are not zero and `width * height * 3 < 2^32`. -/
theorem readFromPng_rgba_pixels (libpng : List Byte → Option PngInfo) (content : List Byte)
    (info : PngInfo)
    (hlib : libpng content = some info)
    (hct : info.colorType = PNG_COLOR_TYPE_RGBA)
    (hwf : info.fromLibpng) :
    (content.take 8 = pngSignature → info.width ≠ 0 → info.height ≠ 0 →
      info.width * info.height * 3 < 4294967296 →
      ∃ c, readFromPng libpng (some content) = .ok c) ∧
    ∀ c, readFromPng libpng (some content) = .ok c →
      c.width = info.width ∧ c.height = info.height ∧
      ∀ x y, x < info.width → y < info.height →
        ∃ (row : List Byte) (r g b al : Byte), info.rows[y]? = some row ∧
          row[x * 4]? = some r ∧ row[x * 4 + 1]? = some g ∧ row[x * 4 + 2]? = some b ∧
          row[x * 4 + 3]? = some al ∧
          c.opacityAt x y = some (al != 0) ∧
          c.rgbAt x y = some (r, g, b) := by
  refine ⟨fun hsig hw hh hfit =>
    readFromPng_rgba_total libpng content info hlib hct hwf hsig hw hh hfit, ?_⟩
  intro c h
  obtain ⟨hcw, hch, hpix⟩ := readFromPng_rgba_ok libpng content info c hlib hct hwf.2.1 h
  refine ⟨hcw, hch, fun x y hx hy => ?_⟩
  obtain ⟨row, al, hrow, hrl, hal, ha, hp⟩ := hpix x y hx hy
  have g0 : x * 4 < row.length := by omega
  have g1 : x * 4 + 1 < row.length := by omega
  have g2 : x * 4 + 2 < row.length := by omega
  refine ⟨row, row[x * 4], row[x * 4 + 1], row[x * 4 + 2], al, hrow,
    List.getElem?_eq_getElem g0, List.getElem?_eq_getElem g1, List.getElem?_eq_getElem g2,
    hal, ?_, ?_⟩
  · show c.alpha[_]? = _
    rw [hcw]; exact ha
  · apply rgbAt_eq_some
    · rw [hcw, ← List.getElem?_eq_getElem g0]; exact hp 0 (by omega)
    · rw [hcw, ← List.getElem?_eq_getElem g1]; exact hp 1 (by omega)
    · rw [hcw, ← List.getElem?_eq_getElem g2]; exact hp 2 (by omega)

/-- Claim C9 fails on the code: the case `PNG_COLOR_TYPE_GRAY_ALPHA` has no
`break`, so after its loop the `default` case sets `error`, and decoding a
well-formed 1 × 1 grayscale+alpha image throws `unknown image type`. -/
theorem readFromPng_grayAlpha_throws :
    grayAlphaSampleInfo.colorType = PNG_COLOR_TYPE_GRAY_ALPHA ∧
    grayAlphaSampleInfo.width = 1 ∧ grayAlphaSampleInfo.height = 1 ∧
    readFromPng (fun _ => some grayAlphaSampleInfo) (some pngSignature)
      = .error (.thrown "unknown image type") := by
  decide

/-! ## The buffer-length invariant -/

/-- Claim C5 (as amended).  The buffer-length invariant holds for the canvas
that `Bitmap()` constructs, for every blank canvas `Bitmap(w, h)` with
`w * h * 3 < 2^32`, and for the result of every successful XYZ, BMP and PNG
decode; every `blit` call that ends with a result leaves `width`, `height` and
the length of both buffers as they were, and so preserves the invariant. -/
theorem lengths_invariant :
    Bitmap.empty.lengthsOk ∧
    (∀ w h, w * h * 3 < 4294967296 → (Bitmap.blank w h).lengthsOk) ∧
    (∀ inflate file c, readFromXyz inflate file = .ok c → c.lengthsOk) ∧
    (∀ file c, readFromBmp file = .ok c → c.lengthsOk) ∧
    (∀ libpng file c, (∀ content info, libpng content = some info → info.fromLibpng) →
      readFromPng libpng file = .ok c → c.lengthsOk) ∧
    (∀ d mX mY o oX oY oW oH d', blit d mX mY o oX oY oW oH = .ok d' →
      d'.width = d.width ∧ d'.height = d.height ∧
      d'.pixels.length = d.pixels.length ∧ d'.alpha.length = d.alpha.length ∧
      (d.lengthsOk → d'.lengthsOk)) := by
  refine ⟨⟨rfl, rfl⟩, ?_, ?_, ?_, ?_, ?_⟩
  · intro w h hfit
    obtain ⟨-, -, -, -, hb⟩ := blank_sizes w h
    obtain ⟨hp, ha⟩ := hb hfit
    exact ⟨by rw [hp, List.length_replicate]; rfl, by rw [ha, List.length_replicate]; rfl⟩
  · intro inflate file c h
    obtain ⟨_, -, -, -, -, -, -, hl, -, -⟩ := readFromXyz_ok inflate file c h
    exact hl
  · intro file c h
    obtain ⟨_, _, -, -, -, -, -, -, -, -, -, -, -, hl, -, -⟩ := readFromBmp_ok file c h
    exact hl
  · intro libpng file c hlim h
    exact (readFromPng_lengths libpng file c h
      (fun content info hlib => (hlim content info hlib).2.1)).1
  · intro d mX mY o oX oY oW oH d' h
    obtain ⟨h1, h2, h3, h4⟩ := blit_lengths d o mX mY oX oY oW oH d' h
    refine ⟨h1, h2, h3, h4, ?_⟩
    intro hd
    unfold Bitmap.lengthsOk at hd ⊢
    rw [h1, h2, h3, h4]
    exact hd

/-- Claim C5 as stated fails: the blank canvas `Bitmap(1431655766, 1)` has a
pixel buffer of 2 bytes, not of `1431655766 * 1 * 3`. -/
theorem blank_lengths_wrap :
    (Bitmap.blank 1431655766 1).pixels.length = 2 ∧
    ¬ (Bitmap.blank 1431655766 1).lengthsOk := by
  have h : (Bitmap.blank 1431655766 1).pixels.length = 2 := by
    show (List.replicate _ _).length = 2
    rw [List.length_replicate]
    decide
  refine ⟨h, ?_⟩
  intro hl
  have := hl.1
  rw [h] at this
  exact absurd this (by decide)

/-! ## Writing and reading back -/

/-- Claim C10, amended.  For a canvas that satisfies the buffer-length invariant,
has a non-zero width and height within libpng's limits and a pixel buffer of at
most `2^31 + 2` bytes, when the file opens and libpng reports no error:
`writeToPng` hands its rows to the PNG library, and these rows, run through the
RGBA case of `readFromPng` with the same width and height, give back the canvas
itself: the same opacity flags and RGB bytes for every pixel; so does
`readFromPng` itself on a file from which libpng hands back those rows.  The
alpha byte of each pixel in those rows is 255 when the pixel is opaque and 0 when
it is transparent. -/
theorem writeToPng_readFromPng_roundtrip (b : Bitmap) (env : PngWriter)
    (hl : b.lengthsOk) (henv : env.succeeds)
    (hdim : pngCheckIHDR b.width b.height = true)
    (hsmall : b.pixels.length ≤ 2147483650) :
    ∃ rows, writeToPng b env = .ok rows ∧
      pngSwitch
        { width := b.width, height := b.height, colorType := PNG_COLOR_TYPE_RGBA,
          rows := rows, palette := [] } ""
        { width := b.width
          height := b.height
          pixels := List.replicate (wrapU (b.width * b.height * 3)) 0
          alpha := List.replicate (wrapU (b.width * b.height)) false } = .ok ("", b) ∧
      (∀ libpng content, content.take 8 = pngSignature →
        libpng content = some
          { width := b.width, height := b.height, colorType := PNG_COLOR_TYPE_RGBA,
            rows := rows, palette := [] } →
        readFromPng libpng (some content) = .ok b) ∧
      (∀ x y, x < b.width → y < b.height →
        ∃ (row : List Byte) (al : Byte), rows[y]? = some row ∧ row[x * 4 + 3]? = some al ∧
          ((b.opacityAt x y = some true ∧ al = 255) ∨
           (b.opacityAt x y = some false ∧ al = 0))) := by
  obtain ⟨hw0, hh0, hf⟩ := fits_of_checkIHDR b hl hdim hsmall
  obtain ⟨rows, h⟩ := writeToPng_total b env hl henv hdim hsmall
  refine ⟨rows, h, ?_⟩
  obtain ⟨hlen, hrows⟩ := writeToPng_rows b env rows h
  have hsw : pngSwitch
      { width := b.width, height := b.height, colorType := PNG_COLOR_TYPE_RGBA,
        rows := rows, palette := [] } ""
      { width := b.width
        height := b.height
        pixels := List.replicate (wrapU (b.width * b.height * 3)) 0
        alpha := List.replicate (wrapU (b.width * b.height)) false } = .ok ("", b) := by
    have := rgba_of_written_rows b rows hl hf hrows
    simp only [pngSwitch, PNG_COLOR_TYPE_RGBA, PNG_COLOR_TYPE_PALETTE, PNG_COLOR_TYPE_RGB,
      Nat.reduceEqDiff, if_false, if_true, this, ok_bind]
    rfl
  refine ⟨hsw, ?_, ?_⟩
  · intro libpng content hsig hlib
    exact readFromPng_of_switch libpng content _ b hlib hsig hw0 hh0 hsw
  · intro x y hx hy
    obtain ⟨row, hrow, -, -, hrx⟩ := hrows y hy
    obtain ⟨a, ha, -, -, h3, -⟩ := hrx x hx
    have hi := index_lt x y b.width b.height hx hy
    have hfit : b.width * b.height * 3 < 4294967296 := by
      have := hl.1
      have := hf.2.2.1
      omega
    rw [Nat.mod_eq_of_lt (by omega)] at ha
    refine ⟨row, _, hrow, h3, ?_⟩
    cases a with
    | true => exact Or.inl ⟨ha, rfl⟩
    | false => exact Or.inr ⟨ha, rfl⟩

/-- Counterexample to C10 as stated: the 716 × 1000000 canvas `wideCanvas`
satisfies the buffer-length invariant and libpng accepts its dimensions, but
`writeToPng` produces no rows to decode: the `int` pixel offset
`(y * width + x) * 3` leaves the `int` range in row 999759. -/
theorem writeToPng_wide_canvas_overflows :
    wideCanvas.lengthsOk ∧ wideCanvas.fits ∧
    pngCheckIHDR wideCanvas.width wideCanvas.height = true ∧
    quietWriter.succeeds ∧
    writeToPng wideCanvas quietWriter = .error .undefined :=
  ⟨wideCanvas_lengthsOk, wideCanvas_fits, by decide, ⟨rfl, rfl, fun _ => rfl⟩,
    writeToPng_overflow wideCanvas quietWriter wideCanvas_lengthsOk wideCanvas_fits
      ⟨rfl, rfl, fun _ => rfl⟩ (by decide)
      (by rw [wideCanvas_pixels, List.length_replicate]; norm_num)⟩

/-! ## The rows written by `writeToPng` -/

/-- Claim C11, amended.  For a canvas that satisfies the buffer-length invariant,
has a non-zero width and height within libpng's limits and a pixel buffer of at
most `2^31 + 2` bytes, when the file opens and libpng reports no error:
`writeToPng` hands the PNG library one row for every `y < height`; the row has
length `width * 4`; for every `x < width` its bytes `x*4 .. x*4+2` are the R, G,
B bytes of pixel `(x, y)` of the canvas and its byte `x*4+3` is 255 when the
pixel is opaque and 0 when it is transparent, so no other alpha value is
written. -/
theorem writeToPng_row_layout (b : Bitmap) (env : PngWriter)
    (hl : b.lengthsOk) (henv : env.succeeds)
    (hdim : pngCheckIHDR b.width b.height = true)
    (hsmall : b.pixels.length ≤ 2147483650) :
    ∃ rows, writeToPng b env = .ok rows ∧
      rows.length = b.height ∧
      ∀ y, y < b.height → ∃ row, rows[y]? = some row ∧ row.length = b.width * 4 ∧
        ∀ x, x < b.width → ∃ (r g bl : Byte) (a : Bool),
          b.rgbAt x y = some (r, g, bl) ∧ b.opacityAt x y = some a ∧
          row[x * 4]? = some r ∧ row[x * 4 + 1]? = some g ∧ row[x * 4 + 2]? = some bl ∧
          row[x * 4 + 3]? = some (if a then 255 else 0) := by
  obtain ⟨-, -, hf⟩ := fits_of_checkIHDR b hl hdim hsmall
  obtain ⟨rows, h⟩ := writeToPng_total b env hl henv hdim hsmall
  obtain ⟨hlen, hrows⟩ := writeToPng_rows b env rows h
  refine ⟨rows, h, hlen, ?_⟩
  intro y hy
  obtain ⟨row, hr, hrow⟩ := hrows y hy
  obtain ⟨h1, h2⟩ := rowHolds_layout b hl hf y row hy hrow
  exact ⟨row, hr, h1, h2⟩

/-- Counterexample to C11 as stated: the 1000000 × 716 canvas `tallCanvas`
satisfies the buffer-length invariant and libpng accepts its dimensions, but for
the pixels from `(827883, 715)` on the `int` offset `(y * width + x) * 3` is
above `2^31 - 1`: the bytes that `std::copy` reads for the row buffer are not
those of the pixel, and `writeToPng` has no defined rows. -/
theorem writeToPng_tall_canvas_overflows :
    tallCanvas.lengthsOk ∧ tallCanvas.fits ∧
    pngCheckIHDR tallCanvas.width tallCanvas.height = true ∧
    quietWriter.succeeds ∧
    2147483647 < (715 * tallCanvas.width + 827883) * 3 ∧
    writeToPng tallCanvas quietWriter = .error .undefined :=
  ⟨tallCanvas_lengthsOk, tallCanvas_fits, by decide, ⟨rfl, rfl, fun _ => rfl⟩, by decide,
    writeToPng_overflow tallCanvas quietWriter tallCanvas_lengthsOk tallCanvas_fits
      ⟨rfl, rfl, fun _ => rfl⟩ (by decide)
      (by rw [tallCanvas_pixels, List.length_replicate]; norm_num)⟩

/-! ## Errors of `readFromXyz` -/

/-- Claim C12.  `readFromXyz` ends with the error "not a valid XYZ file" for every
input whose first four bytes are not `XYZ1`, and for every input that starts with
`XYZ1` and is exactly 8 bytes long (nothing follows the header); in both cases
the run is an error, so no canvas comes out of it. -/
theorem readFromXyz_format_errors (inflate : List Byte → Option (List Byte))
    (file : List Byte) :
    (4 ≤ file.length → file.take 4 ≠ xyzMagicNumber →
      readFromXyz inflate file = .error (.thrown "not a valid XYZ file")) ∧
    (file.length = 8 → file.take 4 = xyzMagicNumber →
      readFromXyz inflate file = .error (.thrown "not a valid XYZ file")) := by
  refine ⟨readFromXyz_bad_magic inflate file, ?_⟩
  intro hlen hmagic
  rw [readFromXyz_after_header inflate file (by omega) hmagic, if_pos (by omega)]

/-- Claim C13.  For an XYZ input with a valid header (the `XYZ1` magic, the two
dimension fields, and at least one byte after them), with `width` and `height`
the fields at offsets 4 and 6: when zlib reports an error on the bytes after the
header, `readFromXyz` ends with "zlib error"; when zlib yields more than
`256*3 + width*height` bytes, it ends with "zlib error"; when zlib yields fewer,
it ends with "uncompressed image data too small"; and whenever `readFromXyz`
ends with a canvas, zlib has given exactly `256*3 + width*height` bytes. -/
theorem readFromXyz_zlib_size (inflate : List Byte → Option (List Byte))
    (file : List Byte) (hlen : 8 < file.length) (hmagic : file.take 4 = xyzMagicNumber) :
    (inflate (file.drop 8) = none →
      readFromXyz inflate file = .error (.thrown "zlib error")) ∧
    (∀ out, inflate (file.drop 8) = some out →
      256 * 3 + leValue ((file.drop 4).take 2) * leValue ((file.drop 6).take 2) < out.length →
      readFromXyz inflate file = .error (.thrown "zlib error")) ∧
    (∀ out, inflate (file.drop 8) = some out →
      out.length < 256 * 3 + leValue ((file.drop 4).take 2) * leValue ((file.drop 6).take 2) →
      readFromXyz inflate file = .error (.thrown "uncompressed image data too small")) ∧
    (∀ b, readFromXyz inflate file = .ok b →
      ∃ out, inflate (file.drop 8) = some out ∧
        out.length =
          256 * 3 + leValue ((file.drop 4).take 2) * leValue ((file.drop 6).take 2)) := by
  have hrun := readFromXyz_after_header inflate file (by omega) hmagic
  rw [if_neg (by omega)] at hrun
  refine ⟨?_, ?_, ?_, ?_⟩
  · intro hnone
    rw [hrun]
    simp only [uncompress, hnone]
  · intro out hout hbig
    rw [hrun]
    simp only [uncompress, hout, List.length_replicate]
    rw [if_neg (by omega)]
  · intro out hout hsmall
    rw [hrun]
    simp only [uncompress, hout, List.length_replicate]
    rw [if_pos (by omega)]
    simp only [List.length_append, List.length_drop, List.length_replicate]
    rw [if_pos (by omega)]
  · intro b hb
    rw [hrun] at hb
    cases hi : inflate (file.drop 8) with
    | none =>
      simp only [uncompress, hi] at hb
      exact absurd hb (by simp)
    | some out =>
      refine ⟨out, rfl, ?_⟩
      simp only [uncompress, hi, List.length_replicate] at hb
      by_cases hle : out.length ≤ 256 * 3 +
          leValue ((file.drop 4).take 2) * leValue ((file.drop 6).take 2)
      · rw [if_pos hle] at hb
        simp only [List.length_append, List.length_drop, List.length_replicate] at hb
        by_cases hs : out.length = out.length + (256 * 3 +
            leValue ((file.drop 4).take 2) * leValue ((file.drop 6).take 2) - out.length)
        · omega
        · rw [if_pos hs] at hb
          exact absurd hb (by simp)
      · rw [if_neg hle] at hb
        exact absurd hb (by simp)

/-! ## Errors of `readFromBmp` -/

/-- Claim C14, amended.  `readFromBmp` ends with "not a valid BMP file" for every
input whose first two bytes are not `BM`.  For an input that starts with `BM`,
has a non-zero width field and a height field that is neither 0 nor `-2^31`, it
ends with "number of BMP planes is not 1" when the 2-byte field at offset 26 is
not 1, with "BMP is not 8-bit" when that field is 1 and the 2-byte field at
offset 28 is not 8, and with "BMP is compressed" when those fields are 1 and 8
and the 4-byte field at offset 30 is not 0. -/
theorem readFromBmp_header_errors (file : List Byte) :
    (2 ≤ file.length → file.take 2 ≠ bmpMagicNumber →
      readFromBmp file = .error (.thrown "not a valid BMP file")) ∧
    (file.take 2 = bmpMagicNumber →
      leValue ((file.drop 18).take 4) ≠ 0 →
      toInt (leValue ((file.drop 22).take 4)) ≠ 0 →
      toInt (leValue ((file.drop 22).take 4)) ≠ -2147483648 →
      (28 ≤ file.length → leValue ((file.drop 26).take 2) ≠ 1 →
        readFromBmp file = .error (.thrown "number of BMP planes is not 1")) ∧
      (30 ≤ file.length → leValue ((file.drop 26).take 2) = 1 →
        leValue ((file.drop 28).take 2) ≠ 8 →
        readFromBmp file = .error (.thrown "BMP is not 8-bit")) ∧
      (34 ≤ file.length → leValue ((file.drop 26).take 2) = 1 →
        leValue ((file.drop 28).take 2) = 8 → leValue ((file.drop 30).take 4) ≠ 0 →
        readFromBmp file = .error (.thrown "BMP is compressed"))) := by
  refine ⟨readFromBmp_bad_magic file, ?_⟩
  intro hmagic hw hh hmin
  exact ⟨fun hlen hp => readFromBmp_planes file hlen hmagic hw hh hmin hp,
    fun hlen hp hb => readFromBmp_depth file hlen hmagic hw hh hmin hp hb,
    fun hlen hp hb hc => readFromBmp_compression file hlen hmagic hw hh hmin hp hb hc⟩

/-- Counterexample to C14 as stated: the file `bmpMinHeightFile` starts with `BM`,
has width 1, the height field `-2^31` (so neither field is zero) and the plane
count 0, and `readFromBmp` does not reach the plane count check: `abs(temp)` has
no value for `temp = -2^31`. -/
theorem readFromBmp_min_height_undefined :
    bmpMinHeightFile.take 2 = bmpMagicNumber ∧
    leValue ((bmpMinHeightFile.drop 18).take 4) = 1 ∧
    toInt (leValue ((bmpMinHeightFile.drop 22).take 4)) = -2147483648 ∧
    leValue ((bmpMinHeightFile.drop 26).take 2) = 0 ∧
    readFromBmp bmpMinHeightFile = .error .undefined := by
  refine ⟨by decide, by decide, by decide, by decide, ?_⟩
  decide

/-- Claim C15, as the code behaves.  The palette entry count that `readFromBmp`
checks and uses is the 4-byte field at offset 34, not the one at offset 46: the
file `bmpCountAt46File` has the count 2 at offset 46 and 1000 at offset 34 and is
rejected with "BMP header specifies more than 256 colors"; the file
`bmpCountAt34File` has the count 1000 at offset 46 and 2 at offset 34 and is
decoded with a palette of 2 entries. -/
theorem readFromBmp_palette_count_offset :
    leValue ((bmpCountAt46File.drop 46).take 4) = 2 ∧
    leValue ((bmpCountAt46File.drop 34).take 4) = 1000 ∧
    readFromBmp bmpCountAt46File
      = .error (.thrown "BMP header specifies more than 256 colors") ∧
    leValue ((bmpCountAt34File.drop 46).take 4) = 1000 ∧
    leValue ((bmpCountAt34File.drop 34).take 4) = 2 ∧
    readFromBmp bmpCountAt34File = .ok bmpSampleResult := by
  refine ⟨by decide, by decide, ?_, by decide, by decide, ?_⟩
  · decide
  · decide

/-- Claim C20, as the code behaves.  The file `bmpBadIndexFile` passes every
header check of `readFromBmp` (magic `BM`, width 1, height 2, one plane, 8 bits
per pixel, no compression, palette count 2), its pixel data holds the index
byte 5, and the lookup `palette[5 * 4 + 2]` lies outside the palette buffer of
`2 * 4` bytes: the access is out of bounds. -/
theorem readFromBmp_palette_lookup_unchecked :
    bmpBadIndexFile.take 2 = bmpMagicNumber ∧
    leValue ((bmpBadIndexFile.drop 18).take 4) = 1 ∧
    toInt (leValue ((bmpBadIndexFile.drop 22).take 4)) = 2 ∧
    leValue ((bmpBadIndexFile.drop 26).take 2) = 1 ∧
    leValue ((bmpBadIndexFile.drop 28).take 2) = 8 ∧
    leValue ((bmpBadIndexFile.drop 30).take 4) = 0 ∧
    leValue ((bmpBadIndexFile.drop 34).take 4) = 2 ∧
    leValue ((bmpBadIndexFile.drop 46).take 4) = 2 ∧
    (bmpBadIndexFile.drop 62).take 2 = [5, 0] ∧
    ¬ (5 * 4 + 2 < 2 * 4) ∧
    readFromBmp bmpBadIndexFile = .error .undefined := by
  refine ⟨by decide, by decide, by decide, by decide, by decide, by decide, by decide,
    by decide, by decide, by decide, ?_⟩
  decide

/-! ## `readFromPng`: colour types without an alpha channel -/

/-- Claim C16.  A PNG whose decoded colour type is palette-indexed: every pixel
`(x, y)` of the result of the decode has opacity `rows[y][x] != 0` and as RGB the
entry `rows[y][x]` of the PNG palette; so a pixel with index 0 is transparent.
The result is the same whatever the file's transparency chunk holds.  The decode
yields a result when the file carries the PNG signature, the dimensions are not
zero, `width * height * 3 < 2^32` and every index byte has a palette entry. -/
theorem readFromPng_palette_pixels (libpng : List Byte → Option PngInfo)
    (content : List Byte) (info : PngInfo)
    (hlib : libpng content = some info)
    (hct : info.colorType = PNG_COLOR_TYPE_PALETTE)
    (hwf : info.fromLibpng) :
    (content.take 8 = pngSignature → info.width ≠ 0 → info.height ≠ 0 →
      info.width * info.height * 3 < 4294967296 →
      (∀ row ∈ info.rows, ∀ idx ∈ row, idx.val < info.palette.length) →
      ∃ c, readFromPng libpng (some content) = .ok c) ∧
    (∀ c, readFromPng libpng (some content) = .ok c →
      c.width = info.width ∧ c.height = info.height ∧
      ∀ x y, x < info.width → y < info.height →
        ∃ (row : List Byte) (idx : Byte) (col : Byte × Byte × Byte),
          info.rows[y]? = some row ∧ row[x]? = some idx ∧
          info.palette[idx.val]? = some col ∧
          c.opacityAt x y = some (idx != 0) ∧ c.rgbAt x y = some col ∧
          (idx = 0 → c.opacityAt x y = some false)) ∧
    (∀ t, readFromPng (fun f => (libpng f).map (fun i => { i with trans := t }))
      (some content) = readFromPng libpng (some content)) := by
  refine ⟨fun hsig hw hh hfit hpal =>
    readFromPng_palette_total libpng content info hlib hct hwf hsig hw hh hfit hpal, ?_,
    fun t => readFromPng_ignores_trans libpng (some content) t⟩
  intro c h
  obtain ⟨hcw, hch, hpix⟩ := readFromPng_palette_ok libpng content info c hlib hct h
  refine ⟨hcw, hch, fun x y hx hy => ?_⟩
  obtain ⟨row, idx, col, hrow, hidx, hcol, ha, hp⟩ := hpix x y hx hy
  refine ⟨row, idx, col, hrow, hidx, hcol, ha, hp, ?_⟩
  intro h0
  rw [ha, h0]
  rfl

/-- Claim C17.  A PNG whose decoded colour type has no alpha channel: every pixel
of the result of the decode is opaque.  For colour type RGB the RGB bytes of
pixel `(x, y)` are `rows[y][x*3], rows[y][x*3+1], rows[y][x*3+2]`; for colour type
grayscale they are `(g, g, g)` with `g = rows[y][x]`.  The decode yields a result
when the file carries the PNG signature, the dimensions are not zero and
`width * height * 3` is below `2^32` (RGB) or below `2^31` (grayscale). -/
theorem readFromPng_opaque_pixels (libpng : List Byte → Option PngInfo)
    (content : List Byte) (info : PngInfo)
    (hlib : libpng content = some info)
    (hwf : info.fromLibpng) :
    (info.colorType = PNG_COLOR_TYPE_RGB →
      (content.take 8 = pngSignature → info.width ≠ 0 → info.height ≠ 0 →
        info.width * info.height * 3 < 4294967296 →
        ∃ c, readFromPng libpng (some content) = .ok c) ∧
      ∀ c, readFromPng libpng (some content) = .ok c →
        c.width = info.width ∧ c.height = info.height ∧
        ∀ x y, x < info.width → y < info.height →
          ∃ (row : List Byte) (r g b : Byte), info.rows[y]? = some row ∧
            row[x * 3]? = some r ∧ row[x * 3 + 1]? = some g ∧ row[x * 3 + 2]? = some b ∧
            c.opacityAt x y = some true ∧ c.rgbAt x y = some (r, g, b)) ∧
    (info.colorType = PNG_COLOR_TYPE_GRAY →
      (content.take 8 = pngSignature → info.width ≠ 0 → info.height ≠ 0 →
        info.width * info.height * 3 < 2147483648 →
        ∃ c, readFromPng libpng (some content) = .ok c) ∧
      ∀ c, readFromPng libpng (some content) = .ok c →
        c.width = info.width ∧ c.height = info.height ∧
        ∀ x y, x < info.width → y < info.height →
          ∃ (row : List Byte) (g : Byte), info.rows[y]? = some row ∧ row[x]? = some g ∧
            c.opacityAt x y = some true ∧ c.rgbAt x y = some (g, g, g)) := by
  refine ⟨fun hct => ⟨fun hsig hw hh hfit =>
      readFromPng_rgb_total libpng content info hlib hct hwf hsig hw hh hfit,
      fun c h => readFromPng_rgb_ok libpng content info c hlib hct hwf.2.1 h⟩,
    fun hct => ⟨fun hsig hw hh hfit =>
      readFromPng_gray_total libpng content info hlib hct hwf hsig hw hh hfit,
      fun c h => readFromPng_gray_ok libpng content info c hlib hct h⟩⟩

/-! ## The constructor `Bitmap(filename)` -/

/-- Claim C18.  The constructor `Bitmap(filename)` chooses the decoder by the
lower-cased text after the last `.` of the file name: `xyz` runs `readFromXyz`,
`png` runs `readFromPng`, `bmp` runs `readFromBmp`.  The letter case of the file
name does not matter.  A file name with no `.`, or with any other extension,
ends with the error "could not determine file type", whatever the files, zlib
and libpng are: no decoder runs. -/
theorem Bitmap_ofFile_dispatch (fs : List Byte → Option (List Byte))
    (inflate : List Byte → Option (List Byte)) (libpng : List Byte → Option PngInfo)
    (filename : List Byte) :
    (∀ stem ext, filename = stem ++ 46 :: ext → (46 : Byte) ∉ ext →
      Util.getExtension filename = Util.toLower ext) ∧
    ((46 : Byte) ∈ filename →
      ∃ stem ext, filename = stem ++ 46 :: ext ∧ (46 : Byte) ∉ ext) ∧
    ((46 : Byte) ∉ filename → Util.getExtension filename = []) ∧
    Util.getExtension (Util.toLower filename) = Util.getExtension filename ∧
    (Util.getExtension filename = ascii "xyz" →
      Bitmap.ofFile fs inflate libpng filename
        = openStream fs filename >>= readFromXyz inflate) ∧
    (Util.getExtension filename = ascii "png" →
      Bitmap.ofFile fs inflate libpng filename = readFromPng libpng (fs filename)) ∧
    (Util.getExtension filename = ascii "bmp" →
      Bitmap.ofFile fs inflate libpng filename = openStream fs filename >>= readFromBmp) ∧
    (Util.getExtension filename ≠ ascii "xyz" → Util.getExtension filename ≠ ascii "png" →
      Util.getExtension filename ≠ ascii "bmp" →
      Bitmap.ofFile fs inflate libpng filename
        = .error (.thrown "could not determine file type")) ∧
    ((46 : Byte) ∉ filename →
      Bitmap.ofFile fs inflate libpng filename
        = .error (.thrown "could not determine file type")) := by
  refine ⟨?_, exists_last_dot filename, getExtension_no_dot filename,
    getExtension_toLower filename, ?_, ?_, ?_, ?_, ?_⟩
  · intro stem ext hf hdot
    rw [hf]
    exact getExtension_append stem ext hdot
  · intro h
    unfold Bitmap.ofFile
    simp only [h, if_true]
  · intro h
    unfold Bitmap.ofFile
    simp only [h, if_true]
    rw [if_neg (by decide)]
  · intro h
    unfold Bitmap.ofFile
    simp only [h, if_true]
    rw [if_neg (by decide), if_neg (by decide)]
  · intro h1 h2 h3
    unfold Bitmap.ofFile
    simp only [h1, h2, h3, if_false]
    rfl
  · intro h
    unfold Bitmap.ofFile
    simp only [getExtension_no_dot filename h]
    rw [if_neg (by decide), if_neg (by decide), if_neg (by decide)]
    rfl

/-! ## Bounds of the accesses of `blit` -/

/-- Claim C19, amended.  For a destination and a source canvas that satisfy the
buffer-length invariant, a source whose pixel buffer is shorter than `2^31`
bytes, and a rectangle in range of both canvases: `blit` ends with a result, so
no access of the call is out of bounds; for every offset `(x, y)` of the
rectangle the `int` offsets `oOffset` and `mOffset` that the call computes are
the row-major indices of the source and the destination pixel, each opacity
index is below `width * height` of its canvas and each 3-byte pixel range ends
at or before `width * height * 3`. -/
theorem blit_in_bounds (d o : Bitmap) (mX mY oX oY oW oH : Int)
    (hd : d.lengthsOk) (ho : o.lengthsOk) (hdf : d.fits) (hof : o.fits)
    (hr : blitInRange d mX mY o oX oY oW oH)
    (hsmall : o.pixels.length < 2147483648) :
    (∃ d', blit d mX mY o oX oY oW oH = .ok d') ∧
    ∀ x y : Nat, (x : Int) < oW → (y : Int) < oH →
      toInt (wrapU ((oY + y) * o.width + oX + x))
        = (((oY.toNat + y) * o.width + (oX.toNat + x) : Nat) : Int) ∧
      toInt (wrapU ((mY + y) * d.width + mX + x))
        = (((mY.toNat + y) * d.width + (mX.toNat + x) : Nat) : Int) ∧
      (oY.toNat + y) * o.width + (oX.toNat + x) < o.width * o.height ∧
      ((oY.toNat + y) * o.width + (oX.toNat + x)) * 3 + 3 ≤ o.width * o.height * 3 ∧
      (mY.toNat + y) * d.width + (mX.toNat + x) < d.width * d.height ∧
      ((mY.toNat + y) * d.width + (mX.toNat + x)) * 3 + 3 ≤ d.width * d.height * 3 := by
  obtain ⟨hoX, hoY, hoW, hoH, hmX, hmY, hmW, hmH⟩ := hr
  constructor
  · by_cases hpos : oW ≤ 0 ∨ oH ≤ 0
    · rw [blit_empty_rect d o mX mY oX oY oW oH hpos]
      exact ⟨d, rfl⟩
    · rw [blit_eq_loops d o mX mY oX oY oW oH hmX hmY hoX hoY]
      exact blit_loops_total d o _ _ _ _ _ _ ho hof hd hdf (by omega) (by omega) (by omega)
        (by omega) hsmall
  · intro x y hx hy
    have h := blit_offsets d o mX.toNat mY.toNat oX.toNat oY.toNat x y ho hof hd hdf
      (by omega) (by omega) (by omega) (by omega)
    rw [Int.toNat_of_nonneg hmX, Int.toNat_of_nonneg hmY, Int.toNat_of_nonneg hoX,
      Int.toNat_of_nonneg hoY] at h
    obtain ⟨h1, h2, h3, h4, h5, h6⟩ := h
    rw [ho.2] at h3
    rw [ho.1] at h4
    rw [hd.2] at h5
    rw [hd.1] at h6
    exact ⟨h1, h2, h3, h4, h5, h6⟩

/-- Counterexample to C19 as stated: `bigSource` and the blank 1 × 1 canvas
satisfy the buffer-length invariant and the rectangle is in range of both, but
copying the last pixel of `bigSource` multiplies the `int` offset 715830024 by 3,
which overflows: the range `oOffset * 3 .. oOffset * 3 + 3` that the call reads
is not the one of the pixel. -/
theorem blit_big_source_overflows :
    (Bitmap.blank 1 1).lengthsOk ∧ bigSource.lengthsOk ∧
    (Bitmap.blank 1 1).fits ∧ bigSource.fits ∧
    blitInRange (Bitmap.blank 1 1) 0 0 bigSource 26754 26754 1 1 ∧
    blit (Bitmap.blank 1 1) 0 0 bigSource 26754 26754 1 1 = .error .undefined := by
  refine ⟨by decide, bigSource_lengthsOk, by decide, bigSource_fits, ?_, blit_bigSource⟩
  unfold blitInRange
  rw [bigSource_width, bigSource_height]
  decide

/-! ## `blit` is idempotent -/

/-- Claim C21.  `blit` is idempotent: whenever a `blit` call on a destination
with a source that is a separate canvas ends with a result, the same call on
that result returns it unchanged; so two such calls in succession have the
outcome of one.  For canvases that satisfy the buffer-length invariant, a
rectangle in range of both and a source buffer shorter than `2^31` bytes, the
call does end with a result. -/
theorem blit_idempotent (d o : Bitmap) (mX mY oX oY oW oH : Int) :
    (∀ d1, blit d mX mY o oX oY oW oH = .ok d1 → blit d1 mX mY o oX oY oW oH = .ok d1) ∧
    (blit d mX mY o oX oY oW oH >>= fun d1 => blit d1 mX mY o oX oY oW oH)
      = blit d mX mY o oX oY oW oH ∧
    (d.lengthsOk → o.lengthsOk → d.fits → o.fits → blitInRange d mX mY o oX oY oW oH →
      o.pixels.length < 2147483648 →
      ∃ d1, blit d mX mY o oX oY oW oH = .ok d1 ∧ blit d1 mX mY o oX oY oW oH = .ok d1) := by
  refine ⟨fun d1 h => blit_again d o d1 mX mY oX oY oW oH h,
    blit_bind_self d o mX mY oX oY oW oH, ?_⟩
  intro hd ho hdf hof hr hsmall
  obtain ⟨hoX, hoY, hoW, hoH, hmX, hmY, hmW, hmH⟩ := hr
  have hex : ∃ d1, blit d mX mY o oX oY oW oH = .ok d1 := by
    by_cases hpos : oW ≤ 0 ∨ oH ≤ 0
    · rw [blit_empty_rect d o mX mY oX oY oW oH hpos]
      exact ⟨d, rfl⟩
    · rw [blit_eq_loops d o mX mY oX oY oW oH hmX hmY hoX hoY]
      exact blit_loops_total d o _ _ _ _ _ _ ho hof hd hdf (by omega) (by omega) (by omega)
        (by omega) hsmall
  obtain ⟨d1, h1⟩ := hex
  exact ⟨d1, h1, blit_again d o d1 mX mY oX oY oW oH h1⟩
/-! ## Runs on sample inputs -/

/-- Witness for C1: blitting the opaque red 1 × 1 canvas onto `(1, 1)` of the
blank 2 × 2 canvas makes pixel `(1, 1)` opaque red. -/
theorem blit_copies_opaque_skips_transparent_witness :
    (Bitmap.blank 2 2).lengthsOk ∧ redPixel.lengthsOk ∧
    (Bitmap.blank 2 2).fits ∧ redPixel.fits ∧
    blitInRange (Bitmap.blank 2 2) 1 1 redPixel 0 0 1 1 ∧
    redPixel.pixels.length < 2147483648 ∧
    blit (Bitmap.blank 2 2) 1 1 redPixel 0 0 1 1 = .ok blitSampleResult ∧
    blitSampleResult.opacityAt 1 1 = some true ∧
    blitSampleResult.rgbAt 1 1 = some (255, 0, 0) := by
  obtain ⟨d', hd', hpix⟩ := blit_copies_opaque_skips_transparent (Bitmap.blank 2 2)
    redPixel 1 1 0 0 1 1 (by decide) (by decide) (by decide) (by decide) (by decide)
    (by decide)
  have hrun : blit (Bitmap.blank 2 2) 1 1 redPixel 0 0 1 1 = .ok blitSampleResult := by decide
  rw [hrun] at hd'
  cases hd'
  have hp := hpix 0 0 (by decide) (by decide)
  exact ⟨by decide, by decide, by decide, by decide, by decide, by decide, hrun, hp.1,
    hp.2.1.trans (by decide)⟩

/-- Witness for C2: in a program with the blank 2 × 1 canvas and the red pixel,
blitting the red pixel onto `(1, 0)` of the blank canvas leaves the red pixel as
it was, and leaves pixel `(0, 0)` of the destination, which lies outside the
target rectangle, as it was. -/
theorem blit_frame_witness :
    (Bitmap.blank 2 1).lengthsOk ∧ redPixel.lengthsOk ∧
    (Bitmap.blank 2 1).fits ∧ redPixel.fits ∧
    blitInRange (Bitmap.blank 2 1) 1 0 redPixel 0 0 1 1 ∧
    redPixel.pixels.length < 2147483648 ∧
    blitRef 0 1 1 0 0 0 1 1 [Bitmap.blank 2 1, redPixel]
      = .ok [⟨2, 1, [0, 0, 0, 255, 0, 0], [false, true]⟩, redPixel] ∧
    (⟨2, 1, [0, 0, 0, 255, 0, 0], [false, true]⟩ : Bitmap).opacityAt 0 0
      = (Bitmap.blank 2 1).opacityAt 0 0 ∧
    (⟨2, 1, [0, 0, 0, 255, 0, 0], [false, true]⟩ : Bitmap).rgbAt 0 0
      = (Bitmap.blank 2 1).rgbAt 0 0 := by
  obtain ⟨objs', d', hrun', hsrc, -, -, hdst, -, -, -, -, hpix⟩ :=
    blit_frame [Bitmap.blank 2 1, redPixel] 0 1 (Bitmap.blank 2 1) redPixel 1 0 0 0 1 1
      (by decide) rfl rfl (by decide) (by decide) (by decide) (by decide) (by decide)
      (by decide)
  have hrun : blitRef 0 1 1 0 0 0 1 1 [Bitmap.blank 2 1, redPixel]
      = .ok [⟨2, 1, [0, 0, 0, 255, 0, 0], [false, true]⟩, redPixel] := by decide
  rw [hrun] at hrun'
  cases hrun'
  cases hdst
  have hp := hpix 0 0 (by decide) (by decide) (by decide)
  exact ⟨by decide, by decide, by decide, by decide, by decide, by decide, hrun, hp.1, hp.2⟩

/-- Witness for C4: `Bitmap(2, 2)` has twelve zero bytes and four false flags. -/
theorem blank_canvas_sizes_witness :
    2 * 2 * 3 < 4294967296 ∧
    (Bitmap.blank 2 2).pixels = List.replicate (2 * 2 * 3) 0 ∧
    (Bitmap.blank 2 2).alpha = List.replicate (2 * 2) false :=
  ⟨by decide, (blank_canvas_sizes 2 2).2.2.2.2 (by decide)⟩

set_option maxRecDepth 100000 in
/-- Witness for C5: the invariant on a blank canvas, on the canvases decoded from
the three sample images, and after a `blit`. -/
theorem lengths_invariant_witness :
    (Bitmap.blank 3 2).lengthsOk ∧
    readFromXyz xyzSampleInflate xyzSampleFile = .ok xyzSampleResult ∧
    xyzSampleResult.lengthsOk ∧
    readFromBmp bmpSampleFile = .ok bmpSampleResult ∧
    bmpSampleResult.lengthsOk ∧
    rgbaSampleInfo.fromLibpng ∧
    readFromPng (fun _ => some rgbaSampleInfo) (some pngSignature) = .ok rgbaSampleResult ∧
    rgbaSampleResult.lengthsOk ∧
    blit (Bitmap.blank 2 2) 1 1 redPixel 0 0 1 1 = .ok blitSampleResult ∧
    blitSampleResult.lengthsOk := by
  have hx : readFromXyz xyzSampleInflate xyzSampleFile = .ok xyzSampleResult := by decide
  have hb : readFromBmp bmpSampleFile = .ok bmpSampleResult := by decide
  have hp : readFromPng (fun _ => some rgbaSampleInfo) (some pngSignature)
      = .ok rgbaSampleResult := by decide
  have hl : blit (Bitmap.blank 2 2) 1 1 redPixel 0 0 1 1 = .ok blitSampleResult := by decide
  have hwf : rgbaSampleInfo.fromLibpng := by decide
  exact ⟨lengths_invariant.2.1 3 2 (by decide), hx, lengths_invariant.2.2.1 _ _ _ hx, hb,
    lengths_invariant.2.2.2.1 _ _ hb, hwf,
    hp, lengths_invariant.2.2.2.2.1 (fun _ => some rgbaSampleInfo) _ _
      (fun _ info hi => by cases hi; exact hwf) hp,
    hl, (lengths_invariant.2.2.2.2.2 _ _ _ _ _ _ _ _ _ hl).2.2.2.2 (by decide)⟩

set_option maxRecDepth 100000 in
/-- Witness for C6: width 2, height 1, palette entry 1 = (255, 0, 0) and indices
`1, 0` decode to an opaque red pixel and a transparent pixel. -/
theorem readFromXyz_pixels_witness :
    readFromXyz xyzSampleInflate xyzSampleFile = .ok xyzSampleResult ∧
    xyzSampleResult.opacityAt 0 0 = some true ∧
    xyzSampleResult.rgbAt 0 0 = some (255, 0, 0) ∧
    xyzSampleResult.opacityAt 1 0 = some false ∧
    ∃ data : List Byte, xyzSampleInflate (xyzSampleFile.drop 8) = some data ∧
      ∃ idx r g b : Byte,
        (data.drop (256 * 3))[0 * xyzSampleResult.width + 1]? = some idx ∧
        (data.take (256 * 3))[idx.val * 3]? = some r ∧
        (data.take (256 * 3))[idx.val * 3 + 1]? = some g ∧
        (data.take (256 * 3))[idx.val * 3 + 2]? = some b ∧
        xyzSampleResult.opacityAt 1 0 = some (idx != 0) ∧
        xyzSampleResult.rgbAt 1 0 = some (r, g, b) := by
  have hrun : readFromXyz xyzSampleInflate xyzSampleFile = .ok xyzSampleResult := by decide
  obtain ⟨data, hinf, -, -, -, -, hpix⟩ :=
    readFromXyz_pixels xyzSampleInflate xyzSampleFile xyzSampleResult hrun
  exact ⟨hrun, by decide, by decide, by decide, data, hinf,
    hpix 1 0 (by decide) (by decide)⟩

/-- Witness for C7: the bottom-up sample BMP puts its second stored row on top. -/
theorem readFromBmp_pixels_witness :
    readFromBmp bmpSampleFile = .ok bmpSampleResult ∧
    bmpSampleResult.opacityAt 0 0 = some false ∧
    bmpSampleResult.rgbAt 0 0 = some (30, 20, 10) ∧
    bmpSampleResult.opacityAt 0 1 = some true ∧
    bmpSampleResult.rgbAt 0 1 = some (60, 50, 40) ∧
    ∃ (hf : Int) (palette bmpPixels : List Byte),
      hf = toInt (leValue ((bmpSampleFile.drop 22).take 4)) ∧
      bmpSampleResult.height = hf.natAbs ∧
      ∃ idx r g b : Byte,
        bmpPixels[(if hf < 0 then 0 else bmpSampleResult.height - 1 - 0)
          * bmpSampleResult.width + 0]? = some idx ∧
        palette[idx.val * 4 + 2]? = some r ∧
        palette[idx.val * 4 + 1]? = some g ∧
        palette[idx.val * 4 + 0]? = some b ∧
        bmpSampleResult.opacityAt 0 0 = some (idx != 0) ∧
        bmpSampleResult.rgbAt 0 0 = some (r, g, b) := by
  have hrun : readFromBmp bmpSampleFile = .ok bmpSampleResult := by decide
  obtain ⟨hf, palette, bmpPixels, hhf, hh, -, -, hpix⟩ :=
    readFromBmp_pixels bmpSampleFile bmpSampleResult hrun
  exact ⟨hrun, by decide, by decide, by decide, by decide, hf, palette, bmpPixels, hhf, hh,
    hpix 0 0 (by decide) (by decide)⟩

/-- Witness for C8: in the sample RGBA image the pixel with alpha byte 1 decodes
to an opaque pixel and the pixel with alpha byte 0 to a transparent one. -/
theorem readFromPng_rgba_pixels_witness :
    rgbaSampleInfo.colorType = PNG_COLOR_TYPE_RGBA ∧ rgbaSampleInfo.fromLibpng ∧
    readFromPng (fun _ => some rgbaSampleInfo) (some pngSignature) = .ok rgbaSampleResult ∧
    rgbaSampleResult.opacityAt 0 0 = some true ∧
    rgbaSampleResult.opacityAt 1 0 = some false ∧
    ∃ (row : List Byte) (r g b al : Byte), rgbaSampleInfo.rows[0]? = some row ∧
      row[0 * 4]? = some r ∧ row[0 * 4 + 1]? = some g ∧ row[0 * 4 + 2]? = some b ∧
      row[0 * 4 + 3]? = some al ∧
      rgbaSampleResult.opacityAt 0 0 = some (al != 0) ∧
      rgbaSampleResult.rgbAt 0 0 = some (r, g, b) := by
  have hrun : readFromPng (fun _ => some rgbaSampleInfo) (some pngSignature)
      = .ok rgbaSampleResult := by decide
  have h := readFromPng_rgba_pixels (fun _ => some rgbaSampleInfo) pngSignature
    rgbaSampleInfo rfl (by decide) (by decide)
  exact ⟨by decide, by decide, hrun, by decide, by decide,
    (h.2 rgbaSampleResult hrun).2.2 0 0 (by decide) (by decide)⟩

/-- Witness for C10: the sample canvas with one opaque and one transparent pixel
is written with alpha bytes 255 and 0 and is read back unchanged. -/
theorem writeToPng_readFromPng_roundtrip_witness :
    rgbaSampleResult.lengthsOk ∧ quietWriter.succeeds ∧
    pngCheckIHDR rgbaSampleResult.width rgbaSampleResult.height = true ∧
    rgbaSampleResult.pixels.length ≤ 2147483650 ∧
    writeToPng rgbaSampleResult quietWriter = .ok [[10, 20, 30, 255, 40, 50, 60, 0]] ∧
    readFromPng
      (fun _ => some
        { width := rgbaSampleResult.width, height := rgbaSampleResult.height,
          colorType := PNG_COLOR_TYPE_RGBA,
          rows := [[10, 20, 30, 255, 40, 50, 60, 0]], palette := [] })
      (some pngSignature) = .ok rgbaSampleResult := by
  obtain ⟨rows, hrows, -, hread, -⟩ := writeToPng_readFromPng_roundtrip rgbaSampleResult
    quietWriter (by decide) ⟨rfl, rfl, fun _ => rfl⟩ (by decide) (by decide)
  have hrun : writeToPng rgbaSampleResult quietWriter
      = .ok [[10, 20, 30, 255, 40, 50, 60, 0]] := by decide
  rw [hrun] at hrows
  cases hrows
  exact ⟨by decide, ⟨rfl, rfl, fun _ => rfl⟩, by decide, by decide, hrun,
    hread _ pngSignature (by decide) rfl⟩

/-- Witness for C11: the sample canvas with one opaque and one transparent pixel
is written as one row of eight bytes, RGB followed by 255 and RGB followed by 0. -/
theorem writeToPng_row_layout_witness :
    rgbaSampleResult.lengthsOk ∧ quietWriter.succeeds ∧
    pngCheckIHDR rgbaSampleResult.width rgbaSampleResult.height = true ∧
    rgbaSampleResult.pixels.length ≤ 2147483650 ∧
    writeToPng rgbaSampleResult quietWriter = .ok [[10, 20, 30, 255, 40, 50, 60, 0]] ∧
    ([[10, 20, 30, 255, 40, 50, 60, 0]] : List (List Byte)).length
      = rgbaSampleResult.height ∧
    ∃ row : List Byte, ([[10, 20, 30, 255, 40, 50, 60, 0]] : List (List Byte))[0]? = some row ∧
      row.length = rgbaSampleResult.width * 4 := by
  obtain ⟨rows, hrows, hlen, hlay⟩ := writeToPng_row_layout rgbaSampleResult
    quietWriter (by decide) ⟨rfl, rfl, fun _ => rfl⟩ (by decide) (by decide)
  have hrun : writeToPng rgbaSampleResult quietWriter
      = .ok [[10, 20, 30, 255, 40, 50, 60, 0]] := by decide
  rw [hrun] at hrows
  cases hrows
  obtain ⟨row, hr, hrl, -⟩ := hlay 0 (by decide)
  exact ⟨by decide, ⟨rfl, rfl, fun _ => rfl⟩, by decide, by decide, hrun, hlen, row, hr,
    hrl⟩

/-- Witness for C12: four zero bytes are rejected, and so is the bare header of a
1 × 1 image. -/
theorem readFromXyz_format_errors_witness :
    (4 ≤ ([0, 0, 0, 0] : List Byte).length ∧
      ([0, 0, 0, 0] : List Byte).take 4 ≠ xyzMagicNumber ∧
      readFromXyz xyzSampleInflate [0, 0, 0, 0]
        = .error (.thrown "not a valid XYZ file")) ∧
    (([88, 89, 90, 49, 1, 0, 1, 0] : List Byte).length = 8 ∧
      ([88, 89, 90, 49, 1, 0, 1, 0] : List Byte).take 4 = xyzMagicNumber ∧
      readFromXyz xyzSampleInflate [88, 89, 90, 49, 1, 0, 1, 0]
        = .error (.thrown "not a valid XYZ file")) :=
  ⟨⟨by decide, by decide,
      (readFromXyz_format_errors xyzSampleInflate [0, 0, 0, 0]).1 (by decide) (by decide)⟩,
    ⟨by decide, by decide,
      (readFromXyz_format_errors xyzSampleInflate [88, 89, 90, 49, 1, 0, 1, 0]).2
        (by decide) (by decide)⟩⟩

/-- Witness for C13: on the sample file a failing zlib gives "zlib error", and a
zlib that yields a single byte gives "uncompressed image data too small". -/
theorem readFromXyz_zlib_size_witness :
    8 < xyzSampleFile.length ∧ xyzSampleFile.take 4 = xyzMagicNumber ∧
    readFromXyz (fun _ => none) xyzSampleFile = .error (.thrown "zlib error") ∧
    readFromXyz (fun _ => some [0]) xyzSampleFile
      = .error (.thrown "uncompressed image data too small") :=
  ⟨by decide, by decide,
    (readFromXyz_zlib_size (fun _ => none) xyzSampleFile (by decide) (by decide)).1 rfl,
    (readFromXyz_zlib_size (fun _ => some [0]) xyzSampleFile (by decide) (by decide)).2.2.1
      [0] rfl (by decide)⟩

/-- Witness for C14: two zero bytes are rejected as not a BMP file, and the sample
file with its plane count changed to 2 is rejected for its plane count. -/
theorem readFromBmp_header_errors_witness :
    (2 ≤ ([0, 0] : List Byte).length ∧ ([0, 0] : List Byte).take 2 ≠ bmpMagicNumber ∧
      readFromBmp [0, 0] = .error (.thrown "not a valid BMP file")) ∧
    (bmpTwoPlanesFile.take 2 = bmpMagicNumber ∧
      leValue ((bmpTwoPlanesFile.drop 18).take 4) ≠ 0 ∧
      toInt (leValue ((bmpTwoPlanesFile.drop 22).take 4)) ≠ 0 ∧
      toInt (leValue ((bmpTwoPlanesFile.drop 22).take 4)) ≠ -2147483648 ∧
      28 ≤ bmpTwoPlanesFile.length ∧ leValue ((bmpTwoPlanesFile.drop 26).take 2) ≠ 1 ∧
      readFromBmp bmpTwoPlanesFile = .error (.thrown "number of BMP planes is not 1")) :=
  ⟨⟨by decide, by decide, (readFromBmp_header_errors [0, 0]).1 (by decide) (by decide)⟩,
    ⟨by decide, by decide, by decide, by decide, by decide, by decide,
      ((readFromBmp_header_errors bmpTwoPlanesFile).2 (by decide) (by decide) (by decide)
        (by decide)).1 (by decide) (by decide)⟩⟩

/-- Witness for C16: the 2 × 1 palette image with the index bytes `1, 0` decodes
to an opaque red pixel and a transparent one, although its `tRNS` chunk marks
entry 0 as opaque. -/
theorem readFromPng_palette_pixels_witness :
    paletteSampleInfo.colorType = PNG_COLOR_TYPE_PALETTE ∧ paletteSampleInfo.fromLibpng ∧
    paletteSampleInfo.trans = [255, 255] ∧
    readFromPng (fun _ => some paletteSampleInfo) (some pngSignature)
      = .ok paletteSampleResult ∧
    paletteSampleResult.opacityAt 0 0 = some true ∧
    paletteSampleResult.rgbAt 0 0 = some (255, 0, 0) ∧
    paletteSampleResult.opacityAt 1 0 = some false ∧
    paletteSampleResult.width = paletteSampleInfo.width := by
  have h := readFromPng_palette_pixels (fun _ => some paletteSampleInfo) pngSignature
    paletteSampleInfo rfl (by decide) (by decide)
  have hrun : readFromPng (fun _ => some paletteSampleInfo) (some pngSignature)
      = .ok paletteSampleResult := by decide
  exact ⟨by decide, by decide, by decide, hrun, by decide, by decide, by decide,
    (h.2.1 _ hrun).1⟩

/-- Witness for C17: the 2 × 1 RGB image decodes to two opaque pixels with the
bytes of its row. -/
theorem readFromPng_opaque_pixels_witness :
    rgbSampleInfo.colorType = PNG_COLOR_TYPE_RGB ∧ rgbSampleInfo.fromLibpng ∧
    readFromPng (fun _ => some rgbSampleInfo) (some pngSignature) = .ok rgbSampleResult ∧
    rgbSampleResult.opacityAt 1 0 = some true ∧
    rgbSampleResult.rgbAt 1 0 = some (40, 50, 60) ∧
    graySampleInfo.colorType = PNG_COLOR_TYPE_GRAY ∧ graySampleInfo.fromLibpng ∧
    readFromPng (fun _ => some graySampleInfo) (some pngSignature) = .ok graySampleResult ∧
    graySampleResult.opacityAt 1 0 = some true ∧
    graySampleResult.rgbAt 0 0 = some (7, 7, 7) := by
  have h := (readFromPng_opaque_pixels (fun _ => some rgbSampleInfo) pngSignature
    rgbSampleInfo rfl (by decide)).1 (by decide)
  have hrun : readFromPng (fun _ => some rgbSampleInfo) (some pngSignature)
      = .ok rgbSampleResult := by decide
  obtain ⟨_, _, _, _, _, _, _, _, ha, _⟩ :=
    (h.2 rgbSampleResult hrun).2.2 1 0 (by decide) (by decide)
  exact ⟨by decide, by decide, hrun, ha, by decide, by decide, by decide, by decide,
    by decide, by decide⟩

/-- Witness for C18: `A.PNG` and `a.png` both have the extension `png` and run
`readFromPng`; `a.gif` and `noext` run no decoder. -/
theorem Bitmap_ofFile_dispatch_witness :
    Util.getExtension (ascii "A.PNG") = ascii "png" ∧
    Util.getExtension (ascii "a.png") = ascii "png" ∧
    Bitmap.ofFile (fun _ => some pngSignature) xyzSampleInflate
      (fun _ => some rgbaSampleInfo) (ascii "A.PNG")
      = readFromPng (fun _ => some rgbaSampleInfo) (some pngSignature) ∧
    Bitmap.ofFile (fun _ => some pngSignature) xyzSampleInflate
      (fun _ => some rgbaSampleInfo) (ascii "a.png")
      = readFromPng (fun _ => some rgbaSampleInfo) (some pngSignature) ∧
    Bitmap.ofFile (fun _ => some pngSignature) xyzSampleInflate
      (fun _ => some rgbaSampleInfo) (ascii "a.gif")
      = .error (.thrown "could not determine file type") ∧
    Bitmap.ofFile (fun _ => some pngSignature) xyzSampleInflate
      (fun _ => some rgbaSampleInfo) (ascii "noext")
      = .error (.thrown "could not determine file type") :=
  ⟨by decide, by decide,
    (Bitmap_ofFile_dispatch (fun _ => some pngSignature) xyzSampleInflate
      (fun _ => some rgbaSampleInfo) (ascii "A.PNG")).2.2.2.2.2.1 (by decide),
    (Bitmap_ofFile_dispatch (fun _ => some pngSignature) xyzSampleInflate
      (fun _ => some rgbaSampleInfo) (ascii "a.png")).2.2.2.2.2.1 (by decide),
    (Bitmap_ofFile_dispatch (fun _ => some pngSignature) xyzSampleInflate
      (fun _ => some rgbaSampleInfo) (ascii "a.gif")).2.2.2.2.2.2.2.1
      (by decide) (by decide) (by decide),
    (Bitmap_ofFile_dispatch (fun _ => some pngSignature) xyzSampleInflate
      (fun _ => some rgbaSampleInfo) (ascii "noext")).2.2.2.2.2.2.2.2 (by decide)⟩

/-- Witness for C19: blitting the red 1 × 1 canvas onto `(1, 1)` of the blank
2 × 2 canvas ends with a result, and the destination offset of its pixel is 3. -/
theorem blit_in_bounds_witness :
    (Bitmap.blank 2 2).lengthsOk ∧ redPixel.lengthsOk ∧
    (Bitmap.blank 2 2).fits ∧ redPixel.fits ∧
    blitInRange (Bitmap.blank 2 2) 1 1 redPixel 0 0 1 1 ∧
    redPixel.pixels.length < 2147483648 ∧
    (∃ d', blit (Bitmap.blank 2 2) 1 1 redPixel 0 0 1 1 = .ok d') ∧
    (1 + 0) * (Bitmap.blank 2 2).width + (1 + 0)
      < (Bitmap.blank 2 2).width * (Bitmap.blank 2 2).height := by
  have h := blit_in_bounds (Bitmap.blank 2 2) redPixel 1 1 0 0 1 1
    (by decide) (by decide) (by decide) (by decide) (by decide) (by decide)
  exact ⟨by decide, by decide, by decide, by decide, by decide, by decide, h.1,
    (h.2 0 0 (by decide) (by decide)).2.2.2.2.1⟩

/-- Witness for C21: blitting the red 1 × 1 canvas onto `(1, 1)` of the blank
2 × 2 canvas gives `blitSampleResult`, and the same call on `blitSampleResult`
gives `blitSampleResult` again. -/
theorem blit_idempotent_witness :
    blit (Bitmap.blank 2 2) 1 1 redPixel 0 0 1 1 = .ok blitSampleResult ∧
    blit blitSampleResult 1 1 redPixel 0 0 1 1 = .ok blitSampleResult ∧
    blitSampleResult ≠ Bitmap.blank 2 2 := by
  have hrun : blit (Bitmap.blank 2 2) 1 1 redPixel 0 0 1 1 = .ok blitSampleResult := by decide
  exact ⟨hrun,
    (blit_idempotent (Bitmap.blank 2 2) redPixel 1 1 0 0 1 1).1 blitSampleResult hrun,
    by decide⟩
end Rpgtools
